import Mathlib

/-!
Terraform AWS provider: resource handlers and finders.

A shallow embedding of the handlers of `aws/`, of the finders of
`aws/internal/service/rds/finder/finder.go`, of the status functions of
`aws/internal/service/storagegateway/waiter/status.go`, and a model of the DataSync location URI
function that `aws/internal/service/datasync/uri_test.go` tests.

Conventions of the embedding:

* a Go pointer `*T` is `Option T`, `nil` being `none`;
* a Go result pair `(*T, error)` is `Option T × Option GoError`;
* a Go slice is `GoSlice α`, which keeps the nil slice apart from the empty one;
* the elements of a slice of structures that the AWS SDK deserialised are values, except where
  the source itself compares an element with `nil`;
* a dereference of a nil pointer is the outcome `Outcome.panicked`;
* the AWS API is a record of response functions (`conn`), and a handler returns the list of the
  API calls it made next to its result.
-/

namespace TerraformAws

/-! ## Go values and errors -/

/-- A Go slice: `none` is the nil slice, `some []` the empty non-nil slice. -/
abbrev GoSlice (α : Type) := Option (List α)

/-- The elements a `for ... range` loop over the slice visits. -/
def GoSlice.elems {α : Type} : GoSlice α → List α
  | none => []
  | some l => l

/-- Go `len` of a slice. -/
def GoSlice.len {α : Type} (s : GoSlice α) : Nat := s.elems.length

/-- Go `append(s, x)`: the result is never the nil slice. -/
def GoSlice.append {α : Type} (s : GoSlice α) (x : α) : GoSlice α := some (s.elems ++ [x])

/-- The result of running Go code that may dereference a nil pointer. -/
inductive Outcome (α : Type) where
  | returned (a : α)
  | panicked
  deriving DecidableEq, Repr

/-- Go error values, as far as the handlers tell them apart.
`awsErr` is an `awserr.Error`; `notFound` and `notFoundLast` are a `*resource.NotFoundError`
without and with a `LastError`; `wrapped` is `fmt.Errorf("...: %w", inner)`; `plain` is any other
error; `timeout` and `timeoutLast` are a `*resource.TimeoutError` without and with a
`LastError`. -/
inductive GoError where
  | awsErr (code message : String)
  | notFound (message : String) (lastRequest : Option String)
  | notFoundLast (lastError : GoError) (message : String) (lastRequest : Option String)
  | plain (message : String)
  | wrapped (message : String) (inner : GoError)
  | timeout
  | timeoutLast (lastError : GoError)
  deriving DecidableEq, Repr

/-- The first `awserr.Error` of the error chain (`errors.As`), as code and message. -/
def GoError.asAwsErr : GoError → Option (String × String)
  | .awsErr c m => some (c, m)
  | .notFound _ _ => none
  | .notFoundLast e _ _ => e.asAwsErr
  | .plain _ => none
  | .wrapped _ e => e.asAwsErr
  | .timeout => none
  | .timeoutLast e => e.asAwsErr

/-- Whether the error chain holds a `*resource.NotFoundError` (`errors.As`). -/
def GoError.asNotFound : GoError → Bool
  | .awsErr _ _ => false
  | .notFound _ _ => true
  | .notFoundLast _ _ _ => true
  | .plain _ => false
  | .wrapped _ e => e.asNotFound
  | .timeout => false
  | .timeoutLast e => e.asNotFound

/-- The method `Error`: the text of the error. -/
def GoError.Error : GoError → String
  | .awsErr c m => c ++ ": " ++ m
  | .notFound m _ => if m = "" then "couldn't find resource" else m
  | .notFoundLast e m _ => if m = "" then "couldn't find resource (last error: " ++ e.Error ++ ")" else m
  | .plain m => m
  | .wrapped m e => m ++ ": " ++ e.Error
  | .timeout => "timeout while waiting for state"
  | .timeoutLast e => "timeout while waiting for state: " ++ e.Error

/-- Whether the error value itself is a `*resource.NotFoundError`. -/
def GoError.isNotFoundError : GoError → Bool
  | .notFound _ _ => true
  | .notFoundLast _ _ _ => true
  | _ => false

/-- Whether `e` is `target` or wraps it somewhere down its chain. -/
def GoError.carries (target : GoError) (e : GoError) : Bool :=
  decide (e = target) ||
    match e with
    | .notFoundLast inner _ _ => GoError.carries target inner
    | .wrapped _ inner => GoError.carries target inner
    | .timeoutLast inner => GoError.carries target inner
    | _ => false

/-- The function `aws.StringValue`: the string a pointer refers to, `""` for nil. -/
def aws.StringValue : Option String → String
  | none => ""
  | some s => s

/-- The function `tfawserr.ErrCodeEquals`: the error chain holds an AWS error and its code is
`code`. A nil error has no code. -/
def tfawserr.ErrCodeEquals (err : Option GoError) (code : String) : Bool :=
  match err with
  | none => false
  | some e =>
    match e.asAwsErr with
    | some (c, _) => c == code
    | none => false

/-- Modelled from the spec: `tfresource.NotFound` of `aws/internal/tfresource`, which is not among
the sources; a finder's "not found" is the typed error `resource.NotFoundError`, and the helper
recognises it anywhere in the error chain. -/
def tfresource.NotFound (err : Option GoError) : Bool :=
  match err with
  | none => false
  | some e => e.asNotFound

/-! ## Terraform plugin SDK: values and resource data -/

/-- A string, number or boolean held in an `interface{}`. -/
inductive Scalar where
  | str (s : String)
  | int (i : Int)
  | bool (b : Bool)
  deriving DecidableEq, Repr

/-- A `map[string]interface{}` with scalar values, as the list of its entries. -/
abbrev TfMap := List (String × Scalar)

/-- An `interface{}` element of a `[]interface{}`: the nil interface, a scalar, or a
`map[string]interface{}`, which may be the nil map. -/
inductive TfValue where
  | nil
  | scalar (s : Scalar)
  | map (m : Option TfMap)
  deriving DecidableEq, Repr

/-- Resource tags, a `map[string]string` as the list of its entries. -/
abbrev Tags := List (String × String)

/-- A value handed to `d.Set`. -/
inductive Value where
  | null
  | str (s : Option String)
  | strs (l : GoSlice (Option String))
  | tags (m : Tags)
  | list (l : GoSlice TfValue)
  | bool (b : Option Bool)
  deriving DecidableEq, Repr

/-- The attributes of a resource type: the keys of its schema and, for each key, whether two
attribute records differ in it. -/
class Schema (A : Type) where
  keys : List String
  differs : String → A → A → Bool

/-- The `schema.ResourceData` of a resource whose attributes are `A`: the resource ID, the
new-resource flag, the attributes of the prior state (`old`) and of the plan (`new`), and the
attribute writes made through `d.Set`, oldest first. -/
structure ResourceData (A : Type) where
  id : String
  isNewResource : Bool
  old : A
  new : A
  sets : List (String × Value)
  deriving DecidableEq, Repr

namespace ResourceData

variable {A : Type}

/-- The method `d.SetId`. -/
def SetId (d : ResourceData A) (v : String) : ResourceData A := { d with id := v }

/-- The method `d.Set`; the handlers pass values of the attribute's own type, for which it returns
no error. -/
def Set (d : ResourceData A) (key : String) (v : Value) : ResourceData A :=
  { d with sets := d.sets ++ [(key, v)] }

/-- The method `d.HasChange`. -/
def HasChange [Schema A] (d : ResourceData A) (key : String) : Bool :=
  Schema.differs key d.old d.new

/-- The method `d.HasChangesExcept`: some attribute outside `keys` has changed. -/
def HasChangesExcept [Schema A] (d : ResourceData A) (keys : List String) : Bool :=
  (Schema.keys A).any (fun k => !keys.contains k && d.HasChange k)

/-- The method `d.HasChangeExcept`. -/
def HasChangeExcept [Schema A] (d : ResourceData A) (key : String) : Bool :=
  (Schema.keys A).any (fun k => k != key && d.HasChange k)

end ResourceData

/-- The part of `AWSClient` that does not depend on the service: account, partition, region, and
the tag helpers of `aws/internal/keyvaluetags`, which is not among the sources, with the client's
default-tags and ignore-tags configuration applied. -/
structure ClientConfig where
  accountid : String
  partition : String
  region : String
  MergeTags : Tags → Tags
  IgnoreAws : Tags → Tags
  IgnoreConfig : Tags → Tags
  RemoveDefaultConfig : Tags → Tags

/-- The method `arn.ARN.String`. -/
def arnString (partition service region accountID resource : String) : String :=
  "arn:" ++ partition ++ ":" ++ service ++ ":" ++ region ++ ":" ++ accountID ++ ":" ++ resource

/-- The function `strings.Split` for a one-character separator, on the characters of the string. -/
def splitChars (sep : Char) : List Char → List (List Char)
  | [] => [[]]
  | c :: cs =>
    if c = sep then [] :: splitChars sep cs
    else
      match splitChars sep cs with
      | [] => [[c]]
      | part :: parts => (c :: part) :: parts

/-- The function `strings.Split` for a one-character separator. -/
def strings.Split (s : String) (sep : Char) : List String :=
  (splitChars sep s.data).map String.mk

/-! ## RDS finders (`aws/internal/service/rds/finder/finder.go`) -/

namespace rds

/-- The SDK constant `rds.ErrCodeDBClusterNotFoundFault`. -/
def ErrCodeDBClusterNotFoundFault : String := "DBClusterNotFoundFault"

/-- The SDK structure `rds.DBProxyTarget`, with the fields the finder reads and two more. -/
structure DBProxyTarget where
  Endpoint : Option String
  RdsResourceId : Option String
  TargetArn : Option String
  Type_ : Option String
  deriving DecidableEq, Repr

/-- One page of `DescribeDBProxyTargets`. -/
structure DescribeDBProxyTargetsOutput where
  Targets : List DBProxyTarget
  deriving DecidableEq, Repr

/-- The SDK structure `rds.DBClusterRole`. -/
structure DBClusterRole where
  FeatureName : Option String
  RoleArn : Option String
  Status : Option String
  deriving DecidableEq, Repr

/-- The SDK structure `rds.DBCluster`, with the fields the finders read. -/
structure DBCluster where
  DBClusterIdentifier : Option String
  AssociatedRoles : List DBClusterRole
  deriving DecidableEq, Repr

/-- The response of `DescribeDBClusters`; the source tests its first cluster for nil. -/
structure DescribeDBClustersOutput where
  DBClusters : List (Option DBCluster)
  deriving DecidableEq, Repr

/-- What the service answers to a paginated `DescribeDBProxyTargets`: the pages it delivers, in
order, and the error of the request after the last of them, if that request fails. -/
structure PagedTargets where
  pages : List (Option DescribeDBProxyTargetsOutput)
  err : Option GoError
  deriving DecidableEq, Repr

/-- The RDS client: what each API operation answers. -/
structure RDS where
  DescribeDBClusters : String → Option DescribeDBClustersOutput × Option GoError
  DescribeDBProxyTargets : String → String → PagedTargets

/-- The SDK paginator `DescribeDBProxyTargetsPages`, with the closure's captured variable passed as
state: the callback gets each page in order with the last-page flag, which is set on the final page
of a sequence that ended without error, and the iteration stops as soon as the callback returns
false. The error is that of the failed request, so it is nil when the callback stopped early. -/
def pagesLoop {σ : Type} (fn : σ → Option DescribeDBProxyTargetsOutput → Bool → σ × Bool)
    (err : Option GoError) : List (Option DescribeDBProxyTargetsOutput) → σ → σ × Option GoError
  | [], s => (s, err)
  | page :: rest, s =>
    let r := fn s page (rest.isEmpty && err.isNone)
    if r.2 then pagesLoop fn err rest r.1 else (r.1, none)

/-- The method `conn.DescribeDBProxyTargetsPages(input, fn)`. -/
def RDS.DescribeDBProxyTargetsPages {σ : Type} (conn : RDS) (dbProxyName targetGroupName : String)
    (fn : σ → Option DescribeDBProxyTargetsOutput → Bool → σ × Bool) (s : σ) : σ × Option GoError :=
  pagesLoop fn (conn.DescribeDBProxyTargets dbProxyName targetGroupName).err
    (conn.DescribeDBProxyTargets dbProxyName targetGroupName).pages s

end rds

namespace finder

/-- The condition of the loop of `DBProxyTarget` on one target. -/
def targetMatches (targetType rdsResourceId : String) (target : rds.DBProxyTarget) : Bool :=
  aws.StringValue target.Type_ == targetType && aws.StringValue target.RdsResourceId == rdsResourceId

/-- The page callback of `DBProxyTarget`; `dbProxyTarget` is the variable the closure captures. -/
def DBProxyTargetPage (targetType rdsResourceId : String) (dbProxyTarget : Option rds.DBProxyTarget)
    (page : Option rds.DescribeDBProxyTargetsOutput) (lastPage : Bool) :
    Option rds.DBProxyTarget × Bool :=
  match page with
  | none => (dbProxyTarget, !lastPage)
  | some page =>
    match page.Targets.find? (targetMatches targetType rdsResourceId) with
    | some target => (some target, false)
    | none => (dbProxyTarget, !lastPage)

/-- The targets of the delivered pages in page-then-item order, nil pages skipped. -/
def allTargets : List (Option rds.DescribeDBProxyTargetsOutput) → List rds.DBProxyTarget
  | [] => []
  | none :: rest => allTargets rest
  | some page :: rest => page.Targets ++ allTargets rest

/-- The finder `DBProxyTarget`. -/
def DBProxyTarget (conn : rds.RDS) (dbProxyName targetGroupName targetType rdsResourceId : String) :
    Option rds.DBProxyTarget × Option GoError :=
  conn.DescribeDBProxyTargetsPages dbProxyName targetGroupName
    (DBProxyTargetPage targetType rdsResourceId) none

/-- The `resource.NotFoundError` of `DBClusterByID` for an empty response. -/
def emptyResult (id : String) : GoError := .notFound "Empty result" (some id)

/-- The finder `DBClusterByID`. -/
def DBClusterByID (conn : rds.RDS) (id : String) : Option rds.DBCluster × Option GoError :=
  let r := conn.DescribeDBClusters id
  if tfawserr.ErrCodeEquals r.2 rds.ErrCodeDBClusterNotFoundFault then
    match r.2 with
    | some err => (none, some (.notFoundLast err "" (some id)))
    | none => (none, some (.notFound "" (some id)))
  else
    match r.1 with
    | none => (none, some (emptyResult id))
    | some output =>
      match output.DBClusters with
      | [] => (none, some (emptyResult id))
      | none :: _ => (none, some (emptyResult id))
      | some dbCluster :: _ =>
        -- Eventual consistency check.
        if aws.StringValue dbCluster.DBClusterIdentifier != id then
          (none, some (.notFound "" (some id)))
        else
          (some dbCluster, none)

/-- The loop of `DBClusterRoleByDBClusterIDAndRoleARN` over the associated roles.
`DBClusterRoleStatusDeleted` is the constant of `aws/internal/service/rds`, which is not among the
sources. -/
def findRole (DBClusterRoleStatusDeleted roleARN : String) :
    List rds.DBClusterRole → Option rds.DBClusterRole × Option GoError
  | [] => (none, some (.notFound "" none))
  | associatedRole :: rest =>
    if aws.StringValue associatedRole.RoleArn == roleARN then
      if aws.StringValue associatedRole.Status == DBClusterRoleStatusDeleted then
        (none, some (.notFound (aws.StringValue associatedRole.Status) none))
      else
        (some associatedRole, none)
    else
      findRole DBClusterRoleStatusDeleted roleARN rest

/-- The finder `DBClusterRoleByDBClusterIDAndRoleARN`. -/
def DBClusterRoleByDBClusterIDAndRoleARN (DBClusterRoleStatusDeleted : String) (conn : rds.RDS)
    (dbClusterID roleARN : String) : Option rds.DBClusterRole × Option GoError :=
  match DBClusterByID conn dbClusterID with
  | (_, some err) => (none, some err)
  | (none, none) => (none, none)
  | (some dbCluster, none) => findRole DBClusterRoleStatusDeleted roleARN dbCluster.AssociatedRoles

end finder

/-! ## AppConfig environment (`aws/resource_aws_appconfig_environment.go`) -/

namespace appconfig

/-- The SDK constant `appconfig.ErrCodeResourceNotFoundException`. -/
def ErrCodeResourceNotFoundException : String := "ResourceNotFoundException"

/-- The SDK structure `appconfig.Monitor`. -/
structure Monitor where
  AlarmArn : Option String
  AlarmRoleArn : Option String
  deriving DecidableEq, Repr

/-- The SDK structure `appconfig.GetEnvironmentOutput`. -/
structure GetEnvironmentOutput where
  ApplicationId : Option String
  Description : Option String
  Id : Option String
  Monitors : GoSlice (Option Monitor)
  Name : Option String
  State : Option String
  deriving DecidableEq, Repr

/-- The SDK structure `appconfig.UpdateEnvironmentInput`; a nil field is absent from the request. -/
structure UpdateEnvironmentInput where
  ApplicationId : Option String
  Description : Option String
  EnvironmentId : Option String
  Monitors : GoSlice (Option Monitor)
  Name : Option String
  deriving DecidableEq, Repr

/-- A call of the AppConfig handlers to the service or to the tag helpers. -/
inductive Call where
  | GetEnvironment (applicationId environmentId : String)
  | UpdateEnvironment (input : UpdateEnvironmentInput)
  | ListTags (arn : String)
  | UpdateTags (arn : String) (oldTags newTags : Tags)
  | DeleteEnvironment (applicationId environmentId : String)
  deriving DecidableEq, Repr

/-- The AppConfig client: what each operation answers. -/
structure AppConfig where
  GetEnvironment : String → String → Option GetEnvironmentOutput × Option GoError
  UpdateEnvironment : UpdateEnvironmentInput → Option GoError
  ListTags : String → Tags × Option GoError
  UpdateTags : String → Tags → Tags → Option GoError
  DeleteEnvironment : String → String → Option GoError

/-- The attributes of `aws_appconfig_environment`; `monitor` is the list of the set's elements. -/
structure EnvironmentAttrs where
  application_id : String
  environment_id : String
  arn : String
  name : String
  description : String
  monitor : List TfMap
  state : String
  tags : Tags
  tags_all : Tags
  deriving DecidableEq, Repr

instance : Schema EnvironmentAttrs where
  keys := ["application_id", "environment_id", "arn", "name", "description", "monitor", "state",
    "tags", "tags_all"]
  differs key o n :=
    if key = "application_id" then o.application_id != n.application_id
    else if key = "environment_id" then o.environment_id != n.environment_id
    else if key = "arn" then o.arn != n.arn
    else if key = "name" then o.name != n.name
    else if key = "description" then o.description != n.description
    else if key = "monitor" then o.monitor != n.monitor
    else if key = "state" then o.state != n.state
    else if key = "tags" then o.tags != n.tags
    else if key = "tags_all" then o.tags_all != n.tags_all
    else false

/-- What a handler of the environment resource leaves behind: the calls it made, in order, the
resource data, and the error it returned. -/
structure Result where
  calls : List Call
  d : ResourceData EnvironmentAttrs
  err : Option GoError
  deriving DecidableEq, Repr

end appconfig

/-- The client of the AppConfig handlers (`meta.(*AWSClient)`). -/
structure AppConfigClient extends ClientConfig where
  appconfigconn : appconfig.AppConfig

/-- The type assertion `tfMap[key].(string)`. -/
def TfMap.stringAt (tfMap : TfMap) (key : String) : Option String :=
  match tfMap.lookup key with
  | some (.str v) => some v
  | _ => none

/-- The function `resourceAwsAppconfigEnvironmentParseID`. -/
def resourceAwsAppconfigEnvironmentParseID (id : String) : String × String × Option GoError :=
  let parts := strings.Split id ':'
  if parts.length != 2 || parts.getD 0 "" == "" || parts.getD 1 "" == "" then
    ("", "", some (.plain
      ("unexpected format of ID (" ++ id.quote ++ "), expected EnvironmentID:ApplicationID")))
  else
    (parts.getD 0 "", parts.getD 1 "", none)

/-- The function `expandAppconfigEnvironmentMonitor`. -/
def expandAppconfigEnvironmentMonitor (tfMap : Option TfMap) : Option appconfig.Monitor :=
  match tfMap with
  | none => none
  | some tfMap =>
    let monitor : appconfig.Monitor := { AlarmArn := none, AlarmRoleArn := none }
    let monitor :=
      match tfMap.stringAt "alarm_arn" with
      | some v => if v != "" then { monitor with AlarmArn := some v } else monitor
      | none => monitor
    let monitor :=
      match tfMap.stringAt "alarm_role_arn" with
      | some v => if v != "" then { monitor with AlarmRoleArn := some v } else monitor
      | none => monitor
    some monitor

/-- The body of the loop of `expandAppconfigEnvironmentMonitors` for one element. -/
def expandMonitorsStep (monitors : GoSlice (Option appconfig.Monitor)) (tfMapRaw : TfValue) :
    GoSlice (Option appconfig.Monitor) :=
  match tfMapRaw with
  | .map tfMap =>
    match expandAppconfigEnvironmentMonitor tfMap with
    | none => monitors
    | some monitor => monitors.append (some monitor)
  | _ => monitors

/-- The function `expandAppconfigEnvironmentMonitors`. -/
def expandAppconfigEnvironmentMonitors (tfList : GoSlice TfValue) :
    GoSlice (Option appconfig.Monitor) :=
  -- AppConfig API requires a 0 length slice instead of a nil value
  -- when updating from N monitors to 0/nil monitors
  tfList.elems.foldl expandMonitorsStep (some [])

/-- Whether an element of a `[]interface{}` is a `map[string]interface{}`, the nil map included:
the elements for which the type assertion of `expandAppconfigEnvironmentMonitors` succeeds. -/
def TfValue.isMap : TfValue → Bool
  | .map _ => true
  | _ => false

/-- Whether an element of a `[]interface{}` is a `map[string]interface{}` other than the nil map. -/
def TfValue.isNonNilMap : TfValue → Bool
  | .map (some _) => true
  | _ => false

/-- The monitor that `expandAppconfigEnvironmentMonitors` appends for an element, if any. -/
def TfValue.expanded : TfValue → Option (Option appconfig.Monitor)
  | .map (some m) => some (expandAppconfigEnvironmentMonitor (some m))
  | _ => none

/-- The function `flattenAwsAppconfigEnvironmentMonitor`. -/
def flattenAwsAppconfigEnvironmentMonitor (monitor : Option appconfig.Monitor) : Option TfMap :=
  match monitor with
  | none => none
  | some monitor =>
    let tfMap : TfMap := []
    let tfMap :=
      match monitor.AlarmArn with
      | some v => tfMap ++ [("alarm_arn", Scalar.str v)]
      | none => tfMap
    let tfMap :=
      match monitor.AlarmRoleArn with
      | some v => tfMap ++ [("alarm_role_arn", Scalar.str v)]
      | none => tfMap
    some tfMap

/-- The body of the loop of `flattenAwsAppconfigEnvironmentMonitors` for one element. -/
def flattenMonitorsStep (tfList : GoSlice TfValue) (monitor : Option appconfig.Monitor) :
    GoSlice TfValue :=
  match monitor with
  | none => tfList
  | some monitor => tfList.append (.map (flattenAwsAppconfigEnvironmentMonitor (some monitor)))

/-- The function `flattenAwsAppconfigEnvironmentMonitors`. -/
def flattenAwsAppconfigEnvironmentMonitors (monitors : GoSlice (Option appconfig.Monitor)) :
    GoSlice TfValue :=
  if monitors.len == 0 then none
  else monitors.elems.foldl flattenMonitorsStep none

/-- The handler `resourceAwsAppconfigEnvironmentRead`; `calls` are the calls made before it. -/
def resourceAwsAppconfigEnvironmentRead (calls : List appconfig.Call)
    (d : ResourceData appconfig.EnvironmentAttrs) (meta : AppConfigClient) : appconfig.Result :=
  let conn := meta.appconfigconn
  let parsed := resourceAwsAppconfigEnvironmentParseID d.id
  let envID := parsed.1
  let appID := parsed.2.1
  match parsed.2.2 with
  | some err => { calls := calls, d := d, err := some err }
  | none =>
    let got := conn.GetEnvironment appID envID
    let calls := calls ++ [.GetEnvironment appID envID]
    if !d.isNewResource &&
        tfawserr.ErrCodeEquals got.2 appconfig.ErrCodeResourceNotFoundException then
      { calls := calls, d := d.SetId "", err := none }
    else
      match got.2 with
      | some err =>
        { calls := calls, d := d,
          err := some (.wrapped ("error getting AppConfig Environment (" ++ envID ++
            ") for Application (" ++ appID ++ ")") err) }
      | none =>
        match got.1 with
        | none =>
          { calls := calls, d := d,
            err := some (.plain ("error getting AppConfig Environment (" ++ envID ++
              ") for Application (" ++ appID ++ "): empty response")) }
        | some output =>
          let d := d.Set "application_id" (.str output.ApplicationId)
          let d := d.Set "environment_id" (.str output.Id)
          let d := d.Set "description" (.str output.Description)
          let d := d.Set "name" (.str output.Name)
          let d := d.Set "state" (.str output.State)
          let d := d.Set "monitor" (.list (flattenAwsAppconfigEnvironmentMonitors output.Monitors))
          let arn := arnString meta.partition "appconfig" meta.region meta.accountid
            ("application/" ++ appID ++ "/environment/" ++ envID)
          let d := d.Set "arn" (.str (some arn))
          let listed := conn.ListTags arn
          let calls := calls ++ [.ListTags arn]
          match listed.2 with
          | some err =>
            { calls := calls, d := d,
              err := some (.plain ("error listing tags for AppConfig Environment (" ++ d.id ++
                "): " ++ err.Error)) }
          | none =>
            let tags := meta.IgnoreConfig (meta.IgnoreAws listed.1)
            let d := d.Set "tags" (.tags (meta.RemoveDefaultConfig tags))
            let d := d.Set "tags_all" (.tags tags)
            { calls := calls, d := d, err := none }

/-- The `UpdateEnvironmentInput` that `resourceAwsAppconfigEnvironmentUpdate` builds. -/
def environmentUpdateInput (d : ResourceData appconfig.EnvironmentAttrs) (envID appID : String) :
    appconfig.UpdateEnvironmentInput :=
  let updateInput : appconfig.UpdateEnvironmentInput :=
    { ApplicationId := some appID, Description := none, EnvironmentId := some envID,
      Monitors := none, Name := none }
  let updateInput :=
    if d.HasChange "description" then { updateInput with Description := some d.new.description }
    else updateInput
  let updateInput :=
    if d.HasChange "name" then { updateInput with Name := some d.new.name } else updateInput
  let updateInput :=
    if d.HasChange "monitor" then
      { updateInput with
        Monitors := expandAppconfigEnvironmentMonitors
          (some (d.new.monitor.map (fun m => TfValue.map (some m)))) }
    else updateInput
  updateInput

/-- The handler `resourceAwsAppconfigEnvironmentUpdate`. -/
def resourceAwsAppconfigEnvironmentUpdate (d : ResourceData appconfig.EnvironmentAttrs)
    (meta : AppConfigClient) : appconfig.Result :=
  let conn := meta.appconfigconn
  let updated : List appconfig.Call × Option GoError :=
    if d.HasChangesExcept ["tags", "tags_all"] then
      let parsed := resourceAwsAppconfigEnvironmentParseID d.id
      let envID := parsed.1
      let appID := parsed.2.1
      match parsed.2.2 with
      | some err => ([], some err)
      | none =>
        let updateInput := environmentUpdateInput d envID appID
        match conn.UpdateEnvironment updateInput with
        | some err =>
          ([.UpdateEnvironment updateInput],
            some (.wrapped ("error updating AppConfig Environment (" ++ envID ++
              ") for Application (" ++ appID ++ ")") err))
        | none => ([.UpdateEnvironment updateInput], none)
    else ([], none)
  match updated.2 with
  | some err => { calls := updated.1, d := d, err := some err }
  | none =>
    let tagged : List appconfig.Call × Option GoError :=
      if d.HasChange "tags_all" then
        match conn.UpdateTags d.new.arn d.old.tags_all d.new.tags_all with
        | some err =>
          ([.UpdateTags d.new.arn d.old.tags_all d.new.tags_all],
            some (.wrapped ("error updating AppConfig Environment (" ++ d.new.arn ++ ") tags") err))
        | none => ([.UpdateTags d.new.arn d.old.tags_all d.new.tags_all], none)
      else ([], none)
    match tagged.2 with
    | some err => { calls := updated.1 ++ tagged.1, d := d, err := some err }
    | none => resourceAwsAppconfigEnvironmentRead (updated.1 ++ tagged.1) d meta

/-! ## ElastiCache user group (`aws/resource_aws_elasticache_user_group.go`) -/

namespace elasticache

/-- The SDK constant `elasticache.ErrCodeUserGroupNotFoundFault`. -/
def ErrCodeUserGroupNotFoundFault : String := "UserGroupNotFound"

/-- The SDK constant `endpoints.AwsPartitionID`. -/
def AwsPartitionID : String := "aws"

/-- The SDK structure `elasticache.UserGroup`. -/
structure UserGroup where
  ARN : Option String
  Engine : Option String
  Status : Option String
  UserGroupId : Option String
  UserIds : GoSlice (Option String)
  deriving DecidableEq, Repr

/-- The SDK structure `elasticache.ModifyUserGroupInput`; a nil field is absent from the request.
The two lists are kept as sets: their order on the wire is that of the set's hash codes. -/
structure ModifyUserGroupInput where
  UserGroupId : Option String
  UserIdsToAdd : Option (Finset String)
  UserIdsToRemove : Option (Finset String)
  deriving DecidableEq

/-- The SDK structure `elasticache.CreateUserGroupInput`; a nil field is absent from the request. -/
structure CreateUserGroupInput where
  Engine : Option String
  Tags : Option Tags
  UserGroupId : Option String
  UserIds : Option (Finset String)
  deriving DecidableEq

/-- A call of the user group handlers to the service, to the finder, to the waiter or to the tag
helpers. -/
inductive Call where
  | UserGroupById (id : String)
  | ModifyUserGroup (input : ModifyUserGroupInput)
  | WaitForState (id : String)
  | ListTags (arn : String)
  | UpdateTags (arn : String) (oldTags newTags : Tags)
  | CreateUserGroup (input : CreateUserGroupInput)
  deriving DecidableEq

/-- The ElastiCache client: what each operation answers. `UserGroupById` is the finder
`finder.ElastiCacheUserGroupById` and `WaitForState` the polling of the plugin SDK, neither of
which is among the sources. -/
structure ElastiCache where
  UserGroupById : String → Option UserGroup × Option GoError
  ModifyUserGroup : ModifyUserGroupInput → Option GoError
  WaitForState : String → Option GoError
  ListTags : String → Tags × Option GoError
  UpdateTags : String → Tags → Tags → Option GoError
  CreateUserGroup : CreateUserGroupInput → Option UserGroup × Option GoError

/-- The attributes of `aws_elasticache_user_group`; `user_ids` is a `schema.Set` of strings. -/
structure UserGroupAttrs where
  arn : String
  engine : String
  tags : Tags
  tags_all : Tags
  user_group_id : String
  user_ids : Finset String
  deriving DecidableEq

instance : Schema UserGroupAttrs where
  keys := ["arn", "engine", "tags", "tags_all", "user_group_id", "user_ids"]
  differs key o n :=
    if key = "arn" then o.arn != n.arn
    else if key = "engine" then o.engine != n.engine
    else if key = "tags" then o.tags != n.tags
    else if key = "tags_all" then o.tags_all != n.tags_all
    else if key = "user_group_id" then o.user_group_id != n.user_group_id
    else if key = "user_ids" then o.user_ids != n.user_ids
    else false

/-- What a handler of the user group resource leaves behind: the calls it made, in order, the
resource data, and how it ended, with the error it returned or in a panic. -/
structure Result where
  calls : List Call
  d : ResourceData UserGroupAttrs
  ret : Outcome (Option GoError)
  deriving DecidableEq

end elasticache

/-- The client of the ElastiCache handlers (`meta.(*AWSClient)`). -/
structure ElastiCacheClient extends ClientConfig where
  elasticacheconn : elasticache.ElastiCache

/-- The method `Difference` of `schema.Set`: the elements of the set that are not in `other`. -/
def schemaSetDifference (s other : Finset String) : Finset String := s \ other

/-- The handler `resourceAwsElasticacheUserGroupRead`; `calls` are the calls made before it. It
reads the fields of `resp` without testing it for nil. -/
def resourceAwsElasticacheUserGroupRead (calls : List elasticache.Call)
    (d : ResourceData elasticache.UserGroupAttrs) (meta : ElastiCacheClient) :
    elasticache.Result :=
  let conn := meta.elasticacheconn
  let found := conn.UserGroupById d.id
  let calls := calls ++ [.UserGroupById d.id]
  if !d.isNewResource && (tfresource.NotFound found.2 ||
      tfawserr.ErrCodeEquals found.2 elasticache.ErrCodeUserGroupNotFoundFault) then
    { calls := calls, d := d.SetId "", ret := .returned none }
  else
    match found.2, tfawserr.ErrCodeEquals found.2 elasticache.ErrCodeUserGroupNotFoundFault with
    | some err, false =>
      { calls := calls, d := d,
        ret := .returned (some
          (.wrapped ("error describing ElastiCache User Group (" ++ d.id ++ ")") err)) }
    | _, _ =>
      match found.1 with
      | none => { calls := calls, d := d, ret := .panicked }
      | some resp =>
        let d := d.Set "arn" (.str resp.ARN)
        let d := d.Set "engine" (.str resp.Engine)
        let d := d.Set "user_ids" (.strs resp.UserIds)
        let d := d.Set "user_group_id" (.str resp.UserGroupId)
        -- Tags are currently only supported in AWS Commercial.
        if meta.partition == elasticache.AwsPartitionID then
          let listed := conn.ListTags (aws.StringValue resp.ARN)
          let calls := calls ++ [.ListTags (aws.StringValue resp.ARN)]
          match listed.2 with
          | some err =>
            { calls := calls, d := d,
              ret := .returned (some (.wrapped ("error listing tags for ElastiCache User (" ++
                aws.StringValue resp.ARN ++ ")") err)) }
          | none =>
            let tags := meta.IgnoreConfig (meta.IgnoreAws listed.1)
            let d := d.Set "tags" (.tags (meta.RemoveDefaultConfig tags))
            let d := d.Set "tags_all" (.tags tags)
            { calls := calls, d := d, ret := .returned none }
        else
          let d := d.Set "tags" .null
          let d := d.Set "tags_all" .null
          { calls := calls, d := d, ret := .returned none }

/-- The `ModifyUserGroupInput` that `resourceAwsElasticacheUserGroupUpdate` builds, and its
variable `hasChange`, at the point where `hasChange` is tested. -/
def userGroupModifyRequest (d : ResourceData elasticache.UserGroupAttrs) :
    elasticache.ModifyUserGroupInput × Bool :=
  let hasChange := false
  let req : elasticache.ModifyUserGroupInput :=
    { UserGroupId := some d.new.user_group_id, UserIdsToAdd := none, UserIdsToRemove := none }
  if d.HasChange "user_ids" then
    let usersRemove := schemaSetDifference d.old.user_ids d.new.user_ids
    let usersAdd := schemaSetDifference d.new.user_ids d.old.user_ids
    let req := if usersAdd.card > 0 then { req with UserIdsToAdd := some usersAdd } else req
    let hasChange := if usersAdd.card > 0 then true else hasChange
    let req := if usersRemove.card > 0 then { req with UserIdsToRemove := some usersRemove } else req
    let hasChange := if usersRemove.card > 0 then true else hasChange
    (req, hasChange)
  else (req, hasChange)

/-- The handler `resourceAwsElasticacheUserGroupUpdate`. -/
def resourceAwsElasticacheUserGroupUpdate (d : ResourceData elasticache.UserGroupAttrs)
    (meta : ElastiCacheClient) : elasticache.Result :=
  let conn := meta.elasticacheconn
  let modified : List elasticache.Call × Option GoError :=
    if d.HasChangeExcept "tags_all" then
      let built := userGroupModifyRequest d
      if built.2 then
        match conn.ModifyUserGroup built.1 with
        | some err =>
          ([.ModifyUserGroup built.1],
            some (.wrapped ("error updating ElastiCache User Group (" ++ d.id.quote ++ ")") err))
        | none =>
          match conn.WaitForState d.new.user_group_id with
          | some err =>
            ([.ModifyUserGroup built.1, .WaitForState d.new.user_group_id],
              some (.wrapped ("error updating ElastiCache User Group (" ++ d.id.quote ++ ")") err))
          | none => ([.ModifyUserGroup built.1, .WaitForState d.new.user_group_id], none)
      else ([], none)
    else ([], none)
  match modified.2 with
  | some err => { calls := modified.1, d := d, ret := .returned (some err) }
  | none =>
    -- Tags are currently only supported in AWS Commercial.
    let tagged : List elasticache.Call × Option GoError :=
      if d.HasChange "tags_all" && meta.partition == elasticache.AwsPartitionID then
        match conn.UpdateTags d.new.arn d.old.tags_all d.new.tags_all with
        | some err =>
          ([.UpdateTags d.new.arn d.old.tags_all d.new.tags_all],
            some (.wrapped ("error updating ElastiCache User Group (" ++ d.new.arn ++ ") tags") err))
        | none => ([.UpdateTags d.new.arn d.old.tags_all d.new.tags_all], none)
      else ([], none)
    match tagged.2 with
    | some err => { calls := modified.1 ++ tagged.1, d := d, ret := .returned (some err) }
    | none => resourceAwsElasticacheUserGroupRead (modified.1 ++ tagged.1) d meta

/-- The `CreateUserGroupInput` that `resourceAwsElasticacheUserGroupCreate` builds. -/
def userGroupCreateInput (d : ResourceData elasticache.UserGroupAttrs) (meta : ElastiCacheClient) :
    elasticache.CreateUserGroupInput :=
  let tags := meta.MergeTags d.new.tags
  let input : elasticache.CreateUserGroupInput :=
    { Engine := some d.new.engine, Tags := none, UserGroupId := some d.new.user_group_id,
      UserIds := none }
  let input :=
    if d.new.user_ids.card > 0 then { input with UserIds := some d.new.user_ids } else input
  -- Tags are currently only supported in AWS Commercial.
  let input :=
    if tags.length > 0 && meta.partition == elasticache.AwsPartitionID then
      { input with Tags := some (meta.IgnoreAws tags) }
    else input
  input

/-- The handler `resourceAwsElasticacheUserGroupCreate`. It reads the ID of the output without
testing the output for nil. -/
def resourceAwsElasticacheUserGroupCreate (d : ResourceData elasticache.UserGroupAttrs)
    (meta : ElastiCacheClient) : elasticache.Result :=
  let conn := meta.elasticacheconn
  let input := userGroupCreateInput d meta
  let created := conn.CreateUserGroup input
  match created.2 with
  | some err =>
    { calls := [.CreateUserGroup input], d := d,
      ret := .returned (some (.wrapped "error creating ElastiCache User Group" err)) }
  | none =>
    match created.1 with
    | none => { calls := [.CreateUserGroup input], d := d, ret := .panicked }
    | some out =>
      let d := d.SetId (aws.StringValue out.UserGroupId)
      match conn.WaitForState d.new.user_group_id with
      | some err =>
        { calls := [.CreateUserGroup input, .WaitForState d.new.user_group_id], d := d,
          ret := .returned (some (.wrapped "error creating ElastiCache User Group" err)) }
      | none =>
        resourceAwsElasticacheUserGroupRead
          [.CreateUserGroup input, .WaitForState d.new.user_group_id] d meta

/-! ## Security Hub standards subscription
(`aws/resource_aws_securityhub_standards_subscription.go`) -/

namespace securityhub

/-- The SDK structure `securityhub.StandardsSubscription`. -/
structure StandardsSubscription where
  StandardsArn : Option String
  StandardsSubscriptionArn : Option String
  StandardsStatus : Option String
  deriving DecidableEq, Repr

/-- The attributes of `aws_securityhub_standards_subscription`. -/
structure SubscriptionAttrs where
  standards_arn : String
  deriving DecidableEq, Repr

/-- The Security Hub client, as far as Read uses it: `StandardsSubscriptionByARN` is the finder
`finder.StandardsSubscriptionByARN`, which is not among the sources. -/
structure SecurityHub where
  StandardsSubscriptionByARN : String → Option StandardsSubscription × Option GoError

end securityhub

/-- The handler `resourceAwsSecurityHubStandardsSubscriptionRead`: the resource data it leaves
behind and the error it returns. It tests `err` for not-found only and then reads the field of
`output` without testing it for nil. -/
def resourceAwsSecurityHubStandardsSubscriptionRead
    (d : ResourceData securityhub.SubscriptionAttrs) (conn : securityhub.SecurityHub) :
    Outcome (ResourceData securityhub.SubscriptionAttrs × Option GoError) :=
  let found := conn.StandardsSubscriptionByARN d.id
  if !d.isNewResource && tfresource.NotFound found.2 then
    .returned (d.SetId "", none)
  else
    match found.1 with
    | none => .panicked
    | some output => .returned (d.Set "standards_arn" (.str output.StandardsArn), none)

/-- The resource ID that `resourceAwsAppconfigEnvironmentCreate` writes with `d.SetId` for the
environment and application IDs of the response. -/
def environmentCreateID (environmentId applicationId : Option String) : String :=
  aws.StringValue environmentId ++ ":" ++ aws.StringValue applicationId

/-! ## AppConfig deployment (`aws/resource_aws_appconfig_deployment.go`) -/

/-- The value of a decimal digit, as `strconv` reads it. -/
def digitValue (c : Char) : Option Nat :=
  if '0' ≤ c ∧ c ≤ '9' then some (c.toNat - '0'.toNat) else none

/-- The digit loop of `strconv.Atoi`: the number read so far is `acc`. -/
def parseDigits : List Char → Nat → Option Nat
  | [], acc => some acc
  | c :: cs, acc =>
    match digitValue c with
    | some v => parseDigits cs (acc * 10 + v)
    | none => none

/-- The function `strconv.Atoi` for an `int` of `intSize` bits (`strconv.IntSize`): an optional
sign and at least one decimal digit; a number out of the range of `int` is an error, next to which
the nearest bound is returned. -/
def strconv.Atoi (intSize : Nat) (s : String) : Int × Option GoError :=
  let syntaxError : GoError := .plain ("strconv.Atoi: parsing " ++ s.quote ++ ": invalid syntax")
  let rangeError : GoError :=
    .plain ("strconv.Atoi: parsing " ++ s.quote ++ ": value out of range")
  let signed : Bool × List Char :=
    match s.data with
    | '-' :: rest => (true, rest)
    | '+' :: rest => (false, rest)
    | cs => (false, cs)
  match signed.2 with
  | [] => (0, some syntaxError)
  | c :: cs =>
    match parseDigits (c :: cs) 0 with
    | none => (0, some syntaxError)
    | some n =>
      let v : Int := if signed.1 then -(n : Int) else (n : Int)
      if v < -(2 : Int) ^ (intSize - 1) then (-(2 : Int) ^ (intSize - 1), some rangeError)
      else if v > (2 : Int) ^ (intSize - 1) - 1 then ((2 : Int) ^ (intSize - 1) - 1, some rangeError)
      else (v, none)

/-- The verb `%d` of `fmt.Sprintf` on an integer. -/
def fmtInt (n : Int) : String :=
  if n < 0 then "-" ++ String.mk (Nat.toDigits 10 n.natAbs) else String.mk (Nat.toDigits 10 n.toNat)

/-- The resource ID that `resourceAwsAppconfigDeploymentCreate` writes with `d.SetId`. -/
def deploymentCreateID (appID envID : String) (deployNum : Int) : String :=
  appID ++ "/" ++ envID ++ "/" ++ fmtInt deployNum

/-- The function `resourceAwsAppconfigDeploymentParseID`, for an `int` of `intSize` bits. -/
def resourceAwsAppconfigDeploymentParseID (intSize : Nat) (id : String) :
    String × String × Int × Option GoError :=
  let parts := strings.Split id '/'
  if parts.length != 3 || parts.getD 0 "" == "" || parts.getD 1 "" == "" ||
      parts.getD 2 "" == "" then
    ("", "", 0, some (.plain ("unexpected format of ID (" ++ id.quote ++
      "), expected ApplicationID:EnvironmentID:DeploymentNumber")))
  else
    let parsed := strconv.Atoi intSize (parts.getD 2 "")
    match parsed.2 with
    | some err =>
      ("", "", 0, some (.wrapped
        "error parsing AppConfig Deployment resource ID deployment_number" err))
    | none => (parts.getD 0 "", parts.getD 1 "", parsed.1, none)

/-! ## Error helpers and retries -/

/-- The function `strings.Contains`. -/
def strings.Contains (s substr : String) : Bool :=
  s.data.tails.any (fun t => substr.data.isPrefixOf t)

/-- The function `tfawserr.ErrMessageContains`: the error chain holds an AWS error, its code is
`code` and its message contains `message`. -/
def tfawserr.ErrMessageContains (err : Option GoError) (code message : String) : Bool :=
  match err with
  | none => false
  | some e =>
    match e.asAwsErr with
    | some (c, m) => c == code && strings.Contains m message
    | none => false

/-- Modelled from the spec: `isAWSErr` of `aws/awserr.go`, which is not among the sources; the
Delete handlers special-case an error by its code and a substring of its message. -/
def isAWSErr (err : Option GoError) (code message : String) : Bool :=
  tfawserr.ErrMessageContains err code message

/-- Modelled from the spec: `isResourceTimeoutError` of `aws/awserr.go`, which is not among the
sources; the error is the time-out of a bounded retry, a `*resource.TimeoutError` that holds no
last error. -/
def isResourceTimeoutError (err : Option GoError) : Bool :=
  match err with
  | some .timeout => true
  | _ => false

namespace resource

/-- The plugin SDK's `resource.RetryError`. -/
structure RetryError where
  Err : GoError
  Retryable : Bool
  deriving DecidableEq, Repr

/-- The plugin SDK's `resource.RetryableError`. -/
def RetryableError (err : Option GoError) : Option RetryError :=
  match err with
  | none => none
  | some e => some { Err := e, Retryable := true }

/-- The plugin SDK's `resource.NonRetryableError`. -/
def NonRetryableError (err : Option GoError) : Option RetryError :=
  match err with
  | none => none
  | some e => some { Err := e, Retryable := false }

/-- The plugin SDK's `resource.Retry`, with the time-out as a budget of attempts: `f` is called,
with the number of calls made before, until it returns nil, or an error that is not retryable, or
the budget is used up. The result is the number of calls made and the error. Which error stands for
the used-up budget is the SDK's choice and is the parameter `timeoutErr`. -/
def Retry (timeoutErr : GoError) (f : Nat → Option RetryError) : Nat → Nat → Nat × Option GoError
  | 0, made => (made, some timeoutErr)
  | budget + 1, made =>
    match f made with
    | none => (made + 1, none)
    | some rerr =>
      if rerr.Retryable then Retry timeoutErr f budget (made + 1) else (made + 1, some rerr.Err)

end resource

/-! ## GuardDuty detector (`aws/resource_aws_guardduty_detector.go`) -/

namespace guardduty

/-- The SDK constant `guardduty.ErrCodeBadRequestException`. -/
def ErrCodeBadRequestException : String := "BadRequestException"

/-- The GuardDuty client, as far as Delete uses it: what `DeleteDetector` answers for a detector
when it has been called a number of times before. -/
structure GuardDuty where
  DeleteDetector : String → Nat → Option GoError

/-- What `resourceAwsGuardDutyDetectorDelete` leaves behind: the number of `DeleteDetector` calls it
made, the resource data, and the error it returned. -/
structure DeleteResult (A : Type) where
  attempts : Nat
  d : ResourceData A
  err : Option GoError

end guardduty

/-- The function that `resourceAwsGuardDutyDetectorDelete` hands to `resource.Retry`; `made` is the
number of `DeleteDetector` calls made before. -/
def deleteDetectorStep (conn : guardduty.GuardDuty) (detectorId : String) (made : Nat) :
    Option resource.RetryError :=
  let err := conn.DeleteDetector detectorId made
  if isAWSErr err guardduty.ErrCodeBadRequestException
      "cannot delete detector while it has invited or associated members" then
    resource.RetryableError err
  else
    match err with
    | some e => resource.NonRetryableError (some e)
    | none => none

/-- The handler `resourceAwsGuardDutyDetectorDelete`; `budget` is the number of attempts that fit
into `waiter.MembershipPropagationTimeout`. -/
def resourceAwsGuardDutyDetectorDelete {A : Type} (timeoutErr : GoError) (budget : Nat)
    (d : ResourceData A) (conn : guardduty.GuardDuty) : guardduty.DeleteResult A :=
  let retried := resource.Retry timeoutErr (deleteDetectorStep conn d.id) budget 0
  let last : Nat × Option GoError :=
    if isResourceTimeoutError retried.2 then (retried.1 + 1, conn.DeleteDetector d.id retried.1)
    else retried
  match last.2 with
  | some err =>
    { attempts := last.1, d := d,
      err := some (.wrapped ("error deleting GuardDuty Detector (" ++ d.id ++ ")") err) }
  | none => { attempts := last.1, d := d, err := none }

/-! ## Storage Gateway status functions
(`aws/internal/service/storagegateway/waiter/status.go`) -/

namespace storagegateway

/-- The SDK constant `storagegateway.ErrorCodeVolumeNotFound`. -/
def ErrorCodeVolumeNotFound : String := "VolumeNotFound"

/-- The SDK constant `storagegateway.ErrCodeInvalidGatewayRequestException`. -/
def ErrCodeInvalidGatewayRequestException : String := "InvalidGatewayRequestException"

/-- The SDK structure `storagegateway.StorediSCSIVolume`. -/
structure StorediSCSIVolume where
  VolumeARN : Option String
  VolumeStatus : Option String
  deriving DecidableEq, Repr

/-- The SDK structure `storagegateway.DescribeStorediSCSIVolumesOutput`. -/
structure DescribeStorediSCSIVolumesOutput where
  StorediSCSIVolumes : List StorediSCSIVolume
  deriving DecidableEq, Repr

/-- The SDK structure `storagegateway.NFSFileShareInfo`. -/
structure NFSFileShareInfo where
  FileShareARN : Option String
  FileShareStatus : Option String
  deriving DecidableEq, Repr

/-- The SDK structure `storagegateway.DescribeNFSFileSharesOutput`; the source tests its first
element for nil. -/
structure DescribeNFSFileSharesOutput where
  NFSFileShareInfoList : List (Option NFSFileShareInfo)
  deriving DecidableEq, Repr

/-- The SDK structure `storagegateway.FileSystemAssociationInfo`. -/
structure FileSystemAssociationInfo where
  FileSystemAssociationARN : Option String
  FileSystemAssociationStatus : Option String
  deriving DecidableEq, Repr

/-- The Storage Gateway client: what each operation answers. `FileSystemAssociationByARN` is the
finder of `aws/internal/service/storagegateway/finder`, which is not among the sources. -/
structure StorageGateway where
  DescribeStorediSCSIVolumes : String → Option DescribeStorediSCSIVolumesOutput × Option GoError
  DescribeNFSFileShares : String → Option DescribeNFSFileSharesOutput × Option GoError
  FileSystemAssociationByARN : String → Option FileSystemAssociationInfo × Option GoError

end storagegateway

namespace waiter

/-- The constant `StoredIscsiVolumeStatusNotFound`. -/
def StoredIscsiVolumeStatusNotFound : String := "NotFound"

/-- The constant `StoredIscsiVolumeStatusUnknown`. -/
def StoredIscsiVolumeStatusUnknown : String := "Unknown"

/-- The constant `NfsFileShareStatusNotFound`. -/
def NfsFileShareStatusNotFound : String := "NotFound"

/-- The constant `NfsFileShareStatusUnknown`. -/
def NfsFileShareStatusUnknown : String := "Unknown"

/-- The constant `FileSystemAssociationStatusNotFound`. -/
def FileSystemAssociationStatusNotFound : String := "NotFound"

/-- The refresh function that `StoredIscsiVolumeStatus` returns. It fetches the volume and its
status; the object it returns is the whole output. -/
def StoredIscsiVolumeStatus (conn : storagegateway.StorageGateway) (volumeARN : String) :
    Option storagegateway.DescribeStorediSCSIVolumesOutput × String × Option GoError :=
  let r := conn.DescribeStorediSCSIVolumes volumeARN
  if tfawserr.ErrCodeEquals r.2 storagegateway.ErrorCodeVolumeNotFound ||
      tfawserr.ErrMessageContains r.2 storagegateway.ErrCodeInvalidGatewayRequestException
        "The specified volume was not found" then
    (none, StoredIscsiVolumeStatusNotFound, none)
  else
    match r.2 with
    | some err => (none, StoredIscsiVolumeStatusUnknown, some err)
    | none =>
      match r.1 with
      | none => (none, StoredIscsiVolumeStatusNotFound, none)
      | some output =>
        match output.StorediSCSIVolumes with
        | [] => (none, StoredIscsiVolumeStatusNotFound, none)
        | volume :: _ => (some output, aws.StringValue volume.VolumeStatus, none)

/-- The refresh function that `NfsFileShareStatus` returns. -/
def NfsFileShareStatus (conn : storagegateway.StorageGateway) (fileShareArn : String) :
    Option storagegateway.NFSFileShareInfo × String × Option GoError :=
  let r := conn.DescribeNFSFileShares fileShareArn
  match r.2 with
  | some err =>
    if tfawserr.ErrMessageContains (some err) storagegateway.ErrCodeInvalidGatewayRequestException
        "The specified file share was not found." then
      (none, NfsFileShareStatusNotFound, none)
    else
      (none, NfsFileShareStatusUnknown,
        some (.wrapped "error reading Storage Gateway NFS File Share" err))
  | none =>
    match r.1 with
    | none => (none, NfsFileShareStatusNotFound, none)
    | some output =>
      match output.NFSFileShareInfoList with
      | [] => (none, NfsFileShareStatusNotFound, none)
      | none :: _ => (none, NfsFileShareStatusNotFound, none)
      | some fileshare :: _ => (some fileshare, aws.StringValue fileshare.FileShareStatus, none)

/-- The refresh function that `FileSystemAssociationStatus` returns. -/
def FileSystemAssociationStatus (conn : storagegateway.StorageGateway) (fileSystemArn : String) :
    Option storagegateway.FileSystemAssociationInfo × String × Option GoError :=
  let r := conn.FileSystemAssociationByARN fileSystemArn
  -- there was an unhandled error in the Finder
  match r.2 with
  | some err => (none, "", some err)
  | none =>
    -- no error, and no File System Association found
    match r.1 with
    | none => (none, FileSystemAssociationStatusNotFound, none)
    | some output => (some output, aws.StringValue output.FileSystemAssociationStatus, none)

end waiter

/-! ## Security Hub organization configuration
(`aws/resource_aws_securityhub_organization_configuration.go`) -/

namespace securityhub

/-- The SDK structure `securityhub.DescribeOrganizationConfigurationOutput`. -/
structure DescribeOrganizationConfigurationOutput where
  AutoEnable : Option Bool
  MemberAccountLimitReached : Option Bool
  deriving DecidableEq, Repr

/-- The attributes of `aws_securityhub_organization_configuration`. -/
structure OrganizationAttrs where
  auto_enable : Bool
  deriving DecidableEq, Repr

/-- A call of the organization configuration handlers to the service. -/
inductive OrganizationCall where
  | UpdateOrganizationConfiguration (AutoEnable : Option Bool)
  | DescribeOrganizationConfiguration
  deriving DecidableEq, Repr

/-- The Security Hub client, as far as the organization configuration uses it: what
`UpdateOrganizationConfiguration` answers to a value, and what
`DescribeOrganizationConfiguration` answers after the values that the service has accepted so far,
the last of them last. -/
structure Organization where
  UpdateOrganizationConfiguration : Option Bool → Option GoError
  DescribeOrganizationConfiguration :
    List (Option Bool) → Option DescribeOrganizationConfigurationOutput × Option GoError

/-- What a handler of the organization configuration leaves behind: the calls it made, in order,
the resource data, and how it ended. -/
structure OrganizationResult where
  calls : List OrganizationCall
  d : ResourceData OrganizationAttrs
  ret : Outcome (Option GoError)
  deriving DecidableEq, Repr

end securityhub

/-- The client of the organization configuration handlers (`meta.(*AWSClient)`). -/
structure SecurityHubClient extends ClientConfig where
  securityhubconn : securityhub.Organization

/-- The handler `resourceAwsSecurityHubOrganizationConfigurationRead`; `calls` are the calls made
before it and `written` the values that the service has accepted so far. It reads the field of
`output` without testing it for nil. -/
def resourceAwsSecurityHubOrganizationConfigurationRead (calls : List securityhub.OrganizationCall)
    (written : List (Option Bool)) (d : ResourceData securityhub.OrganizationAttrs)
    (meta : SecurityHubClient) : securityhub.OrganizationResult :=
  let conn := meta.securityhubconn
  let described := conn.DescribeOrganizationConfiguration written
  let calls := calls ++ [.DescribeOrganizationConfiguration]
  match described.2 with
  | some err =>
    { calls := calls, d := d,
      ret := .returned (some
        (.wrapped "error reading Security Hub Organization Configuration" err)) }
  | none =>
    match described.1 with
    | none => { calls := calls, d := d, ret := .panicked }
    | some output =>
      { calls := calls, d := d.Set "auto_enable" (.bool output.AutoEnable),
        ret := .returned none }

/-- The handler `resourceAwsSecurityHubOrganizationConfigurationUpdate`; `written` are the values
that the service has accepted before. -/
def resourceAwsSecurityHubOrganizationConfigurationUpdate (written : List (Option Bool))
    (d : ResourceData securityhub.OrganizationAttrs) (meta : SecurityHubClient) :
    securityhub.OrganizationResult :=
  let conn := meta.securityhubconn
  let input : Option Bool := some d.new.auto_enable
  match conn.UpdateOrganizationConfiguration input with
  | some err =>
    { calls := [.UpdateOrganizationConfiguration input], d := d,
      ret := .returned (some (.wrapped
        ("error updating Security Hub Organization Configuration (" ++ d.id ++ ")") err)) }
  | none =>
    let d := d.SetId meta.accountid
    resourceAwsSecurityHubOrganizationConfigurationRead [.UpdateOrganizationConfiguration input]
      (written ++ [input]) d meta

/-- The handlers of a resource, as `schema.Resource` holds them. -/
structure OrganizationResource where
  Create : List (Option Bool) → ResourceData securityhub.OrganizationAttrs → SecurityHubClient →
    securityhub.OrganizationResult
  Read : List securityhub.OrganizationCall → List (Option Bool) →
    ResourceData securityhub.OrganizationAttrs → SecurityHubClient → securityhub.OrganizationResult
  Update : List (Option Bool) → ResourceData securityhub.OrganizationAttrs → SecurityHubClient →
    securityhub.OrganizationResult

/-- The function `resourceAwsSecurityHubOrganizationConfiguration`. -/
def resourceAwsSecurityHubOrganizationConfiguration : OrganizationResource :=
  { Create := resourceAwsSecurityHubOrganizationConfigurationUpdate,
    Read := resourceAwsSecurityHubOrganizationConfigurationRead,
    Update := resourceAwsSecurityHubOrganizationConfigurationUpdate }

/-! ## Case-insensitive comparison of the user group engine -/

/-- The runes of a string, as the numbers of their code points. -/
def runes (s : String) : List Nat := s.data.map Char.toNat

/-- One step of the loop of `strings.EqualFold`, on the next rune of each string. Below
`utf8.RuneSelf` two different runes are equal under folding when the smaller is an upper case
letter and the larger is its lower case letter. Above it the loop walks `unicode.SimpleFold` from
the smaller rune up to the larger one; whether that walk arrives is a matter of the Unicode tables
and is the parameter `sameOrbit`. -/
def runeEqualFold (sameOrbit : Nat → Nat → Bool) (sr tr : Nat) : Bool :=
  if sr = tr then true
  else
    -- Make sr < tr to simplify what follows.
    let lo := if tr < sr then tr else sr
    let hi := if tr < sr then sr else tr
    if hi < 128 then
      -- ASCII only, sr/tr must be upper/lower case
      decide (65 ≤ lo ∧ lo ≤ 90 ∧ hi = lo + 97 - 65)
    else sameOrbit lo hi

/-- The loop of `strings.EqualFold` on the runes of the two strings. -/
def equalFoldRunes (sameOrbit : Nat → Nat → Bool) : List Nat → List Nat → Bool
  | [], [] => true
  | sr :: s, tr :: t => runeEqualFold sameOrbit sr tr && equalFoldRunes sameOrbit s t
  | _, _ => false

/-- The function `strings.EqualFold`. -/
def strings.EqualFold (sameOrbit : Nat → Nat → Bool) (s t : String) : Bool :=
  equalFoldRunes sameOrbit (runes s) (runes t)

/-- The `DiffSuppressFunc` of the attribute `engine` of `aws_elasticache_user_group`. -/
def userGroupEngineDiffSuppress {A : Type} (sameOrbit : Nat → Nat → Bool) (_k old new : String)
    (_d : ResourceData A) : Bool :=
  strings.EqualFold sameOrbit old new

/-- Case folding of an ASCII rune: an upper case letter becomes its lower case letter. -/
def asciiFold (r : Nat) : Nat := if 65 ≤ r ∧ r ≤ 90 then r + 32 else r

/-- Equality under case folding, for strings of ASCII runes: the two strings are the same after
folding every rune. -/
def equalUnderAsciiFolding (s t : String) : Prop :=
  (runes s).map asciiFold = (runes t).map asciiFold

/-! ## Delete handlers -/

/-- The handler `resourceAwsAppconfigDeploymentDelete`: it logs that a deployment cannot be
destroyed and returns nil. The result is the calls it made, the resource data and the error. -/
def resourceAwsAppconfigDeploymentDelete {A M : Type} (d : ResourceData A) (_meta : M) :
    List appconfig.Call × ResourceData A × Option GoError :=
  ([], d, none)

/-- The handler `resourceAwsAppconfigEnvironmentDelete`. -/
def resourceAwsAppconfigEnvironmentDelete (d : ResourceData appconfig.EnvironmentAttrs)
    (meta : AppConfigClient) : appconfig.Result :=
  let conn := meta.appconfigconn
  let parsed := resourceAwsAppconfigEnvironmentParseID d.id
  let envID := parsed.1
  let appID := parsed.2.1
  match parsed.2.2 with
  | some err => { calls := [], d := d, err := some err }
  | none =>
    let err := conn.DeleteEnvironment appID envID
    if tfawserr.ErrCodeEquals err appconfig.ErrCodeResourceNotFoundException then
      { calls := [.DeleteEnvironment appID envID], d := d, err := none }
    else
      match err with
      | some err =>
        { calls := [.DeleteEnvironment appID envID], d := d,
          err := some (.wrapped ("error deleting Appconfig Environment (" ++ envID ++
            ") for Application (" ++ appID ++ ")") err) }
      | none => { calls := [.DeleteEnvironment appID envID], d := d, err := none }

namespace directconnect

/-- The SDK constant `directconnect.ErrCodeClientException`. -/
def ErrCodeClientException : String := "DirectConnectClientException"

/-- A call of the Direct Connect gateway handlers to the service or to the waiter. -/
inductive Call where
  | DeleteDirectConnectGateway (id : String)
  | GatewayDeleted (id : String)
  deriving DecidableEq, Repr

/-- The Direct Connect client, as far as Delete uses it. `GatewayDeleted` is the waiter of
`aws/internal/service/directconnect/waiter`, which is not among the sources. -/
structure DirectConnect where
  DeleteDirectConnectGateway : String → Option GoError
  GatewayDeleted : String → Option GoError

/-- What the Delete handler of the gateway leaves behind: the calls it made, in order, the resource
data, and the error it returned. -/
structure Result (A : Type) where
  calls : List Call
  d : ResourceData A
  err : Option GoError

end directconnect

/-- The handler `resourceAwsDxGatewayDelete`. -/
def resourceAwsDxGatewayDelete {A : Type} (d : ResourceData A)
    (conn : directconnect.DirectConnect) : directconnect.Result A :=
  let err := conn.DeleteDirectConnectGateway d.id
  if tfawserr.ErrMessageContains err directconnect.ErrCodeClientException "does not exist" then
    { calls := [.DeleteDirectConnectGateway d.id], d := d, err := none }
  else
    match err with
    | some err =>
      { calls := [.DeleteDirectConnectGateway d.id], d := d,
        err := some (.wrapped ("error deleting Direct Connect Gateway (" ++ d.id ++ ")") err) }
    | none =>
      match conn.GatewayDeleted d.id with
      | some err =>
        { calls := [.DeleteDirectConnectGateway d.id, .GatewayDeleted d.id], d := d,
          err := some (.wrapped ("error waiting for Direct Connect Gateway (" ++ d.id ++
            ") to delete") err) }
      | none =>
        { calls := [.DeleteDirectConnectGateway d.id, .GatewayDeleted d.id], d := d,
          err := none }

/-- A signed decimal integer, as a text: an optional sign and at least one decimal digit. -/
def isSignedDecimal (s : String) : Bool :=
  match s.data with
  | '-' :: ds => !ds.isEmpty && ds.all (fun c => (digitValue c).isSome)
  | '+' :: ds => !ds.isEmpty && ds.all (fun c => (digitValue c).isSome)
  | ds => !ds.isEmpty && ds.all (fun c => (digitValue c).isSome)

/-- The sign that `strconv.Atoi` reads, and the text after it. -/
def atoiSign : List Char → Bool × List Char
  | '-' :: rest => (true, rest)
  | '+' :: rest => (false, rest)
  | cs => (false, cs)

/-- The part of `strconv.Atoi` after the sign: the digits and the range of the `int`. -/
def atoiDigits (intSize : Nat) (s : String) (signed : Bool × List Char) : Int × Option GoError :=
  let syntaxError : GoError := .plain ("strconv.Atoi: parsing " ++ s.quote ++ ": invalid syntax")
  let rangeError : GoError :=
    .plain ("strconv.Atoi: parsing " ++ s.quote ++ ": value out of range")
  match signed.2 with
  | [] => (0, some syntaxError)
  | c :: cs =>
    match parseDigits (c :: cs) 0 with
    | none => (0, some syntaxError)
    | some n =>
      let v : Int := if signed.1 then -(n : Int) else (n : Int)
      if v < -(2 : Int) ^ (intSize - 1) then (-(2 : Int) ^ (intSize - 1), some rangeError)
      else if v > (2 : Int) ^ (intSize - 1) - 1 then ((2 : Int) ^ (intSize - 1) - 1, some rangeError)
      else (v, none)

/-! ## DataSync location URIs (`aws/internal/service/datasync`) -/

namespace datasync

/-- The text after a prefix, when the text starts with it. -/
def stripPrefix : List Char → List Char → Option (List Char)
  | [], l => some l
  | _ :: _, [] => none
  | p :: ps, c :: cs => if p = c then stripPrefix ps cs else none

/-- Modelled from the spec: the schemes of a location URI that `SubdirectoryFromLocationURI`
accepts. The function is not among the sources; its test names S3, EFS, NFS, SMB and FSx for
Windows locations and rejects the scheme `test`. -/
def locationURISchemes : List String := ["efs", "nfs", "s3", "smb", "fsxw"]

/-- Modelled from the spec: the part of a location URI after the scheme and `://`, for a scheme
that `SubdirectoryFromLocationURI` accepts. -/
def afterScheme (uri : List Char) : Option (List Char) :=
  locationURISchemes.findSome? (fun scheme => stripPrefix (scheme.data ++ "://".data) uri)

/-- Modelled from the spec: the characters of a location identifier, letters, digits, dots and
hyphens. -/
def isGlobalIDChar (c : Char) : Bool := c.isAlphanum || c == '.' || c == '-'

/-- The text after `k` further colons. -/
def afterColons : Nat → List Char → Option (List Char)
  | 0, l => some l
  | k + 1, l =>
    match l.dropWhile (fun c => c != ':') with
    | [] => none
    | _ :: rest => afterColons k rest

/-- The resource of an ARN, as the SDK's `arn.Parse` reads it: the text starts with `arn:` and has
six sections between colons, of which the resource is the last and may hold colons itself. -/
def arnResource (s : List Char) : Option (List Char) :=
  match stripPrefix "arn:".data s with
  | none => none
  | some rest => afterColons 4 rest

/-- Modelled from the spec: the subdirectory after the name of an access point, from the first
slash on. -/
def afterAccessPointName (cs : List Char) : Option (List Char) :=
  match cs.dropWhile (fun c => c != '/') with
  | [] => none
  | sub => some sub

/-- Modelled from the spec: the subdirectory of the resource of an S3 on Outposts access point ARN
after its `outpost/`: the text after the last `/accesspoint/` and the name that follows it. -/
def afterOutpost : List Char → Option (List Char)
  | [] => none
  | c :: cs =>
    match afterOutpost cs with
    | some sub => some sub
    | none =>
      match stripPrefix "/accesspoint/".data (c :: cs) with
      | some rest => afterAccessPointName rest
      | none => none

/-- Modelled from the spec: the subdirectory in the resource of an S3 on Outposts access point
ARN, `outpost/<outpost>/accesspoint/<name><subdirectory>`, as the ARN cases of the test have
it. -/
def outpostsSubdirectory (resource : List Char) : Option (List Char) :=
  match stripPrefix "outpost/".data resource with
  | none => none
  | some rest => afterOutpost rest

/-- Modelled from the spec: the subdirectory of a location URI, on its characters; `none` is the
error. The URI is a supported scheme, `://` and a non-empty rest; the rest is an S3 on Outposts
access point ARN with its subdirectory, or a non-empty location identifier followed by a path that
starts with a slash, and the path is the subdirectory. -/
def subdirectoryOf (uri : List Char) : Option (List Char) :=
  match afterScheme uri with
  | none => none
  | some [] => none
  | some (c :: cs) =>
    match arnResource (c :: cs) with
    | some resource => outpostsSubdirectory resource
    | none =>
      match (c :: cs).span isGlobalIDChar with
      | ([], _) => none
      | (_ :: _, '/' :: path) => some ('/' :: path)
      | (_ :: _, _) => none

/-- Modelled from the spec: `SubdirectoryFromLocationURI` of `aws/internal/service/datasync`,
which is not among the sources (its test `uri_test.go` is). It returns the subdirectory of a
location URI and a nil error, or the empty string and an error. -/
def SubdirectoryFromLocationURI (uri : String) : String × Option GoError :=
  match subdirectoryOf uri.data with
  | some sub => (String.mk sub, none)
  | none => ("", some (.plain ("location URI (" ++ uri ++ ") does not match pattern")))

/-- The table of `TestSubdirectoryFromLocationURI`: the input, whether an error is expected, and
the expected subdirectory. -/
def testCases : List (String × Bool × String) :=
  [("", true, ""),
   ("test://testing/", true, ""),
   ("s3://", true, ""),
   ("s3:///", true, ""),
   ("s3://bucket/", false, "/"),
   ("s3://bucket/my-folder-1/", false, "/my-folder-1/"),
   ("s3://bucket/my-folder-1/my-folder-2", false, "/my-folder-1/my-folder-2"),
   ("s3://arn:aws:s3-outposts:eu-west-3:123456789012:outpost/op-YYYYYYYYYY/accesspoint/my-access-point/",
     false, "/"),
   ("s3://arn:aws:s3-outposts:eu-west-3:123456789012:outpost/op-YYYYYYYYYY/accesspoint/my-access-point/my-folder-1/",
     false, "/my-folder-1/"),
   ("s3://arn:aws:s3-outposts:eu-west-3:123456789012:outpost/op-YYYYYYYYYY/accesspoint/my-access-point/my-folder-1/my-folder-2",
     false, "/my-folder-1/my-folder-2"),
   ("efs://us-west-2.fs-abcdef01/", false, "/"),
   ("efs://us-west-2.fs-abcdef01/my-folder-1/", false, "/my-folder-1/"),
   ("efs://us-west-2.fs-abcdef01/my-folder-1/my-folder-2", false, "/my-folder-1/my-folder-2"),
   ("nfs://example.com/", false, "/"),
   ("nfs://example.com/my-folder-1/", false, "/my-folder-1/"),
   ("nfs://example.com/my-folder-1/my-folder-2", false, "/my-folder-1/my-folder-2"),
   ("smb://192.168.1.1/", false, "/"),
   ("smb://192.168.1.1/my-folder-1/", false, "/my-folder-1/"),
   ("smb://192.168.1.1/my-folder-1/my-folder-2", false, "/my-folder-1/my-folder-2"),
   ("fsxw://us-west-2.fs-abcdef012345678901/", false, "/"),
   ("fsxw://us-west-2.fs-abcdef012345678901/my-folder-1/", false, "/my-folder-1/"),
   ("fsxw://us-west-2.fs-abcdef012345678901/my-folder-1/my-folder-2", false,
     "/my-folder-1/my-folder-2")]

/-- What the loop of `TestSubdirectoryFromLocationURI` checks for one case: an error exactly when
one is expected, and the expected subdirectory. -/
def testCasePasses (testCase : String × Bool × String) : Bool :=
  let got := SubdirectoryFromLocationURI testCase.1
  (got.2.isSome == testCase.2.1) && (got.1 == testCase.2.2)

end datasync

/-! ## Sample API answers -/

namespace sample

/-- A cluster role that is active. -/
def activeRole : rds.DBClusterRole :=
  { FeatureName := some "s3Import", RoleArn := some "arn:aws:iam::123456789012:role/import",
    Status := some "ACTIVE" }

/-- A cluster role that is being removed. -/
def deletedRole : rds.DBClusterRole :=
  { FeatureName := some "s3Export", RoleArn := some "arn:aws:iam::123456789012:role/export",
    Status := some "DELETED" }

/-- A cluster named `prod` with two roles. -/
def prodCluster : rds.DBCluster :=
  { DBClusterIdentifier := some "prod", AssociatedRoles := [deletedRole, activeRole] }

/-- A cluster whose identifier the response leaves out. -/
def namelessCluster : rds.DBCluster :=
  { DBClusterIdentifier := none, AssociatedRoles := [] }

/-- A proxy target that is a tracked cluster. -/
def clusterTarget : rds.DBProxyTarget :=
  { Endpoint := none, RdsResourceId := some "prod", TargetArn := none,
    Type_ := some "TRACKED_CLUSTER" }

/-- A proxy target that is an instance. -/
def instanceTarget : rds.DBProxyTarget :=
  { Endpoint := some "db-1.example.com", RdsResourceId := some "db-1", TargetArn := none,
    Type_ := some "RDS_INSTANCE" }

/-- A second instance target with the same type and resource id as `instanceTarget`. -/
def instanceTargetAgain : rds.DBProxyTarget :=
  { Endpoint := some "db-1b.example.com", RdsResourceId := some "db-1", TargetArn := none,
    Type_ := some "RDS_INSTANCE" }

/-- A service that knows the cluster `prod`, and whose proxy targets come in three pages, the
second of them nil. -/
def healthy : rds.RDS :=
  { DescribeDBClusters := fun _ => (some { DBClusters := [some prodCluster] }, none),
    DescribeDBProxyTargets := fun _ _ =>
      { pages := [some { Targets := [clusterTarget] }, none,
                  some { Targets := [instanceTarget, instanceTargetAgain] }],
        err := none } }

/-- A service that refuses every cluster lookup with an access error and answers it with an empty
output, and that has no proxy target at all. -/
def accessDenied : rds.RDS :=
  { DescribeDBClusters := fun _ =>
      (some { DBClusters := [] }, some (.awsErr "AccessDenied" "not authorized")),
    DescribeDBProxyTargets := fun _ _ => { pages := [some { Targets := [] }], err := none } }

/-- A service that answers every cluster lookup with a cluster that has no identifier. -/
def nameless : rds.RDS :=
  { DescribeDBClusters := fun _ => (some { DBClusters := [some namelessCluster] }, none),
    DescribeDBProxyTargets := fun _ _ => { pages := [], err := none } }

end sample

namespace sample

/-- A client configuration of the commercial partition whose tag helpers change nothing. -/
def config : ClientConfig :=
  { accountid := "123456789012", partition := "aws", region := "us-east-1",
    MergeTags := id, IgnoreAws := id, IgnoreConfig := id, RemoveDefaultConfig := id }

/-- The attributes of an environment named `staging` without monitors. -/
def stagingAttrs : appconfig.EnvironmentAttrs :=
  { application_id := "abc1234", environment_id := "env5678",
    arn := "arn:aws:appconfig:us-east-1:123456789012:application/abc1234/environment/env5678",
    name := "staging", description := "", monitor := [], state := "ReadyForDeployment",
    tags := [], tags_all := [] }

/-- The resource data of the environment `staging`, unchanged, with one earlier attribute write. -/
def stagingData : ResourceData appconfig.EnvironmentAttrs :=
  { id := "env5678:abc1234", isNewResource := false, old := stagingAttrs, new := stagingAttrs,
    sets := [("name", .str (some "staging"))] }

/-- The resource data of the environment `staging` with a plan that renames it and changes its
tags. -/
def renameData : ResourceData appconfig.EnvironmentAttrs :=
  { stagingData with
    new := { stagingAttrs with name := "preprod", tags_all := [("team", "ops")] } }

/-- The resource data of the environment `staging` with the renaming plan and an ID that lacks the
application part. -/
def malformedData : ResourceData appconfig.EnvironmentAttrs :=
  { renameData with id := "env5678" }

/-- An AppConfig service in which the environment is gone. -/
def environmentGone : AppConfigClient :=
  { config with
    appconfigconn :=
      { GetEnvironment := fun _ _ =>
          (none, some (.awsErr "ResourceNotFoundException" "environment not found")),
        UpdateEnvironment := fun _ => none,
        ListTags := fun _ => ([], none),
        UpdateTags := fun _ _ _ => none,
        DeleteEnvironment := fun _ _ =>
          some (.awsErr "ResourceNotFoundException" "environment not found") } }

/-- An AppConfig service that knows the environment and refuses `UpdateEnvironment`. -/
def updateRefused : AppConfigClient :=
  { config with
    appconfigconn :=
      { GetEnvironment := fun app env =>
          (some { ApplicationId := some app, Description := none, Id := some env,
                  Monitors := none, Name := some "staging",
                  State := some "ReadyForDeployment" }, none),
        UpdateEnvironment := fun _ => some (.awsErr "BadRequestException" "invalid name"),
        ListTags := fun _ => ([], none),
        UpdateTags := fun _ _ _ => none,
        DeleteEnvironment := fun _ _ =>
          some (.awsErr "ConflictException" "environment has an active deployment") } }

/-- An AppConfig service that knows the environment and accepts every call. -/
def updateAccepted : AppConfigClient :=
  { updateRefused with
    appconfigconn := { updateRefused.appconfigconn with UpdateEnvironment := fun _ => none } }

/-- The attributes of a user group with the users `default` and `alice`. -/
def groupAttrs : elasticache.UserGroupAttrs :=
  { arn := "arn:aws:elasticache:us-east-1:123456789012:usergroup:team", engine := "redis",
    tags := [], tags_all := [], user_group_id := "team", user_ids := {"default", "alice"} }

/-- The resource data of the user group, unchanged, with one earlier attribute write. -/
def groupData : ResourceData elasticache.UserGroupAttrs :=
  { id := "team", isNewResource := false, old := groupAttrs, new := groupAttrs,
    sets := [("engine", .str (some "redis"))] }

/-- The resource data of the user group with a plan that replaces `alice` by `bob`. -/
def swapData : ResourceData elasticache.UserGroupAttrs :=
  { groupData with new := { groupAttrs with user_ids := {"default", "bob"} } }

/-- An ElastiCache service in which the user group is gone. -/
def groupGone : ElastiCacheClient :=
  { config with
    elasticacheconn :=
      { UserGroupById := fun _ => (none, some (.awsErr "UserGroupNotFound" "no such group")),
        ModifyUserGroup := fun _ => none,
        WaitForState := fun _ => none,
        ListTags := fun _ => ([], none),
        UpdateTags := fun _ _ _ => none,
        CreateUserGroup := fun input =>
          (some { ARN := none, Engine := input.Engine, Status := some "creating",
                  UserGroupId := input.UserGroupId, UserIds := none }, none) } }

/-- An ElastiCache service whose finder reports the missing group as a `NotFoundError`. -/
def groupNotFound : ElastiCacheClient :=
  { config with
    elasticacheconn :=
      { groupGone.elasticacheconn with
        UserGroupById := fun id => (none, some (.notFound "" (some id))) } }

/-- The resource data of a standards subscription read during refresh. -/
def subscriptionData : ResourceData securityhub.SubscriptionAttrs :=
  { id := "arn:aws:securityhub:us-east-1:123456789012:subscription/cis/v/1.2.0",
    isNewResource := false,
    old := { standards_arn := "arn:aws:securityhub:::ruleset/cis/v/1.2.0" },
    new := { standards_arn := "arn:aws:securityhub:::ruleset/cis/v/1.2.0" },
    sets := [] }

/-- The failure of a lookup for lack of permission. -/
def denied : GoError := .awsErr "AccessDeniedException" "not authorized"

/-- A Security Hub service whose lookup fails for lack of permission, with a nil result. -/
def lookupDenied : securityhub.SecurityHub :=
  { StandardsSubscriptionByARN := fun _ => (none, some denied) }

/-- A Security Hub service whose lookup fails for lack of permission, with a result next to the
error. -/
def lookupDeniedWithResult : securityhub.SecurityHub :=
  { StandardsSubscriptionByARN := fun id =>
      (some { StandardsArn := some "arn:aws:securityhub:::ruleset/cis/v/1.2.0",
              StandardsSubscriptionArn := some id, StandardsStatus := none }, some denied) }

/-- The refusal of `DeleteDetector` while the detector still has members. -/
def hasMembers : GoError :=
  .awsErr "BadRequestException"
    "The request is rejected because it cannot delete detector while it has invited or associated members."

/-- A GuardDuty service that refuses the first two `DeleteDetector` calls because of members and
accepts the third. -/
def membersLeave : guardduty.GuardDuty :=
  { DeleteDetector := fun _ made => if made < 2 then some hasMembers else none }

/-- A GuardDuty service that refuses the first `DeleteDetector` call because of members and the
second for lack of permission. -/
def membersThenDenied : guardduty.GuardDuty :=
  { DeleteDetector := fun _ made => if made < 1 then some hasMembers else some denied }

/-- The resource data of a GuardDuty detector. -/
def detectorData : ResourceData Unit :=
  { id := "12abc34d567e8fa901bc2d34e56789f0", isNewResource := false, old := (), new := (),
    sets := [] }

/-- A Storage Gateway service that answers every lookup with the error `err`. -/
def gatewayFailing (err : GoError) : storagegateway.StorageGateway :=
  { DescribeStorediSCSIVolumes := fun _ => (none, some err),
    DescribeNFSFileShares := fun _ => (none, some err),
    FileSystemAssociationByARN := fun _ => (none, some err) }

/-- A Storage Gateway service that knows one volume, one file share and one association. -/
def gatewayHealthy : storagegateway.StorageGateway :=
  { DescribeStorediSCSIVolumes := fun arn =>
      (some { StorediSCSIVolumes := [{ VolumeARN := some arn, VolumeStatus := some "AVAILABLE" }] },
        none),
    DescribeNFSFileShares := fun arn =>
      (some { NFSFileShareInfoList :=
          [some { FileShareARN := some arn, FileShareStatus := some "AVAILABLE" }] }, none),
    FileSystemAssociationByARN := fun arn =>
      (some { FileSystemAssociationARN := some arn, FileSystemAssociationStatus := none }, none) }

/-- A Storage Gateway service that knows nothing and reports no error. -/
def gatewayEmpty : storagegateway.StorageGateway :=
  { DescribeStorediSCSIVolumes := fun _ => (some { StorediSCSIVolumes := [] }, none),
    DescribeNFSFileShares := fun _ => (some { NFSFileShareInfoList := [none] }, none),
    FileSystemAssociationByARN := fun _ => (none, none) }

/-- The error code `VolumeNotFound`. -/
def volumeNotFound : GoError := .awsErr "VolumeNotFound" "no such volume"

/-- An invalid-request error about a gateway that was not found. -/
def gatewayNotFound : GoError :=
  .awsErr "InvalidGatewayRequestException" "The specified gateway was not found."

/-- An invalid-request error about a file share that was not found. -/
def fileShareNotFound : GoError :=
  .awsErr "InvalidGatewayRequestException" "The specified file share was not found."

/-- A client of the China partition whose user group lookup fails for lack of permission. -/
def chinaDenied : ElastiCacheClient :=
  { groupGone with
    partition := "aws-cn",
    elasticacheconn :=
      { groupGone.elasticacheconn with UserGroupById := fun _ => (none, some denied) } }

/-- The user group `team` as the service of the China partition describes it. -/
def chinaGroup : elasticache.UserGroup :=
  { ARN := some "arn:aws-cn:elasticache:cn-north-1:123456789012:usergroup:team",
    Engine := some "redis", Status := some "active", UserGroupId := some "team",
    UserIds := some [some "default"] }

/-- A client of the China partition whose service knows the user group. -/
def chinaHealthy : ElastiCacheClient :=
  { groupGone with
    partition := "aws-cn",
    elasticacheconn :=
      { groupGone.elasticacheconn with UserGroupById := fun _ => (some chinaGroup, none) } }

/-- The resource data of the user group with a plan that adds a tag. -/
def tagData : ResourceData elasticache.UserGroupAttrs :=
  { groupData with
    new := { groupAttrs with tags := [("team", "ops")], tags_all := [("team", "ops")] } }

/-- A Security Hub service that accepts every value and describes the last value written. -/
def organizationEcho : SecurityHubClient :=
  { config with
    securityhubconn :=
      { UpdateOrganizationConfiguration := fun _ => none,
        DescribeOrganizationConfiguration := fun written =>
          (some { AutoEnable := written.getLast?.getD none,
                  MemberAccountLimitReached := some false }, none) } }

/-- A Security Hub service that refuses every update for lack of permission. -/
def organizationDenied : SecurityHubClient :=
  { organizationEcho with
    securityhubconn :=
      { organizationEcho.securityhubconn with
        UpdateOrganizationConfiguration := fun _ => some denied } }

/-- The resource data of an organization configuration that is to enable Security Hub for new
accounts. -/
def organizationData : ResourceData securityhub.OrganizationAttrs :=
  { id := "", isNewResource := true, old := { auto_enable := false },
    new := { auto_enable := true }, sets := [] }

/-- A Direct Connect service in which the gateway is gone. -/
def gatewayGone : directconnect.DirectConnect :=
  { DeleteDirectConnectGateway := fun _ =>
      some (.awsErr "DirectConnectClientException" "Direct Connect Gateway does not exist"),
    GatewayDeleted := fun _ => none }

/-- A Direct Connect service that refuses the deletion for lack of permission. -/
def gatewayDenied : directconnect.DirectConnect :=
  { DeleteDirectConnectGateway := fun _ => some denied,
    GatewayDeleted := fun _ => none }

/-- The resource data of a Direct Connect gateway. -/
def gatewayData : ResourceData Unit :=
  { id := "abcd1234-dcba-5678-be23-cdef9876ab45", isNewResource := false, old := (), new := (),
    sets := [] }

/-- A monitor with an alarm and a role. -/
def monitorWithRole : appconfig.Monitor :=
  { AlarmArn := some "arn:aws:cloudwatch:us-east-1:123456789012:alarm:errors",
    AlarmRoleArn := some "arn:aws:iam::123456789012:role/appconfig-monitor" }

/-- A monitor with an alarm and no role. -/
def monitorWithoutRole : appconfig.Monitor :=
  { AlarmArn := some "arn:aws:cloudwatch:us-east-1:123456789012:alarm:latency",
    AlarmRoleArn := none }

end sample

/-! ## Theorems -/

/-! ### The RDS finders -/

/-- A nil page adds no target. -/
theorem allTargets_cons_none (rest : List (Option rds.DescribeDBProxyTargetsOutput)) :
    finder.allTargets (none :: rest) = finder.allTargets rest := rfl

/-- A page adds its targets before those of the later pages. -/
theorem allTargets_cons_some (page : rds.DescribeDBProxyTargetsOutput)
    (rest : List (Option rds.DescribeDBProxyTargetsOutput)) :
    finder.allTargets (some page :: rest) = page.Targets ++ finder.allTargets rest := rfl

/-- The loop of the paginator leaves a target it was started with untouched or replaces it by the
first matching target of the remaining pages. -/
theorem pagesLoop_fst (targetType rdsResourceId : String) (err : Option GoError)
    (pages : List (Option rds.DescribeDBProxyTargetsOutput)) (s : Option rds.DBProxyTarget) :
    (rds.pagesLoop (finder.DBProxyTargetPage targetType rdsResourceId) err pages s).1 =
      ((finder.allTargets pages).find? (finder.targetMatches targetType rdsResourceId)).or s := by
  induction pages generalizing s with
  | nil => simp [rds.pagesLoop, finder.allTargets]
  | cons page rest ih =>
    cases page with
    | none =>
      simp only [rds.pagesLoop, finder.DBProxyTargetPage, allTargets_cons_none]
      split
      · exact ih s
      · rename_i h
        simp only [Bool.not_eq_true, Bool.not_eq_false_eq_eq_true, Bool.and_eq_true,
          List.isEmpty_iff] at h
        obtain ⟨h, -⟩ := h
        subst h
        simp [finder.allTargets]
    | some p =>
      simp only [rds.pagesLoop, finder.DBProxyTargetPage, allTargets_cons_some,
        List.find?_append]
      cases hf : p.Targets.find? (finder.targetMatches targetType rdsResourceId) with
      | some t => simp
      | none =>
        simp only [Option.none_or]
        split
        · exact ih s
        · rename_i h
          simp only [Bool.not_eq_true, Bool.not_eq_false_eq_eq_true, Bool.and_eq_true,
            List.isEmpty_iff] at h
          obtain ⟨h, -⟩ := h
          subst h
          simp [finder.allTargets]

/-- When no delivered target matches, the paginator ends with the error of the service. -/
theorem pagesLoop_snd_of_no_match (targetType rdsResourceId : String) (err : Option GoError)
    (pages : List (Option rds.DescribeDBProxyTargetsOutput)) (s : Option rds.DBProxyTarget)
    (h : (finder.allTargets pages).find? (finder.targetMatches targetType rdsResourceId) = none) :
    (rds.pagesLoop (finder.DBProxyTargetPage targetType rdsResourceId) err pages s).2 = err := by
  induction pages generalizing s with
  | nil => simp [rds.pagesLoop]
  | cons page rest ih =>
    cases page with
    | none =>
      simp only [allTargets_cons_none] at h
      simp only [rds.pagesLoop, finder.DBProxyTargetPage]
      split
      · exact ih s h
      · rename_i h'
        simp only [Bool.not_eq_true, Bool.not_eq_false_eq_eq_true, Bool.and_eq_true,
          Option.isNone_iff_eq_none] at h'
        exact h'.2.symm
    | some p =>
      simp only [allTargets_cons_some, List.find?_append, Option.or_eq_none] at h
      simp only [rds.pagesLoop, finder.DBProxyTargetPage, h.1]
      split
      · exact ih s h.2
      · rename_i h'
        simp only [Bool.not_eq_true, Bool.not_eq_false_eq_eq_true, Bool.and_eq_true,
          Option.isNone_iff_eq_none] at h'
        exact h'.2.symm

/-- Whatever `DescribeDBClusters` answers, `DBClusterByID` ends in one of four ways, and none of them
hands on an error of the SDK that is not the not-found fault: it returns the first cluster with a
nil error, or a `NotFoundError` that holds no `LastError`, or, only for the not-found fault, a
`NotFoundError` around that fault. -/
theorem DBClusterByID_results (conn : rds.RDS) (id : String) :
    (∃ c, finder.DBClusterByID conn id = (some c, none)) ∨
    finder.DBClusterByID conn id = (none, some (finder.emptyResult id)) ∨
    finder.DBClusterByID conn id = (none, some (.notFound "" (some id))) ∨
    (∃ err, (conn.DescribeDBClusters id).2 = some err ∧
      tfawserr.ErrCodeEquals (some err) rds.ErrCodeDBClusterNotFoundFault = true ∧
      finder.DBClusterByID conn id = (none, some (.notFoundLast err "" (some id)))) := by
  unfold finder.DBClusterByID
  cases hr : conn.DescribeDBClusters id with
  | mk out err =>
    cases hc : tfawserr.ErrCodeEquals err rds.ErrCodeDBClusterNotFoundFault with
    | true =>
      cases err with
      | none => simp [tfawserr.ErrCodeEquals] at hc
      | some e => simp [hc]
    | false =>
      simp only [hc]
      cases out with
      | none => simp
      | some o =>
        obtain ⟨clusters⟩ := o
        cases clusters with
        | nil => simp
        | cons c rest =>
          cases c with
          | none => simp
          | some c =>
            by_cases hid : aws.StringValue c.DBClusterIdentifier = id
            · simp [hid]
            · simp [hid]

/-- Claim C3, as the code has it: an `AccessDenied` failure of `DescribeDBClusters` is not handed
on. `DBClusterByID` tests the error for the not-found code only and then reads the output, so for
the empty output that comes with the failure it returns the `NotFoundError` "Empty result", which
neither is nor wraps the error of the SDK. -/
theorem DBClusterByID_swallows_sdk_error :
    sample.accessDenied.DescribeDBClusters "prod" =
      (some { DBClusters := [] }, some (.awsErr "AccessDenied" "not authorized")) ∧
    tfawserr.ErrCodeEquals (some (.awsErr "AccessDenied" "not authorized"))
      rds.ErrCodeDBClusterNotFoundFault = false ∧
    finder.DBClusterByID sample.accessDenied "prod" =
      (none, some (.notFound "Empty result" (some "prod"))) ∧
    (GoError.notFound "Empty result" (some "prod")).isNotFoundError = true ∧
    GoError.carries (.awsErr "AccessDenied" "not authorized")
      (.notFound "Empty result" (some "prod")) = false := by
  decide

/-- Claim C4, refuted as stated: the paginated call succeeds with one page, no target on it has
the wanted type and resource id, and `DBProxyTarget` returns a nil target together with a nil
error. -/
theorem DBProxyTarget_not_found_is_nil_nil :
    (sample.healthy.DescribeDBProxyTargets "proxy" "default").err = none ∧
    (finder.allTargets (sample.healthy.DescribeDBProxyTargets "proxy" "default").pages).all
      (fun t => !finder.targetMatches "RDS_INSTANCE" "db-2" t) = true ∧
    ¬ (∃ e, (finder.DBProxyTarget sample.healthy "proxy" "default" "RDS_INSTANCE" "db-2").2
        = some e) ∧
    finder.DBProxyTarget sample.healthy "proxy" "default" "RDS_INSTANCE" "db-2" = (none, none) := by
  have h : finder.DBProxyTarget sample.healthy "proxy" "default" "RDS_INSTANCE" "db-2" =
      (none, none) := by decide
  refine ⟨by decide, by decide, ?_, h⟩
  rw [h]
  simp

/-- Claim C4, amended: when the paginated call succeeds and no target of any page has both the
wanted type and the wanted resource id, `DBProxyTarget` returns a nil target and a nil error. -/
theorem DBProxyTarget_no_match (conn : rds.RDS)
    (dbProxyName targetGroupName targetType rdsResourceId : String)
    (hcall : (conn.DescribeDBProxyTargets dbProxyName targetGroupName).err = none)
    (hnone : ∀ page ∈ (conn.DescribeDBProxyTargets dbProxyName targetGroupName).pages,
      ∀ p, page = some p → ∀ t ∈ p.Targets,
        ¬ (aws.StringValue t.Type_ = targetType ∧ aws.StringValue t.RdsResourceId = rdsResourceId)) :
    finder.DBProxyTarget conn dbProxyName targetGroupName targetType rdsResourceId =
      (none, none) := by
  have hfind : (finder.allTargets (conn.DescribeDBProxyTargets dbProxyName targetGroupName).pages).find?
      (finder.targetMatches targetType rdsResourceId) = none := by
    generalize (conn.DescribeDBProxyTargets dbProxyName targetGroupName).pages = pages at hnone
    induction pages with
    | nil => rfl
    | cons page rest ih =>
      have hrest := ih (fun pg hpg => hnone pg (List.mem_cons_of_mem _ hpg))
      cases page with
      | none => simpa [allTargets_cons_none] using hrest
      | some p =>
        rw [allTargets_cons_some, List.find?_append, hrest]
        have hp := hnone (some p) (List.mem_cons_self _ _) p rfl
        have : p.Targets.find? (finder.targetMatches targetType rdsResourceId) = none := by
          rw [List.find?_eq_none]
          intro t ht
          have := hp t ht
          simpa [finder.targetMatches] using this
        simp [this]
  have h1 := pagesLoop_fst targetType rdsResourceId
    (conn.DescribeDBProxyTargets dbProxyName targetGroupName).err
    (conn.DescribeDBProxyTargets dbProxyName targetGroupName).pages none
  have h2 := pagesLoop_snd_of_no_match targetType rdsResourceId
    (conn.DescribeDBProxyTargets dbProxyName targetGroupName).err
    (conn.DescribeDBProxyTargets dbProxyName targetGroupName).pages none hfind
  rw [hfind] at h1
  unfold finder.DBProxyTarget rds.RDS.DescribeDBProxyTargetsPages
  exact Prod.ext h1 (h2.trans hcall)

/-- Claim C4, amended, on the service without targets. -/
theorem DBProxyTarget_no_match_witness :
    finder.DBProxyTarget sample.accessDenied "proxy" "default" "RDS_INSTANCE" "db-1" =
      (none, none) :=
  DBProxyTarget_no_match sample.accessDenied "proxy" "default" "RDS_INSTANCE" "db-1" rfl
    (by decide)

/-- Claim C5: for a cluster that `DBClusterByID` found, the result is decided by the first
associated role, in list order, whose `RoleArn` is `roleARN`: without such a role it is a nil role
and a `NotFoundError`; with such a role in the deleted status it is a nil role and a `NotFoundError`
whose message is that status; otherwise it is that role and a nil error. -/
theorem DBClusterRole_decided_by_first_match (DBClusterRoleStatusDeleted : String) (conn : rds.RDS)
    (dbClusterID roleARN : String) (dbCluster : rds.DBCluster)
    (hfound : finder.DBClusterByID conn dbClusterID = (some dbCluster, none)) :
    finder.DBClusterRoleByDBClusterIDAndRoleARN DBClusterRoleStatusDeleted conn dbClusterID roleARN =
      match dbCluster.AssociatedRoles.find? (fun r => aws.StringValue r.RoleArn == roleARN) with
      | none => (none, some (.notFound "" none))
      | some role =>
        if aws.StringValue role.Status = DBClusterRoleStatusDeleted then
          (none, some (.notFound DBClusterRoleStatusDeleted none))
        else (some role, none) := by
  unfold finder.DBClusterRoleByDBClusterIDAndRoleARN
  rw [hfound]
  simp only
  generalize dbCluster.AssociatedRoles = roles
  induction roles with
  | nil => rfl
  | cons r rest ih =>
    by_cases hr : aws.StringValue r.RoleArn = roleARN
    · by_cases hs : aws.StringValue r.Status = DBClusterRoleStatusDeleted
      · simp [finder.findRole, List.find?, hr, hs]
      · simp [finder.findRole, List.find?, hr, hs]
    · have hb : (aws.StringValue r.RoleArn == roleARN) = false := by simpa using hr
      simp [finder.findRole, List.find?, hr, hb, ih]

/-- Claim C5 on the cluster `prod`: the import role is returned, the export role, which is in the
deleted status, is not. -/
theorem DBClusterRole_decided_by_first_match_witness :
    finder.DBClusterRoleByDBClusterIDAndRoleARN "DELETED" sample.healthy "prod"
        "arn:aws:iam::123456789012:role/import" = (some sample.activeRole, none) ∧
    finder.DBClusterRoleByDBClusterIDAndRoleARN "DELETED" sample.healthy "prod"
        "arn:aws:iam::123456789012:role/export" = (none, some (.notFound "DELETED" none)) :=
  ⟨DBClusterRole_decided_by_first_match "DELETED" sample.healthy "prod"
      "arn:aws:iam::123456789012:role/import" sample.prodCluster (by decide),
   DBClusterRole_decided_by_first_match "DELETED" sample.healthy "prod"
      "arn:aws:iam::123456789012:role/export" sample.prodCluster (by decide)⟩

/-- Claim C6, refuted as stated: asked for the empty id, and answered with a first cluster that has
no identifier, `DBClusterByID` returns that cluster with a nil error and no `NotFoundError`. -/
theorem DBClusterByID_accepts_missing_identifier :
    sample.nameless.DescribeDBClusters "" =
      (some { DBClusters := [some sample.namelessCluster] }, none) ∧
    sample.namelessCluster.DBClusterIdentifier = none ∧
    finder.DBClusterByID sample.nameless "" = (some sample.namelessCluster, none) := by
  decide

/-- Claim C6, amended: with `aws.StringValue` reading a missing identifier as the empty string, a
nil error of `DBClusterByID` comes with a non-nil cluster, which is the first cluster of the
response and whose identifier so read is `id`; and a first cluster whose identifier so read is not
`id` gives a nil cluster and a `NotFoundError`. -/
theorem DBClusterByID_postcondition (conn : rds.RDS) (id : String) :
    (∀ r, finder.DBClusterByID conn id = (r, none) →
      ∃ output dbCluster rest, (conn.DescribeDBClusters id).1 = some output ∧
        output.DBClusters = some dbCluster :: rest ∧ r = some dbCluster ∧
        aws.StringValue dbCluster.DBClusterIdentifier = id) ∧
    (∀ output dbCluster rest, (conn.DescribeDBClusters id).1 = some output →
      output.DBClusters = some dbCluster :: rest →
      aws.StringValue dbCluster.DBClusterIdentifier ≠ id →
      ∃ e, finder.DBClusterByID conn id = (none, some e) ∧ e.isNotFoundError = true) := by
  unfold finder.DBClusterByID
  cases hr : conn.DescribeDBClusters id with
  | mk out err =>
    cases hc : tfawserr.ErrCodeEquals err rds.ErrCodeDBClusterNotFoundFault with
    | true =>
      cases err with
      | none => simp [tfawserr.ErrCodeEquals] at hc
      | some e => simp [hc, GoError.isNotFoundError]
    | false =>
      simp only [hc]
      cases out with
      | none => simp
      | some o =>
        obtain ⟨clusters⟩ := o
        cases clusters with
        | nil => simp [finder.emptyResult, GoError.isNotFoundError]
        | cons c rest =>
          cases c with
          | none => simp [finder.emptyResult, GoError.isNotFoundError]
          | some c =>
            by_cases hid : aws.StringValue c.DBClusterIdentifier = id
            · have hb : (aws.StringValue c.DBClusterIdentifier != id) = false := by simp [hid]
              simp only [hb, Bool.false_eq_true, ↓reduceIte]
              refine ⟨?_, ?_⟩
              · rintro r h
                simp only [Prod.mk.injEq, and_true] at h
                exact ⟨_, c, rest, rfl, rfl, h.symm, hid⟩
              · rintro output d r ho hcl hne
                simp only [Option.some.injEq] at ho
                subst ho
                simp only [List.cons.injEq, Option.some.injEq] at hcl
                obtain ⟨rfl, -⟩ := hcl
                exact absurd hid hne
            · have hb : (aws.StringValue c.DBClusterIdentifier != id) = true := by
                simpa [bne_iff_ne] using hid
              simp [hb, GoError.isNotFoundError]

/-- Claim C6, amended, on the cluster `prod`: found under its own name, not found under another. -/
theorem DBClusterByID_postcondition_witness :
    (∃ output dbCluster rest, (sample.healthy.DescribeDBClusters "prod").1 = some output ∧
        output.DBClusters = some dbCluster :: rest ∧ some sample.prodCluster = some dbCluster ∧
        aws.StringValue dbCluster.DBClusterIdentifier = "prod") ∧
    (∃ e, finder.DBClusterByID sample.healthy "staging" = (none, some e) ∧
        e.isNotFoundError = true) :=
  ⟨(DBClusterByID_postcondition sample.healthy "prod").1 (some sample.prodCluster) (by decide),
   (DBClusterByID_postcondition sample.healthy "staging").2 { DBClusters := [some sample.prodCluster] }
      sample.prodCluster [] rfl rfl (by decide)⟩

/-- Claim C7: a target that `DBProxyTarget` returns has the wanted type and resource id and is the
first such target of the delivered pages in page-then-item order, nil pages skipped; and the page
callback asks for a further page exactly when the current page holds no such target and is not the
last page. -/
theorem DBProxyTarget_first_match (conn : rds.RDS)
    (dbProxyName targetGroupName targetType rdsResourceId : String) :
    (∀ t, (finder.DBProxyTarget conn dbProxyName targetGroupName targetType rdsResourceId).1 = some t →
      (aws.StringValue t.Type_ = targetType ∧ aws.StringValue t.RdsResourceId = rdsResourceId) ∧
      ∃ before after,
        finder.allTargets (conn.DescribeDBProxyTargets dbProxyName targetGroupName).pages =
          before ++ t :: after ∧
        ∀ u ∈ before, ¬ (aws.StringValue u.Type_ = targetType ∧
          aws.StringValue u.RdsResourceId = rdsResourceId)) ∧
    (∀ (captured : Option rds.DBProxyTarget) (page : Option rds.DescribeDBProxyTargetsOutput)
        (lastPage : Bool),
      (finder.DBProxyTargetPage targetType rdsResourceId captured page lastPage).2 = true ↔
        (lastPage = false ∧ ∀ u ∈ finder.allTargets [page],
          ¬ (aws.StringValue u.Type_ = targetType ∧
            aws.StringValue u.RdsResourceId = rdsResourceId))) := by
  constructor
  · intro t ht
    have h1 := pagesLoop_fst targetType rdsResourceId
      (conn.DescribeDBProxyTargets dbProxyName targetGroupName).err
      (conn.DescribeDBProxyTargets dbProxyName targetGroupName).pages none
    unfold finder.DBProxyTarget rds.RDS.DescribeDBProxyTargetsPages at ht
    rw [h1, Option.or_none, List.find?_eq_some] at ht
    obtain ⟨hm, before, after, hsplit, hbefore⟩ := ht
    refine ⟨by simpa [finder.targetMatches] using hm, before, after, hsplit, ?_⟩
    rintro u hu ⟨h1, h2⟩
    have := hbefore u hu
    simp [finder.targetMatches, h1, h2] at this
  · intro captured page lastPage
    cases page with
    | none => simp [finder.DBProxyTargetPage, finder.allTargets]
    | some p =>
      simp only [finder.DBProxyTargetPage, finder.allTargets, List.append_nil]
      cases hf : p.Targets.find? (finder.targetMatches targetType rdsResourceId) with
      | some t =>
        have hm := List.find?_some hf
        have hmem := List.mem_of_find?_eq_some hf
        simp only [Bool.false_eq_true, false_iff, not_and, not_forall]
        intro _
        exact ⟨t, hmem, by simpa [finder.targetMatches] using hm⟩
      | none =>
        rw [List.find?_eq_none] at hf
        simp only [Bool.not_eq_true', true_and, and_congr_right_iff]
        constructor
        · intro hl
          refine ⟨hl, ?_⟩
          intro u hu
          simpa [finder.targetMatches] using hf u hu
        · exact fun h => h.1

/-- Claim C7 on three pages of targets, the second nil: the instance target of the third page is
returned, and it is the earlier of the two targets that match. -/
theorem DBProxyTarget_first_match_witness :
    (aws.StringValue sample.instanceTarget.Type_ = "RDS_INSTANCE" ∧
      aws.StringValue sample.instanceTarget.RdsResourceId = "db-1") ∧
    ∃ before after,
      finder.allTargets (sample.healthy.DescribeDBProxyTargets "proxy" "default").pages =
        before ++ sample.instanceTarget :: after ∧
      ∀ u ∈ before, ¬ (aws.StringValue u.Type_ = "RDS_INSTANCE" ∧
        aws.StringValue u.RdsResourceId = "db-1") :=
  (DBProxyTarget_first_match sample.healthy "proxy" "default" "RDS_INSTANCE" "db-1").1
    sample.instanceTarget (by decide)

/-! ### Read handlers and the not-found error -/

/-- Claim C1: for a resource that is not new, a lookup that reports not-found makes Read set the
resource ID to the empty string, write no attribute, make no further call, and return nil. For the
environment the lookup is `GetEnvironment` on the two parts of the ID and not-found is the code
`ResourceNotFoundException`; for the user group the lookup is the finder and not-found is a
`NotFoundError` or the code of `UserGroupNotFoundFault`. -/
theorem read_not_found_clears_id :
    (∀ (calls : List appconfig.Call) (d : ResourceData appconfig.EnvironmentAttrs)
        (meta : AppConfigClient) (envID appID : String),
      d.isNewResource = false →
      resourceAwsAppconfigEnvironmentParseID d.id = (envID, appID, none) →
      tfawserr.ErrCodeEquals (meta.appconfigconn.GetEnvironment appID envID).2
        appconfig.ErrCodeResourceNotFoundException = true →
      resourceAwsAppconfigEnvironmentRead calls d meta =
        { calls := calls ++ [.GetEnvironment appID envID], d := { d with id := "" },
          err := none }) ∧
    (∀ (calls : List elasticache.Call) (d : ResourceData elasticache.UserGroupAttrs)
        (meta : ElastiCacheClient),
      d.isNewResource = false →
      (tfresource.NotFound (meta.elasticacheconn.UserGroupById d.id).2 = true ∨
        tfawserr.ErrCodeEquals (meta.elasticacheconn.UserGroupById d.id).2
          elasticache.ErrCodeUserGroupNotFoundFault = true) →
      resourceAwsElasticacheUserGroupRead calls d meta =
        { calls := calls ++ [.UserGroupById d.id], d := { d with id := "" },
          ret := .returned none }) := by
  constructor
  · intro calls d meta envID appID hnew hparse hnf
    simp [resourceAwsAppconfigEnvironmentRead, hparse, hnew, hnf, ResourceData.SetId]
  · intro calls d meta hnew hnf
    have h : (tfresource.NotFound (meta.elasticacheconn.UserGroupById d.id).2 ||
        tfawserr.ErrCodeEquals (meta.elasticacheconn.UserGroupById d.id).2
          elasticache.ErrCodeUserGroupNotFoundFault) = true := by
      simpa [Bool.or_eq_true] using hnf
    simp [resourceAwsElasticacheUserGroupRead, hnew, h, ResourceData.SetId]

/-- Claim C1 on an environment and on a user group that are gone: the ID is cleared, the earlier
attribute write is all there is, and the handler returns nil. -/
theorem read_not_found_clears_id_witness :
    resourceAwsAppconfigEnvironmentRead [] sample.stagingData sample.environmentGone =
      { calls := [] ++ [.GetEnvironment "abc1234" "env5678"],
        d := { sample.stagingData with id := "" }, err := none } ∧
    resourceAwsElasticacheUserGroupRead [] sample.groupData sample.groupGone =
      { calls := [] ++ [.UserGroupById sample.groupData.id],
        d := { sample.groupData with id := "" }, ret := .returned none } ∧
    resourceAwsElasticacheUserGroupRead [] sample.groupData sample.groupNotFound =
      { calls := [] ++ [.UserGroupById sample.groupData.id],
        d := { sample.groupData with id := "" }, ret := .returned none } :=
  ⟨read_not_found_clears_id.1 [] sample.stagingData sample.environmentGone "env5678" "abc1234"
      (by decide) (by decide) (by decide),
   read_not_found_clears_id.2 [] sample.groupData sample.groupGone (by decide)
      (Or.inr (by decide)),
   read_not_found_clears_id.2 [] sample.groupData sample.groupNotFound (by decide)
      (Or.inl (by decide))⟩

/-- The Read handler of the standards subscription has no path that returns an error: whatever the
finder answers, it returns nil or panics. -/
theorem securityhub_read_returns_no_error (d : ResourceData securityhub.SubscriptionAttrs)
    (conn : securityhub.SecurityHub) (d' : ResourceData securityhub.SubscriptionAttrs)
    (e : GoError) :
    resourceAwsSecurityHubStandardsSubscriptionRead d conn ≠ .returned (d', some e) := by
  unfold resourceAwsSecurityHubStandardsSubscriptionRead
  intro h
  dsimp only at h
  split at h
  · simp at h
  · split at h <;> simp at h

/-- Claim C2, as the code has it: a lookup that fails for lack of permission, which is not a
not-found error, does not make Read return an error. With the nil result that comes with the
failure, Read dereferences it and panics; with a result next to the error, Read stores its
`StandardsArn` and returns nil. -/
theorem securityhub_read_drops_lookup_error :
    sample.lookupDenied.StandardsSubscriptionByARN sample.subscriptionData.id =
      (none, some sample.denied) ∧
    tfresource.NotFound (some sample.denied) = false ∧
    resourceAwsSecurityHubStandardsSubscriptionRead sample.subscriptionData sample.lookupDenied =
      .panicked ∧
    resourceAwsSecurityHubStandardsSubscriptionRead sample.subscriptionData
        sample.lookupDeniedWithResult =
      .returned
        (sample.subscriptionData.Set "standards_arn"
          (.str (some "arn:aws:securityhub:::ruleset/cis/v/1.2.0")), none) := by
  decide

/-! ### Update handlers and change detection -/

/-- For the user group, `d.HasChange "user_ids"` compares the two sets. -/
theorem userGroup_HasChange_user_ids (d : ResourceData elasticache.UserGroupAttrs) :
    d.HasChange "user_ids" = (d.old.user_ids != d.new.user_ids) := by
  simp [ResourceData.HasChange, Schema.differs]

/-- A change of `user_ids` is a change other than one of `tags_all`. -/
theorem userGroup_HasChangeExcept_of_user_ids (d : ResourceData elasticache.UserGroupAttrs)
    (h : d.old.user_ids ≠ d.new.user_ids) : d.HasChangeExcept "tags_all" = true := by
  simp only [ResourceData.HasChangeExcept, Schema.keys, List.any_eq_true]
  refine ⟨"user_ids", by simp, ?_⟩
  rw [userGroup_HasChange_user_ids]
  simp [h]

/-- The variable `hasChange` is set exactly when one of the two differences is non-empty. -/
theorem userGroupModifyRequest_hasChange (d : ResourceData elasticache.UserGroupAttrs) :
    (userGroupModifyRequest d).2 = true ↔
      ((schemaSetDifference d.new.user_ids d.old.user_ids).Nonempty ∨
        (schemaSetDifference d.old.user_ids d.new.user_ids).Nonempty) := by
  unfold userGroupModifyRequest
  rw [userGroup_HasChange_user_ids]
  by_cases h : d.old.user_ids = d.new.user_ids
  · simp [h, schemaSetDifference]
  · have hb : (d.old.user_ids != d.new.user_ids) = true := by simpa [bne_iff_ne] using h
    simp only [hb, ↓reduceIte, Finset.card_pos]
    by_cases ha : (schemaSetDifference d.new.user_ids d.old.user_ids).Nonempty <;>
      by_cases hr : (schemaSetDifference d.old.user_ids d.new.user_ids).Nonempty <;>
      simp [ha, hr]

/-- The two lists of the request are the two differences, an absent list standing for the empty
one. -/
theorem userGroupModifyRequest_lists (d : ResourceData elasticache.UserGroupAttrs) :
    (userGroupModifyRequest d).1.UserIdsToAdd.getD ∅ =
        schemaSetDifference d.new.user_ids d.old.user_ids ∧
    (userGroupModifyRequest d).1.UserIdsToRemove.getD ∅ =
        schemaSetDifference d.old.user_ids d.new.user_ids := by
  unfold userGroupModifyRequest
  rw [userGroup_HasChange_user_ids]
  by_cases h : d.old.user_ids = d.new.user_ids
  · simp [h, schemaSetDifference]
  · have hb : (d.old.user_ids != d.new.user_ids) = true := by simpa [bne_iff_ne] using h
    simp only [hb, ↓reduceIte, Finset.card_pos]
    by_cases ha : (schemaSetDifference d.new.user_ids d.old.user_ids).Nonempty <;>
      by_cases hr : (schemaSetDifference d.old.user_ids d.new.user_ids).Nonempty <;>
      simp [ha, hr] <;>
      simp_all [Finset.not_nonempty_iff_eq_empty]

/-- The Read handler of the user group adds no `ModifyUserGroup` call. -/
theorem userGroupRead_no_modify (calls : List elasticache.Call)
    (d : ResourceData elasticache.UserGroupAttrs) (meta : ElastiCacheClient)
    (input : elasticache.ModifyUserGroupInput) :
    elasticache.Call.ModifyUserGroup input ∈ (resourceAwsElasticacheUserGroupRead calls d meta).calls ↔
      elasticache.Call.ModifyUserGroup input ∈ calls := by
  unfold resourceAwsElasticacheUserGroupRead
  dsimp only
  split
  · simp
  · split
    · simp
    · split
      · simp
      · split
        · split <;> simp
        · simp

/-- Claim C8: in `resourceAwsElasticacheUserGroupUpdate` the request's `UserIdsToAdd` is
`new \ old` and its `UserIdsToRemove` is `old \ new` (an absent list standing for the empty one);
the two are disjoint, the second is a subset of `old`, the first is disjoint from `old`, and
`(old \ UserIdsToRemove) ∪ UserIdsToAdd = new`; and `ModifyUserGroup` is called, with that request,
if and only if one of the two differences is non-empty. -/
theorem user_group_update_differences (d : ResourceData elasticache.UserGroupAttrs)
    (meta : ElastiCacheClient) :
    (userGroupModifyRequest d).1.UserIdsToAdd.getD ∅ = d.new.user_ids \ d.old.user_ids ∧
    (userGroupModifyRequest d).1.UserIdsToRemove.getD ∅ = d.old.user_ids \ d.new.user_ids ∧
    Disjoint ((userGroupModifyRequest d).1.UserIdsToAdd.getD ∅)
      ((userGroupModifyRequest d).1.UserIdsToRemove.getD ∅) ∧
    (userGroupModifyRequest d).1.UserIdsToRemove.getD ∅ ⊆ d.old.user_ids ∧
    Disjoint ((userGroupModifyRequest d).1.UserIdsToAdd.getD ∅) d.old.user_ids ∧
    (d.old.user_ids \ (userGroupModifyRequest d).1.UserIdsToRemove.getD ∅) ∪
      (userGroupModifyRequest d).1.UserIdsToAdd.getD ∅ = d.new.user_ids ∧
    ((∃ input, elasticache.Call.ModifyUserGroup input ∈
        (resourceAwsElasticacheUserGroupUpdate d meta).calls) ↔
      ((d.new.user_ids \ d.old.user_ids).Nonempty ∨ (d.old.user_ids \ d.new.user_ids).Nonempty)) ∧
    (∀ input, elasticache.Call.ModifyUserGroup input ∈
        (resourceAwsElasticacheUserGroupUpdate d meta).calls →
      input = (userGroupModifyRequest d).1) := by
  obtain ⟨hadd, hrem⟩ := userGroupModifyRequest_lists d
  simp only [schemaSetDifference] at hadd hrem
  have hcalls : ∀ input, elasticache.Call.ModifyUserGroup input ∈
      (resourceAwsElasticacheUserGroupUpdate d meta).calls ↔
        ((userGroupModifyRequest d).2 = true ∧ input = (userGroupModifyRequest d).1) := by
    intro input
    have hexc : (userGroupModifyRequest d).2 = true → d.HasChangeExcept "tags_all" = true := by
      intro hb
      apply userGroup_HasChangeExcept_of_user_ids
      intro heq
      rw [userGroupModifyRequest_hasChange] at hb
      simp [schemaSetDifference, heq] at hb
    unfold resourceAwsElasticacheUserGroupUpdate
    dsimp only
    cases hb : (userGroupModifyRequest d).2 with
    | false =>
      simp only [Bool.false_eq_true, ↓reduceIte, ite_self, List.nil_append, false_and, iff_false]
      cases hc : (d.HasChange "tags_all" && meta.partition == elasticache.AwsPartitionID) <;>
        cases hu : meta.elasticacheconn.UpdateTags d.new.arn d.old.tags_all d.new.tags_all <;>
        simp [userGroupRead_no_modify]
    | true =>
      simp only [hexc hb, ↓reduceIte, true_and]
      cases hm : meta.elasticacheconn.ModifyUserGroup (userGroupModifyRequest d).1 with
      | some e => simp [eq_comm]
      | none =>
        cases hw : meta.elasticacheconn.WaitForState d.new.user_group_id with
        | some e => simp [eq_comm]
        | none =>
          cases hc : (d.HasChange "tags_all" && meta.partition == elasticache.AwsPartitionID) <;>
            cases hu : meta.elasticacheconn.UpdateTags d.new.arn d.old.tags_all d.new.tags_all <;>
            simp [userGroupRead_no_modify, eq_comm]
  refine ⟨hadd, hrem, ?_, ?_, ?_, ?_, ?_, ?_⟩
  · rw [hadd, hrem]
    exact Finset.disjoint_left.mpr (fun x hx hx' =>
      (Finset.mem_sdiff.mp hx').2 (Finset.mem_sdiff.mp hx).1)
  · rw [hrem]
    exact Finset.sdiff_subset
  · rw [hadd]
    exact Finset.sdiff_disjoint
  · rw [hadd, hrem]
    ext x
    simp only [Finset.mem_union, Finset.mem_sdiff, not_and, not_not]
    tauto
  · have hch := userGroupModifyRequest_hasChange d
    simp only [schemaSetDifference] at hch
    rw [← hch]
    constructor
    · rintro ⟨input, hin⟩
      exact ((hcalls input).mp hin).1
    · intro hb
      exact ⟨_, (hcalls _).mpr ⟨hb, rfl⟩⟩
  · intro input hin
    exact ((hcalls input).mp hin).2

/-- Claim C8 on a plan that replaces the user `alice` by `bob`: `bob` is added, `alice` removed,
and `ModifyUserGroup` is called. -/
theorem user_group_update_differences_witness :
    ∃ input, elasticache.Call.ModifyUserGroup input ∈
      (resourceAwsElasticacheUserGroupUpdate sample.swapData sample.groupGone).calls :=
  (user_group_update_differences sample.swapData sample.groupGone).2.2.2.2.2.2.1.mpr
    (Or.inl (by decide))

/-! ### Expanding monitors -/

/-- The loop of `expandAppconfigEnvironmentMonitors`, started on a non-nil slice, appends the
monitors of the non-nil maps, in order. -/
theorem expandMonitors_foldl (l : List TfValue) (acc : List (Option appconfig.Monitor)) :
    l.foldl expandMonitorsStep (some acc) = some (acc ++ l.filterMap TfValue.expanded) := by
  induction l generalizing acc with
  | nil => simp
  | cons v rest ih =>
    rw [List.foldl_cons]
    cases v with
    | nil => simpa [expandMonitorsStep, TfValue.expanded] using ih acc
    | scalar s => simpa [expandMonitorsStep, TfValue.expanded] using ih acc
    | map m =>
      cases m with
      | none =>
        simpa [expandMonitorsStep, TfValue.expanded, expandAppconfigEnvironmentMonitor] using ih acc
      | some m =>
        have hstep : expandMonitorsStep (some acc) (.map (some m)) =
            some (acc ++ [expandAppconfigEnvironmentMonitor (some m)]) := by
          simp [expandMonitorsStep, expandAppconfigEnvironmentMonitor, GoSlice.append,
            GoSlice.elems]
        rw [hstep, ih]
        simp [TfValue.expanded]

/-- The result of `expandAppconfigEnvironmentMonitors` is never the nil slice. -/
theorem expandMonitors_eq (tfList : GoSlice TfValue) :
    expandAppconfigEnvironmentMonitors tfList = some (tfList.elems.filterMap TfValue.expanded) := by
  unfold expandAppconfigEnvironmentMonitors
  rw [expandMonitors_foldl]
  simp

/-- Claim C10, refuted as stated: a list whose one element is the nil map holds one element that
is a map, and the result has length zero. -/
theorem expandMonitors_skips_nil_map :
    (GoSlice.elems (some [TfValue.map none])).countP TfValue.isMap = 1 ∧
    (expandAppconfigEnvironmentMonitors (some [TfValue.map none])).len = 0 ∧
    expandAppconfigEnvironmentMonitors (some [TfValue.map none]) = some [] := by
  decide

/-- Claim C10, amended: for every input list, the nil and the empty list included, the result of
`expandAppconfigEnvironmentMonitors` is a non-nil slice; it holds the monitors of the elements that
are maps other than the nil map, in their order, so its length is the number of those elements,
and it is the empty slice when no element is a map. -/
theorem expandMonitors_non_nil (tfList : GoSlice TfValue) :
    expandAppconfigEnvironmentMonitors tfList ≠ none ∧
    (expandAppconfigEnvironmentMonitors tfList).elems =
      (tfList.elems.filter TfValue.isNonNilMap).filterMap TfValue.expanded ∧
    (expandAppconfigEnvironmentMonitors tfList).len = tfList.elems.countP TfValue.isNonNilMap ∧
    ((∀ v ∈ tfList.elems, v.isMap = false) → expandAppconfigEnvironmentMonitors tfList = some []) := by
  rw [expandMonitors_eq]
  have hfilter : ∀ l : List TfValue,
      (l.filter TfValue.isNonNilMap).filterMap TfValue.expanded = l.filterMap TfValue.expanded := by
    intro l
    induction l with
    | nil => rfl
    | cons v rest ih =>
      cases v with
      | nil => simpa [TfValue.isNonNilMap, TfValue.expanded] using ih
      | scalar s => simpa [TfValue.isNonNilMap, TfValue.expanded] using ih
      | map m =>
        cases m with
        | none => simpa [TfValue.isNonNilMap, TfValue.expanded] using ih
        | some m => simp [TfValue.isNonNilMap, TfValue.expanded, ih]
  have hlen : ∀ l : List TfValue,
      (l.filterMap TfValue.expanded).length = l.countP TfValue.isNonNilMap := by
    intro l
    induction l with
    | nil => rfl
    | cons v rest ih =>
      cases v with
      | nil => simpa [TfValue.isNonNilMap, TfValue.expanded] using ih
      | scalar s => simpa [TfValue.isNonNilMap, TfValue.expanded] using ih
      | map m =>
        cases m with
        | none => simpa [TfValue.isNonNilMap, TfValue.expanded] using ih
        | some m => simp [TfValue.isNonNilMap, TfValue.expanded, ih]
  refine ⟨by simp, ?_, ?_, ?_⟩
  · simp [GoSlice.elems, hfilter]
  · simp [GoSlice.len, GoSlice.elems, hlen]
  · intro h
    congr 1
    rw [List.filterMap_eq_nil_iff]
    intro v hv
    have := h v hv
    cases v with
    | nil => rfl
    | scalar s => rfl
    | map m => simp [TfValue.isMap] at this

/-- Claim C10, amended, on a list without maps. -/
theorem expandMonitors_non_nil_witness :
    expandAppconfigEnvironmentMonitors (some [TfValue.nil, .scalar (.str "alarm")]) = some [] :=
  (expandMonitors_non_nil (some [TfValue.nil, .scalar (.str "alarm")])).2.2.2 (by decide)

/-- The Read handler of the environment adds only `GetEnvironment` and `ListTags` calls. -/
theorem environmentRead_calls (calls : List appconfig.Call)
    (d : ResourceData appconfig.EnvironmentAttrs) (meta : AppConfigClient) (c : appconfig.Call)
    (hget : ∀ a e, c ≠ .GetEnvironment a e) (hlist : ∀ a, c ≠ .ListTags a) :
    c ∈ (resourceAwsAppconfigEnvironmentRead calls d meta).calls ↔ c ∈ calls := by
  have h1 : ∀ a e, ¬ c = .GetEnvironment a e := hget
  have h2 : ∀ a, ¬ c = .ListTags a := hlist
  unfold resourceAwsAppconfigEnvironmentRead
  dsimp only
  split
  · simp
  · split
    · simp [h1]
    · split
      · simp [h1]
      · split
        · simp [h1]
        · split <;> simp [h1, h2]

/-- In the request of the environment update a field is present exactly when its attribute has
changed. -/
theorem environmentUpdateInput_fields (d : ResourceData appconfig.EnvironmentAttrs)
    (envID appID : String) :
    ((environmentUpdateInput d envID appID).Description.isSome = d.HasChange "description") ∧
    ((environmentUpdateInput d envID appID).Name.isSome = d.HasChange "name") ∧
    ((environmentUpdateInput d envID appID).Monitors.isSome = d.HasChange "monitor") := by
  unfold environmentUpdateInput
  cases hd : d.HasChange "description" <;> cases hn : d.HasChange "name" <;>
    cases hm : d.HasChange "monitor" <;> simp [expandMonitors_eq]

/-- The calls of the environment update other than those of the final Read. -/
theorem environmentUpdate_calls (d : ResourceData appconfig.EnvironmentAttrs)
    (meta : AppConfigClient) (c : appconfig.Call)
    (hget : ∀ a e, c ≠ .GetEnvironment a e) (hlist : ∀ a, c ≠ .ListTags a) :
    c ∈ (resourceAwsAppconfigEnvironmentUpdate d meta).calls ↔
      ((d.HasChangesExcept ["tags", "tags_all"] = true ∧
          (resourceAwsAppconfigEnvironmentParseID d.id).2.2 = none ∧
          c = .UpdateEnvironment (environmentUpdateInput d
            (resourceAwsAppconfigEnvironmentParseID d.id).1
            (resourceAwsAppconfigEnvironmentParseID d.id).2.1)) ∨
       (d.HasChange "tags_all" = true ∧
          (d.HasChangesExcept ["tags", "tags_all"] = true →
            (resourceAwsAppconfigEnvironmentParseID d.id).2.2 = none ∧
            meta.appconfigconn.UpdateEnvironment (environmentUpdateInput d
              (resourceAwsAppconfigEnvironmentParseID d.id).1
              (resourceAwsAppconfigEnvironmentParseID d.id).2.1) = none) ∧
          c = .UpdateTags d.new.arn d.old.tags_all d.new.tags_all)) := by
  unfold resourceAwsAppconfigEnvironmentUpdate
  dsimp only
  cases hx : d.HasChangesExcept ["tags", "tags_all"] <;>
    cases hp : (resourceAwsAppconfigEnvironmentParseID d.id).2.2 <;>
    cases hu : meta.appconfigconn.UpdateEnvironment (environmentUpdateInput d
      (resourceAwsAppconfigEnvironmentParseID d.id).1
      (resourceAwsAppconfigEnvironmentParseID d.id).2.1) <;>
    cases ht : d.HasChange "tags_all" <;>
    cases hg : meta.appconfigconn.UpdateTags d.new.arn d.old.tags_all d.new.tags_all <;>
    simp [environmentRead_calls _ _ _ c hget hlist]

/-- Claim C9, refuted as stated: with a changed name and changed `tags_all`, a refused
`UpdateEnvironment` ends the handler before the tag update, so `tags_all` has changed and no tag
update call is made; and with an ID that does not parse, the name has changed and
`UpdateEnvironment` is not called. -/
theorem environment_update_stops_at_error :
    sample.renameData.HasChange "tags_all" = true ∧
    (resourceAwsAppconfigEnvironmentUpdate sample.renameData sample.updateRefused).calls =
      [.UpdateEnvironment
        { ApplicationId := some "abc1234", Description := none, EnvironmentId := some "env5678",
          Monitors := none, Name := some "preprod" }] ∧
    sample.malformedData.HasChange "name" = true ∧
    sample.malformedData.HasChangesExcept ["tags", "tags_all"] = true ∧
    (resourceAwsAppconfigEnvironmentUpdate sample.malformedData sample.updateAccepted).calls = [] := by
  decide

/-- Claim C9, amended: `UpdateEnvironment` is called if and only if some attribute other than
`tags` and `tags_all` has changed and the resource ID parses; the request then has `Description`
exactly when `description` changed, `Name` exactly when `name` changed and `Monitors` exactly when
`monitor` changed; and the tag update call is made if and only if `tags_all` changed and, in case
some other attribute changed too, the ID parsed and `UpdateEnvironment` returned no error. -/
theorem environment_update_gated (d : ResourceData appconfig.EnvironmentAttrs)
    (meta : AppConfigClient) :
    (d.HasChangesExcept ["tags", "tags_all"] = true ↔
      ∃ k ∈ Schema.keys appconfig.EnvironmentAttrs,
        k ≠ "tags" ∧ k ≠ "tags_all" ∧ d.HasChange k = true) ∧
    ((∃ input, appconfig.Call.UpdateEnvironment input ∈
        (resourceAwsAppconfigEnvironmentUpdate d meta).calls) ↔
      (d.HasChangesExcept ["tags", "tags_all"] = true ∧
        (resourceAwsAppconfigEnvironmentParseID d.id).2.2 = none)) ∧
    (∀ input, appconfig.Call.UpdateEnvironment input ∈
        (resourceAwsAppconfigEnvironmentUpdate d meta).calls →
      input = environmentUpdateInput d (resourceAwsAppconfigEnvironmentParseID d.id).1
          (resourceAwsAppconfigEnvironmentParseID d.id).2.1 ∧
      (input.Description.isSome = true ↔ d.HasChange "description" = true) ∧
      (input.Name.isSome = true ↔ d.HasChange "name" = true) ∧
      (input.Monitors.isSome = true ↔ d.HasChange "monitor" = true)) ∧
    ((∃ arn oldTags newTags, appconfig.Call.UpdateTags arn oldTags newTags ∈
        (resourceAwsAppconfigEnvironmentUpdate d meta).calls) ↔
      (d.HasChange "tags_all" = true ∧
        (d.HasChangesExcept ["tags", "tags_all"] = true →
          (resourceAwsAppconfigEnvironmentParseID d.id).2.2 = none ∧
          meta.appconfigconn.UpdateEnvironment (environmentUpdateInput d
            (resourceAwsAppconfigEnvironmentParseID d.id).1
            (resourceAwsAppconfigEnvironmentParseID d.id).2.1) = none))) := by
  have hupd : ∀ input, appconfig.Call.UpdateEnvironment input ∈
      (resourceAwsAppconfigEnvironmentUpdate d meta).calls ↔
        (d.HasChangesExcept ["tags", "tags_all"] = true ∧
          (resourceAwsAppconfigEnvironmentParseID d.id).2.2 = none ∧
          input = environmentUpdateInput d (resourceAwsAppconfigEnvironmentParseID d.id).1
            (resourceAwsAppconfigEnvironmentParseID d.id).2.1) := by
    intro input
    rw [environmentUpdate_calls d meta _ (by simp) (by simp)]
    simp
  have htag : ∀ arn oldTags newTags, appconfig.Call.UpdateTags arn oldTags newTags ∈
      (resourceAwsAppconfigEnvironmentUpdate d meta).calls ↔
        (d.HasChange "tags_all" = true ∧
          (d.HasChangesExcept ["tags", "tags_all"] = true →
            (resourceAwsAppconfigEnvironmentParseID d.id).2.2 = none ∧
            meta.appconfigconn.UpdateEnvironment (environmentUpdateInput d
              (resourceAwsAppconfigEnvironmentParseID d.id).1
              (resourceAwsAppconfigEnvironmentParseID d.id).2.1) = none) ∧
          appconfig.Call.UpdateTags arn oldTags newTags =
            .UpdateTags d.new.arn d.old.tags_all d.new.tags_all) := by
    intro arn oldTags newTags
    rw [environmentUpdate_calls d meta _ (by simp) (by simp)]
    simp
  refine ⟨?_, ?_, ?_, ?_⟩
  · simp only [ResourceData.HasChangesExcept, List.any_eq_true, Bool.and_eq_true,
      Bool.not_eq_true', ne_eq]
    constructor
    · rintro ⟨k, hk, hnot, hch⟩
      refine ⟨k, hk, ?_, ?_, hch⟩
      · rintro rfl
        simp at hnot
      · rintro rfl
        simp at hnot
    · rintro ⟨k, hk, h1, h2, hch⟩
      refine ⟨k, hk, ?_, hch⟩
      simp [h1, h2]
  · constructor
    · rintro ⟨input, hin⟩
      exact ⟨((hupd input).mp hin).1, ((hupd input).mp hin).2.1⟩
    · rintro ⟨hx, hp⟩
      exact ⟨_, (hupd _).mpr ⟨hx, hp, rfl⟩⟩
  · intro input hin
    obtain ⟨-, -, rfl⟩ := (hupd input).mp hin
    obtain ⟨h1, h2, h3⟩ := environmentUpdateInput_fields d
      (resourceAwsAppconfigEnvironmentParseID d.id).1
      (resourceAwsAppconfigEnvironmentParseID d.id).2.1
    exact ⟨rfl, by rw [h1], by rw [h2], by rw [h3]⟩
  · constructor
    · rintro ⟨arn, o, n, hin⟩
      exact ⟨((htag arn o n).mp hin).1, ((htag arn o n).mp hin).2.1⟩
    · rintro ⟨ht, hok⟩
      exact ⟨_, _, _, (htag _ _ _).mpr ⟨ht, hok, rfl⟩⟩

/-- Claim C9, amended, on the renaming plan with a service that accepts it: `UpdateEnvironment` is
called, with the new name and nothing else, and so is the tag update. -/
theorem environment_update_gated_witness :
    (∃ input, appconfig.Call.UpdateEnvironment input ∈
        (resourceAwsAppconfigEnvironmentUpdate sample.renameData sample.updateAccepted).calls) ∧
    (∃ arn oldTags newTags, appconfig.Call.UpdateTags arn oldTags newTags ∈
        (resourceAwsAppconfigEnvironmentUpdate sample.renameData sample.updateAccepted).calls) :=
  ⟨(environment_update_gated sample.renameData sample.updateAccepted).2.1.mpr
      ⟨by decide, by decide⟩,
   (environment_update_gated sample.renameData sample.updateAccepted).2.2.2.mpr
      ⟨by decide, fun _ => ⟨by decide, by decide⟩⟩⟩

/-! ### Resource IDs -/

/-- Splitting a piece that does not hold the separator gives that piece alone. -/
theorem splitChars_of_not_mem (sep : Char) (l : List Char) (h : sep ∉ l) :
    splitChars sep l = [l] := by
  induction l with
  | nil => rfl
  | cons c cs ih =>
    have hc : c ≠ sep := fun hc => h (hc ▸ List.mem_cons_self _ _)
    have hcs : sep ∉ cs := fun hm => h (List.mem_cons_of_mem _ hm)
    simp [splitChars, hc, ih hcs]

/-- Splitting cuts at the first separator. -/
theorem splitChars_append (sep : Char) (a b : List Char) (h : sep ∉ a) :
    splitChars sep (a ++ sep :: b) = a :: splitChars sep b := by
  induction a with
  | nil => simp [splitChars]
  | cons c cs ih =>
    have hc : c ≠ sep := fun hc => h (hc ▸ List.mem_cons_self _ _)
    have hcs : sep ∉ cs := fun hm => h (List.mem_cons_of_mem _ hm)
    simp [splitChars, hc, ih hcs]

/-- Claim C11: `resourceAwsAppconfigEnvironmentParseID` returns a nil error exactly when splitting
the ID on `:` gives two parts that are both non-empty, and then returns the first part as the
environment ID and the second as the application ID; in every other case it returns two empty
strings and an error. The ID that Create writes, `EnvironmentID:ApplicationID`, is parsed back into
its two IDs. -/
theorem environment_id_format (id : String) :
    ((resourceAwsAppconfigEnvironmentParseID id).2.2 = none ↔
      ∃ a b, strings.Split id ':' = [a, b] ∧ a ≠ "" ∧ b ≠ "") ∧
    (∀ a b, strings.Split id ':' = [a, b] → a ≠ "" → b ≠ "" →
      resourceAwsAppconfigEnvironmentParseID id = (a, b, none)) ∧
    ((resourceAwsAppconfigEnvironmentParseID id).2.2 ≠ none →
      (resourceAwsAppconfigEnvironmentParseID id).1 = "" ∧
      (resourceAwsAppconfigEnvironmentParseID id).2.1 = "") ∧
    (∀ envID appID : String, envID ≠ "" → appID ≠ "" → ':' ∉ envID.data → ':' ∉ appID.data →
      resourceAwsAppconfigEnvironmentParseID (environmentCreateID (some envID) (some appID)) =
        (envID, appID, none)) := by
  have hgood : ∀ (s a b : String), strings.Split s ':' = [a, b] → a ≠ "" → b ≠ "" →
      resourceAwsAppconfigEnvironmentParseID s = (a, b, none) := by
    intro s a b hs ha hb
    simp [resourceAwsAppconfigEnvironmentParseID, hs, ha, hb]
  refine ⟨⟨?_, ?_⟩, hgood id, ?_, ?_⟩
  · intro h
    unfold resourceAwsAppconfigEnvironmentParseID at h
    dsimp only at h
    split at h
    · simp at h
    · rename_i hc
      simp only [bne_iff_ne, ne_eq, Bool.or_eq_true, decide_eq_true_eq, beq_iff_eq, not_or,
        Decidable.not_not] at hc
      obtain ⟨⟨hlen, h0⟩, h1⟩ := hc
      match hparts : strings.Split id ':' , hlen with
      | [a, b], _ =>
        refine ⟨a, b, rfl, ?_, ?_⟩
        · simpa [hparts] using h0
        · simpa [hparts] using h1
  · rintro ⟨a, b, hs, ha, hb⟩
    rw [hgood id a b hs ha hb]
  · intro h
    unfold resourceAwsAppconfigEnvironmentParseID at h ⊢
    dsimp only at h ⊢
    split
    · exact ⟨rfl, rfl⟩
    · rename_i hc
      rw [if_neg hc] at h
      exact absurd rfl h
  · intro envID appID he ha hce hca
    apply hgood
    · simp [strings.Split, environmentCreateID, aws.StringValue, String.data_append,
        splitChars_append _ _ _ hce, splitChars_of_not_mem _ _ hca]
    · exact he
    · exact ha

/-- Claim C11 on the ID of the environment `staging`. -/
theorem environment_id_format_witness :
    resourceAwsAppconfigEnvironmentParseID "env5678:abc1234" = ("env5678", "abc1234", none) :=
  (environment_id_format "env5678:abc1234").2.1 "env5678" "abc1234" (by decide) (by decide)
    (by decide)

/-- A decimal digit reads back as its value. -/
theorem digitValue_digitChar (v : Nat) (h : v < 10) : digitValue (Nat.digitChar v) = some v := by
  interval_cases v <;> decide

/-- The digits that `toDigitsCore` puts before `ds` read back as the number. -/
theorem parseDigits_toDigitsCore (fuel n : Nat) (ds : List Char) (h : n < fuel) :
    parseDigits (Nat.toDigitsCore 10 fuel n ds) 0 = parseDigits ds n := by
  induction fuel generalizing n ds with
  | zero => omega
  | succ fuel ih =>
    unfold Nat.toDigitsCore
    dsimp only
    have hmod : n % 10 < 10 := Nat.mod_lt _ (by decide)
    split
    · rename_i h0
      have hn : n % 10 = n := by omega
      simp only [parseDigits, digitValue_digitChar _ hmod]
      simp [hn]
    · rename_i h0
      rw [ih (n / 10) _ (by omega)]
      have : n / 10 * 10 + n % 10 = n := by omega
      simp only [parseDigits, digitValue_digitChar _ hmod, this]

/-- Every character that `toDigitsCore` puts before `ds` is a decimal digit. -/
theorem toDigitsCore_digits (fuel n : Nat) (ds : List Char)
    (hds : ∀ c ∈ ds, (digitValue c).isSome = true) :
    ∀ c ∈ Nat.toDigitsCore 10 fuel n ds, (digitValue c).isSome = true := by
  induction fuel generalizing n ds with
  | zero => simpa [Nat.toDigitsCore] using hds
  | succ fuel ih =>
    have hmod : n % 10 < 10 := Nat.mod_lt _ (by decide)
    have hcons : ∀ c ∈ Nat.digitChar (n % 10) :: ds, (digitValue c).isSome = true := by
      intro c hc
      rcases List.mem_cons.mp hc with rfl | hc
      · simp [digitValue_digitChar _ hmod]
      · exact hds c hc
    unfold Nat.toDigitsCore
    dsimp only
    split
    · exact hcons
    · exact ih _ _ hcons

/-- The decimal form of a number is not empty. -/
theorem toDigits_ne_nil (n : Nat) : Nat.toDigits 10 n ≠ [] := by
  have h : ∀ fuel m ds, ds ≠ [] → Nat.toDigitsCore 10 fuel m ds ≠ [] := by
    intro fuel
    induction fuel with
    | zero => intro m ds hds; simpa [Nat.toDigitsCore] using hds
    | succ fuel ih =>
      intro m ds _
      unfold Nat.toDigitsCore
      dsimp only
      split
      · simp
      · exact ih _ _ (by simp)
  unfold Nat.toDigits Nat.toDigitsCore
  dsimp only
  split
  · simp
  · exact h _ _ _ (by simp)

/-- The decimal form of a natural number is read back by `strconv.Atoi` when it fits the `int`. -/
theorem Atoi_fmtInt (intSize n : Nat) (h : n < 2 ^ (intSize - 1)) :
    strconv.Atoi intSize (fmtInt (n : Int)) = ((n : Int), none) := by
  have hfmt : fmtInt (n : Int) = String.mk (Nat.toDigits 10 n) := by
    simp [fmtInt]
  have hdig : ∀ c ∈ Nat.toDigits 10 n, (digitValue c).isSome = true :=
    toDigitsCore_digits _ _ _ (by simp)
  have hparse : parseDigits (Nat.toDigits 10 n) 0 = some n := by
    unfold Nat.toDigits
    rw [parseDigits_toDigitsCore _ _ _ (Nat.lt_succ_self n)]
    rfl
  have hne := toDigits_ne_nil n
  rw [hfmt]
  unfold strconv.Atoi
  dsimp only
  cases hl : Nat.toDigits 10 n with
  | nil => exact absurd hl hne
  | cons c cs =>
    have hc : (digitValue c).isSome = true := hdig c (by rw [hl]; exact List.mem_cons_self _ _)
    have hminus : c ≠ '-' := by
      rintro rfl
      revert hc
      decide
    have hplus : c ≠ '+' := by
      rintro rfl
      revert hc
      decide
    have hsigned : (match c :: cs with
        | '-' :: rest => (true, rest)
        | '+' :: rest => (false, rest)
        | cs' => (false, cs')) = (false, c :: cs) := by
      split
      · rename_i heq
        simp only [List.cons.injEq] at heq
        exact absurd heq.1 hminus
      · rename_i heq
        simp only [List.cons.injEq] at heq
        exact absurd heq.1 hplus
      · rfl
    rw [hsigned]
    simp only
    rw [← hl, hparse]
    have h1 : ¬ ((n : Int) < -(2 : Int) ^ (intSize - 1)) := by
      have : (0 : Int) < (2 : Int) ^ (intSize - 1) := by positivity
      omega
    have h2 : ¬ ((n : Int) > (2 : Int) ^ (intSize - 1) - 1) := by
      have : (n : Int) < (2 : Int) ^ (intSize - 1) := by exact_mod_cast h
      omega
    simp [h1, h2]

/-- The three parts of a slash-separated deployment ID, for parts that hold no slash. -/
theorem split_deployment_id (appID envID : String) (digits : List Char)
    (happ : '/' ∉ appID.data) (henv : '/' ∉ envID.data) (hdig : '/' ∉ digits) :
    strings.Split (appID ++ "/" ++ envID ++ "/" ++ String.mk digits) '/' =
      [appID, envID, String.mk digits] := by
  have hdata : (appID ++ "/" ++ envID ++ "/" ++ String.mk digits).data =
      appID.data ++ '/' :: (envID.data ++ '/' :: digits) := by
    simp [String.data_append]
  simp [strings.Split, hdata, splitChars_append _ _ _ happ, splitChars_append _ _ _ henv,
    splitChars_of_not_mem _ _ hdig]

/-- Claim C12, refuted as stated: the colon-separated ID of deployment 3 is rejected, and the
slash-separated one is parsed. -/
theorem deployment_id_colon_rejected :
    "abc1234" ++ ":" ++ "env5678" ++ ":" ++ fmtInt 3 = "abc1234:env5678:3" ∧
    (resourceAwsAppconfigDeploymentParseID 64 "abc1234:env5678:3").2.2.2 ≠ none ∧
    (resourceAwsAppconfigDeploymentParseID 64 "abc1234:env5678:3").1 = "" ∧
    (resourceAwsAppconfigDeploymentParseID 64 "abc1234:env5678:3").2.1 = "" ∧
    (resourceAwsAppconfigDeploymentParseID 64 "abc1234:env5678:3").2.2.1 = 0 ∧
    resourceAwsAppconfigDeploymentParseID 64 "abc1234/env5678/3" =
      ("abc1234", "env5678", 3, none) := by
  decide

/-- Claim C12, amended: the parser splits on `/`, the separator that Create writes, whatever its
error message names. For every non-empty application ID and environment ID without `:` and `/`,
and every non-negative deployment number that fits the `int`, the ID
`ApplicationID/EnvironmentID/decimal(n)` is parsed into its three parts, and the ID
`ApplicationID:EnvironmentID:decimal(n)` is rejected with the format error. -/
theorem deployment_id_slash_format (intSize : Nat) (appID envID : String) (n : Nat)
    (happ : appID ≠ "") (henv : envID ≠ "")
    (happSlash : '/' ∉ appID.data) (henvSlash : '/' ∉ envID.data)
    (_happColon : ':' ∉ appID.data) (_henvColon : ':' ∉ envID.data)
    (hn : n < 2 ^ (intSize - 1)) :
    resourceAwsAppconfigDeploymentParseID intSize
        (appID ++ "/" ++ envID ++ "/" ++ fmtInt (n : Int)) = (appID, envID, (n : Int), none) ∧
    resourceAwsAppconfigDeploymentParseID intSize
        (appID ++ ":" ++ envID ++ ":" ++ fmtInt (n : Int)) =
      ("", "", 0, some (.plain ("unexpected format of ID (" ++
        (appID ++ ":" ++ envID ++ ":" ++ fmtInt (n : Int)).quote ++
        "), expected ApplicationID:EnvironmentID:DeploymentNumber"))) := by
  have hfmt : fmtInt (n : Int) = String.mk (Nat.toDigits 10 n) := by
    simp [fmtInt]
  have hdigits : ∀ c ∈ Nat.toDigits 10 n, (digitValue c).isSome = true :=
    toDigitsCore_digits _ _ _ (by simp)
  have hslash : '/' ∉ Nat.toDigits 10 n := by
    intro hmem
    have := hdigits _ hmem
    revert this
    decide
  have hnum : String.mk (Nat.toDigits 10 n) ≠ "" := by
    intro h
    have hd : (String.mk (Nat.toDigits 10 n)).data = ("" : String).data := by rw [h]
    exact toDigits_ne_nil n hd
  constructor
  · have hsplit := split_deployment_id appID envID (Nat.toDigits 10 n) happSlash henvSlash hslash
    have hatoi := Atoi_fmtInt intSize n hn
    rw [hfmt] at hatoi ⊢
    unfold resourceAwsAppconfigDeploymentParseID
    simp [hsplit, happ, henv, hnum, hatoi]
  · have hdata : (appID ++ ":" ++ envID ++ ":" ++ fmtInt (n : Int)).data =
        appID.data ++ ':' :: (envID.data ++ ':' :: Nat.toDigits 10 n) := by
      simp [hfmt, String.data_append]
    have hnone : '/' ∉ (appID ++ ":" ++ envID ++ ":" ++ fmtInt (n : Int)).data := by
      rw [hdata]
      simp only [List.mem_append, List.mem_cons, not_or]
      exact ⟨happSlash, by decide, henvSlash, by decide, hslash⟩
    have hsplit : strings.Split (appID ++ ":" ++ envID ++ ":" ++ fmtInt (n : Int)) '/' =
        [appID ++ ":" ++ envID ++ ":" ++ fmtInt (n : Int)] := by
      unfold strings.Split
      rw [splitChars_of_not_mem _ _ hnone]
      rfl
    unfold resourceAwsAppconfigDeploymentParseID
    dsimp only
    rw [hsplit]
    rfl

/-- Claim C12, amended, on deployment 3 of the environment `env5678`. -/
theorem deployment_id_slash_format_witness :
    resourceAwsAppconfigDeploymentParseID 64 ("abc1234" ++ "/" ++ "env5678" ++ "/" ++ fmtInt (3 : Nat))
      = ("abc1234", "env5678", ((3 : Nat) : Int), none) :=
  (deployment_id_slash_format 64 "abc1234" "env5678" 3 (by decide) (by decide) (by decide)
    (by decide) (by decide) (by decide) (by decide)).1

/-! ### Retried deletion of a GuardDuty detector -/

/-- While the retried function returns retryable errors, `resource.Retry` goes on with what is left
of its budget. -/
theorem Retry_skip (timeoutErr : GoError) (f : Nat → Option resource.RetryError) (k budget made : Nat)
    (hk : k ≤ budget)
    (hretry : ∀ i, i < k → ∃ e, f (made + i) = some { Err := e, Retryable := true }) :
    resource.Retry timeoutErr f budget made = resource.Retry timeoutErr f (budget - k) (made + k) := by
  induction k generalizing budget made with
  | zero => simp
  | succ k ih =>
    obtain ⟨b, rfl⟩ : ∃ b, budget = b + 1 := ⟨budget - 1, by omega⟩
    obtain ⟨e, he⟩ := hretry 0 (by omega)
    simp only [Nat.add_zero] at he
    rw [resource.Retry, he]
    simp only [↓reduceIte]
    rw [ih b (made + 1) (by omega)]
    · congr 1 <;> omega
    · intro i hi
      have := hretry (i + 1) (by omega)
      rwa [show made + (i + 1) = made + 1 + i by omega] at this

/-- Claim C13: the retried function of `resourceAwsGuardDutyDetectorDelete` returns nil for a
successful `DeleteDetector`, a retryable error for a `BadRequestException` whose message contains
"cannot delete detector while it has invited or associated members", and a non-retryable error for
every other error. After retryable attempts within the budget, a success makes the handler return
nil and any other error of the service is returned wrapped; and when the retry ends in the time-out
error, `DeleteDetector` is called exactly once more and the outcome of that call decides. -/
theorem guardduty_delete_retry {A : Type} (timeoutErr : GoError) (budget : Nat)
    (d : ResourceData A) (conn : guardduty.GuardDuty) :
    (∀ made, conn.DeleteDetector d.id made = none → deleteDetectorStep conn d.id made = none) ∧
    (∀ made e, conn.DeleteDetector d.id made = some e →
      deleteDetectorStep conn d.id made =
        some { Err := e,
               Retryable := isAWSErr (some e) guardduty.ErrCodeBadRequestException
                 "cannot delete detector while it has invited or associated members" }) ∧
    (∀ k, k < budget →
      (∀ i, i < k → isAWSErr (conn.DeleteDetector d.id i) guardduty.ErrCodeBadRequestException
        "cannot delete detector while it has invited or associated members" = true) →
      conn.DeleteDetector d.id k = none →
      resourceAwsGuardDutyDetectorDelete timeoutErr budget d conn =
        { attempts := k + 1, d := d, err := none }) ∧
    (∀ k e, k < budget →
      (∀ i, i < k → isAWSErr (conn.DeleteDetector d.id i) guardduty.ErrCodeBadRequestException
        "cannot delete detector while it has invited or associated members" = true) →
      conn.DeleteDetector d.id k = some e →
      isAWSErr (some e) guardduty.ErrCodeBadRequestException
        "cannot delete detector while it has invited or associated members" = false →
      isResourceTimeoutError (some e) = false →
      resourceAwsGuardDutyDetectorDelete timeoutErr budget d conn =
        { attempts := k + 1, d := d,
          err := some (.wrapped ("error deleting GuardDuty Detector (" ++ d.id ++ ")") e) }) ∧
    (isResourceTimeoutError
        (resource.Retry timeoutErr (deleteDetectorStep conn d.id) budget 0).2 = true →
      resourceAwsGuardDutyDetectorDelete timeoutErr budget d conn =
        { attempts := (resource.Retry timeoutErr (deleteDetectorStep conn d.id) budget 0).1 + 1,
          d := d,
          err := (conn.DeleteDetector d.id
              (resource.Retry timeoutErr (deleteDetectorStep conn d.id) budget 0).1).map
            (GoError.wrapped ("error deleting GuardDuty Detector (" ++ d.id ++ ")")) }) := by
  have hstep_none : ∀ made, conn.DeleteDetector d.id made = none →
      deleteDetectorStep conn d.id made = none := by
    intro made h
    simp [deleteDetectorStep, h, isAWSErr, tfawserr.ErrMessageContains]
  have hstep_some : ∀ made e, conn.DeleteDetector d.id made = some e →
      deleteDetectorStep conn d.id made =
        some { Err := e,
               Retryable := isAWSErr (some e) guardduty.ErrCodeBadRequestException
                 "cannot delete detector while it has invited or associated members" } := by
    intro made e h
    unfold deleteDetectorStep
    dsimp only
    rw [h]
    cases hc : isAWSErr (some e) guardduty.ErrCodeBadRequestException
        "cannot delete detector while it has invited or associated members" <;>
      simp [resource.RetryableError, resource.NonRetryableError]
  have hskip : ∀ k, k < budget →
      (∀ i, i < k → isAWSErr (conn.DeleteDetector d.id i) guardduty.ErrCodeBadRequestException
        "cannot delete detector while it has invited or associated members" = true) →
      resource.Retry timeoutErr (deleteDetectorStep conn d.id) budget 0 =
        resource.Retry timeoutErr (deleteDetectorStep conn d.id) (budget - k - 1 + 1) k := by
    intro k hk hretry
    have h := Retry_skip timeoutErr (deleteDetectorStep conn d.id) k budget 0 (by omega) (by
      intro i hi
      have hi' := hretry i hi
      cases hd : conn.DeleteDetector d.id i with
      | none => simp [hd, isAWSErr, tfawserr.ErrMessageContains] at hi'
      | some e =>
        refine ⟨e, ?_⟩
        rw [Nat.zero_add, hstep_some i e hd]
        rw [hd] at hi'
        rw [hi'])
    rw [h, Nat.zero_add]
    congr 1
    omega
  refine ⟨hstep_none, hstep_some, ?_, ?_, ?_⟩
  · intro k hk hretry hnone
    unfold resourceAwsGuardDutyDetectorDelete
    dsimp only
    rw [hskip k hk hretry, resource.Retry, hstep_none k hnone]
    simp [isResourceTimeoutError]
  · intro k e hk hretry hsome hnot htime
    unfold resourceAwsGuardDutyDetectorDelete
    dsimp only
    rw [hskip k hk hretry, resource.Retry, hstep_some k e hsome, hnot]
    simp [htime]
  · intro htimeout
    unfold resourceAwsGuardDutyDetectorDelete
    dsimp only
    rw [htimeout]
    simp only [↓reduceIte]
    cases conn.DeleteDetector d.id
      (resource.Retry timeoutErr (deleteDetectorStep conn d.id) budget 0).1 <;> rfl

/-- Claim C13 on a detector whose members leave after two refusals, on one whose deletion is then
denied, and on a retry that times out after two attempts. -/
theorem guardduty_delete_retry_witness :
    resourceAwsGuardDutyDetectorDelete .timeout 5 sample.detectorData sample.membersLeave =
      { attempts := 2 + 1, d := sample.detectorData, err := none } ∧
    resourceAwsGuardDutyDetectorDelete .timeout 5 sample.detectorData sample.membersThenDenied =
      { attempts := 1 + 1, d := sample.detectorData,
        err := some (.wrapped ("error deleting GuardDuty Detector (" ++ sample.detectorData.id ++ ")")
          sample.denied) } ∧
    resourceAwsGuardDutyDetectorDelete .timeout 2 sample.detectorData sample.membersLeave =
      { attempts :=
          (resource.Retry .timeout (deleteDetectorStep sample.membersLeave sample.detectorData.id)
            2 0).1 + 1,
        d := sample.detectorData,
        err := (sample.membersLeave.DeleteDetector sample.detectorData.id
            (resource.Retry .timeout (deleteDetectorStep sample.membersLeave sample.detectorData.id)
              2 0).1).map
          (GoError.wrapped ("error deleting GuardDuty Detector (" ++ sample.detectorData.id ++ ")")) } :=
  ⟨(guardduty_delete_retry .timeout 5 sample.detectorData sample.membersLeave).2.2.1 2
      (by decide) (by decide) (by decide),
   (guardduty_delete_retry .timeout 5 sample.detectorData sample.membersThenDenied).2.2.2.1 1
      sample.denied (by decide) (by decide) (by decide) (by decide) (by decide),
   (guardduty_delete_retry .timeout 2 sample.detectorData sample.membersLeave).2.2.2.2
      (by decide)⟩

/-! ### Storage Gateway status functions -/

/-- Claim C14, refuted as stated: the file share function answers the code `VolumeNotFound` with
the status "Unknown" and an error, and the volume function answers an invalid-request error whose
message says that a gateway "was not found" in the same way. -/
theorem status_not_found_is_per_function :
    tfawserr.ErrCodeEquals (some sample.volumeNotFound) storagegateway.ErrorCodeVolumeNotFound
      = true ∧
    waiter.NfsFileShareStatus (sample.gatewayFailing sample.volumeNotFound) "arn:share" =
      (none, "Unknown",
        some (.wrapped "error reading Storage Gateway NFS File Share" sample.volumeNotFound)) ∧
    tfawserr.ErrMessageContains (some sample.gatewayNotFound)
      storagegateway.ErrCodeInvalidGatewayRequestException "was not found" = true ∧
    waiter.StoredIscsiVolumeStatus (sample.gatewayFailing sample.gatewayNotFound) "arn:volume" =
      (none, "Unknown", some sample.gatewayNotFound) := by
  decide

/-- Claim C14, amended: each of the two functions has its own not-found errors. For
`StoredIscsiVolumeStatus` they are the code `VolumeNotFound` and an
`InvalidGatewayRequestException` whose message contains "The specified volume was not found"; for
`NfsFileShareStatus` an `InvalidGatewayRequestException` whose message contains "The specified file
share was not found.". For such an error, and for a response without error whose output is nil or
whose list is empty (or, for NFS, starts with a nil element), the result is a nil object, the
status "NotFound" and a nil error; for every other error it is a nil object, the status "Unknown"
and an error; otherwise it is the status of the first list element and a nil error. -/
theorem status_functions (conn : storagegateway.StorageGateway) (arn : String) :
    ((tfawserr.ErrCodeEquals (conn.DescribeStorediSCSIVolumes arn).2
          storagegateway.ErrorCodeVolumeNotFound = true ∨
        tfawserr.ErrMessageContains (conn.DescribeStorediSCSIVolumes arn).2
          storagegateway.ErrCodeInvalidGatewayRequestException
          "The specified volume was not found" = true) →
      waiter.StoredIscsiVolumeStatus conn arn = (none, "NotFound", none)) ∧
    (∀ err, (conn.DescribeStorediSCSIVolumes arn).2 = some err →
      tfawserr.ErrCodeEquals (some err) storagegateway.ErrorCodeVolumeNotFound = false →
      tfawserr.ErrMessageContains (some err) storagegateway.ErrCodeInvalidGatewayRequestException
        "The specified volume was not found" = false →
      waiter.StoredIscsiVolumeStatus conn arn = (none, "Unknown", some err)) ∧
    ((conn.DescribeStorediSCSIVolumes arn).2 = none →
      ((conn.DescribeStorediSCSIVolumes arn).1 = none ∨
        (conn.DescribeStorediSCSIVolumes arn).1 = some { StorediSCSIVolumes := [] }) →
      waiter.StoredIscsiVolumeStatus conn arn = (none, "NotFound", none)) ∧
    (∀ volume rest, conn.DescribeStorediSCSIVolumes arn =
        (some { StorediSCSIVolumes := volume :: rest }, none) →
      waiter.StoredIscsiVolumeStatus conn arn =
        (some { StorediSCSIVolumes := volume :: rest }, aws.StringValue volume.VolumeStatus,
          none)) ∧
    (∀ err, (conn.DescribeNFSFileShares arn).2 = some err →
      tfawserr.ErrMessageContains (some err) storagegateway.ErrCodeInvalidGatewayRequestException
        "The specified file share was not found." = true →
      waiter.NfsFileShareStatus conn arn = (none, "NotFound", none)) ∧
    (∀ err, (conn.DescribeNFSFileShares arn).2 = some err →
      tfawserr.ErrMessageContains (some err) storagegateway.ErrCodeInvalidGatewayRequestException
        "The specified file share was not found." = false →
      waiter.NfsFileShareStatus conn arn =
        (none, "Unknown", some (.wrapped "error reading Storage Gateway NFS File Share" err))) ∧
    ((conn.DescribeNFSFileShares arn).2 = none →
      ((conn.DescribeNFSFileShares arn).1 = none ∨
        (conn.DescribeNFSFileShares arn).1 = some { NFSFileShareInfoList := [] } ∨
        ∃ rest, (conn.DescribeNFSFileShares arn).1 =
          some { NFSFileShareInfoList := none :: rest }) →
      waiter.NfsFileShareStatus conn arn = (none, "NotFound", none)) ∧
    (∀ fileshare rest, conn.DescribeNFSFileShares arn =
        (some { NFSFileShareInfoList := some fileshare :: rest }, none) →
      waiter.NfsFileShareStatus conn arn =
        (some fileshare, aws.StringValue fileshare.FileShareStatus, none)) := by
  refine ⟨?_, ?_, ?_, ?_, ?_, ?_, ?_, ?_⟩
  · intro h
    have hb : (tfawserr.ErrCodeEquals (conn.DescribeStorediSCSIVolumes arn).2
          storagegateway.ErrorCodeVolumeNotFound ||
        tfawserr.ErrMessageContains (conn.DescribeStorediSCSIVolumes arn).2
          storagegateway.ErrCodeInvalidGatewayRequestException
          "The specified volume was not found") = true := by
      simpa [Bool.or_eq_true] using h
    simp [waiter.StoredIscsiVolumeStatus, hb, waiter.StoredIscsiVolumeStatusNotFound]
  · intro err herr h1 h2
    simp [waiter.StoredIscsiVolumeStatus, herr, h1, h2, waiter.StoredIscsiVolumeStatusUnknown]
  · intro herr hout
    rcases hout with hout | hout <;>
      simp [waiter.StoredIscsiVolumeStatus, herr, hout, tfawserr.ErrCodeEquals,
        tfawserr.ErrMessageContains, waiter.StoredIscsiVolumeStatusNotFound]
  · intro volume rest h
    simp [waiter.StoredIscsiVolumeStatus, h, tfawserr.ErrCodeEquals, tfawserr.ErrMessageContains]
  · intro err herr h
    simp [waiter.NfsFileShareStatus, herr, h, waiter.NfsFileShareStatusNotFound]
  · intro err herr h
    simp [waiter.NfsFileShareStatus, herr, h, waiter.NfsFileShareStatusUnknown]
  · intro herr hout
    rcases hout with hout | hout | ⟨rest, hout⟩ <;>
      simp [waiter.NfsFileShareStatus, herr, hout, waiter.NfsFileShareStatusNotFound]
  · intro fileshare rest h
    simp [waiter.NfsFileShareStatus, h]

/-- Claim C14, amended, on a missing volume, a missing file share, and a volume and a file share
that are available. -/
theorem status_functions_witness :
    waiter.StoredIscsiVolumeStatus (sample.gatewayFailing sample.volumeNotFound) "arn:volume" =
      (none, "NotFound", none) ∧
    waiter.NfsFileShareStatus (sample.gatewayFailing sample.fileShareNotFound) "arn:share" =
      (none, "NotFound", none) ∧
    waiter.StoredIscsiVolumeStatus sample.gatewayHealthy "arn:volume" =
      (some { StorediSCSIVolumes :=
          { VolumeARN := some "arn:volume", VolumeStatus := some "AVAILABLE" } :: [] },
        aws.StringValue (some "AVAILABLE"), none) ∧
    waiter.NfsFileShareStatus sample.gatewayEmpty "arn:share" = (none, "NotFound", none) :=
  ⟨(status_functions (sample.gatewayFailing sample.volumeNotFound) "arn:volume").1
      (Or.inl (by decide)),
   (status_functions (sample.gatewayFailing sample.fileShareNotFound) "arn:share").2.2.2.2.1
      sample.fileShareNotFound rfl (by decide),
   (status_functions sample.gatewayHealthy "arn:volume").2.2.2.1
      { VolumeARN := some "arn:volume", VolumeStatus := some "AVAILABLE" } [] rfl,
   (status_functions sample.gatewayEmpty "arn:share").2.2.2.2.2.2.1 rfl
      (Or.inr (Or.inr ⟨[], rfl⟩))⟩

/-- Claim C15: `FileSystemAssociationStatus` answers a finder error with a nil object, the empty
status and that error; no error and a nil association with a nil object, the status "NotFound"
and a nil error; no error and an association with that association, its status (the empty string
when unset) and a nil error. These three cases are all there is, and an error never comes with the
status "NotFound". -/
theorem file_system_association_status (conn : storagegateway.StorageGateway)
    (fileSystemArn : String) :
    (∀ err, (conn.FileSystemAssociationByARN fileSystemArn).2 = some err →
      waiter.FileSystemAssociationStatus conn fileSystemArn = (none, "", some err)) ∧
    (conn.FileSystemAssociationByARN fileSystemArn = (none, none) →
      waiter.FileSystemAssociationStatus conn fileSystemArn = (none, "NotFound", none)) ∧
    (∀ output, conn.FileSystemAssociationByARN fileSystemArn = (some output, none) →
      waiter.FileSystemAssociationStatus conn fileSystemArn =
        (some output, aws.StringValue output.FileSystemAssociationStatus, none) ∧
      (output.FileSystemAssociationStatus = none →
        (waiter.FileSystemAssociationStatus conn fileSystemArn).2.1 = "")) ∧
    ((∃ err, (conn.FileSystemAssociationByARN fileSystemArn).2 = some err) ∨
      conn.FileSystemAssociationByARN fileSystemArn = (none, none) ∨
      ∃ output, conn.FileSystemAssociationByARN fileSystemArn = (some output, none)) ∧
    (∀ err, (waiter.FileSystemAssociationStatus conn fileSystemArn).2.2 = some err →
      (waiter.FileSystemAssociationStatus conn fileSystemArn).2.1 ≠ "NotFound") := by
  unfold waiter.FileSystemAssociationStatus
  rcases h : conn.FileSystemAssociationByARN fileSystemArn with ⟨output, err⟩
  cases err with
  | some e => simp
  | none =>
    cases output with
    | none => simp [waiter.FileSystemAssociationStatusNotFound]
    | some o =>
      refine ⟨by simp, by simp, ?_, by simp, by simp⟩
      intro out hout
      simp only [Prod.mk.injEq, Option.some.injEq, and_true] at hout
      subst hout
      refine ⟨rfl, ?_⟩
      intro hs
      simp [aws.StringValue, hs]

/-- Claim C15 on a finder that fails, one that finds nothing and one that finds an association
whose status is unset. -/
theorem file_system_association_status_witness :
    waiter.FileSystemAssociationStatus (sample.gatewayFailing sample.denied) "arn:fsa" =
      (none, "", some sample.denied) ∧
    waiter.FileSystemAssociationStatus sample.gatewayEmpty "arn:fsa" = (none, "NotFound", none) ∧
    waiter.FileSystemAssociationStatus sample.gatewayHealthy "arn:fsa" =
      (some { FileSystemAssociationARN := some "arn:fsa", FileSystemAssociationStatus := none },
        aws.StringValue none, none) :=
  ⟨(file_system_association_status (sample.gatewayFailing sample.denied) "arn:fsa").1
      sample.denied rfl,
   (file_system_association_status sample.gatewayEmpty "arn:fsa").2.1 rfl,
   ((file_system_association_status sample.gatewayHealthy "arn:fsa").2.2.1
      { FileSystemAssociationARN := some "arn:fsa", FileSystemAssociationStatus := none } rfl).1⟩

/-! ### Tags of the ElastiCache user group and the partition -/

/-- The calls that the Read handler of the user group adds: the lookup, and after it a list-tags
call only in the commercial partition. -/
theorem userGroupRead_calls (calls : List elasticache.Call)
    (d : ResourceData elasticache.UserGroupAttrs) (meta : ElastiCacheClient) :
    (resourceAwsElasticacheUserGroupRead calls d meta).calls = calls ++ [.UserGroupById d.id] ∨
    (meta.partition = elasticache.AwsPartitionID ∧
      ∃ arn, (resourceAwsElasticacheUserGroupRead calls d meta).calls =
        calls ++ [.UserGroupById d.id, .ListTags arn]) := by
  unfold resourceAwsElasticacheUserGroupRead
  dsimp only
  split
  · simp
  · split
    · simp
    · split
      · simp
      · split
        · rename_i hp
          right
          refine ⟨by simpa using hp, ?_⟩
          split <;> exact ⟨_, List.append_assoc _ _ _⟩
        · simp

/-- Claim C16, refuted as stated: in the China partition a lookup that fails for lack of permission
makes Read return the error without setting `tags` or `tags_all`. -/
theorem user_group_read_error_sets_no_tags :
    sample.chinaDenied.partition ≠ "aws" ∧
    (resourceAwsElasticacheUserGroupRead [] sample.groupData sample.chinaDenied).d.sets =
      sample.groupData.sets ∧
    (resourceAwsElasticacheUserGroupRead [] sample.groupData sample.chinaDenied).ret =
      .returned (some (.wrapped ("error describing ElastiCache User Group (" ++
        sample.groupData.id ++ ")") sample.denied)) := by
  decide

/-- Claim C16, amended: for a client whose partition is not "aws", Create sends no `Tags` in
`CreateUserGroupInput`, Read makes no list-tags call and, when its lookup returns a user group,
sets both `tags` and `tags_all` to nil, and Update makes no update-tags call, whether `tags_all`
changed or not; in the partition "aws" Create sends `Tags` if and only if the merged tag set is
non-empty. Create always calls `CreateUserGroup`, first, with the input it built. -/
theorem user_group_tags_by_partition (d : ResourceData elasticache.UserGroupAttrs)
    (meta : ElastiCacheClient) :
    (resourceAwsElasticacheUserGroupCreate d meta).calls.head? =
      some (.CreateUserGroup (userGroupCreateInput d meta)) ∧
    (meta.partition ≠ "aws" →
      (userGroupCreateInput d meta).Tags = none ∧
      (∀ calls arn, elasticache.Call.ListTags arn ∈
          (resourceAwsElasticacheUserGroupRead calls d meta).calls →
        elasticache.Call.ListTags arn ∈ calls) ∧
      (∀ calls resp, meta.elasticacheconn.UserGroupById d.id = (some resp, none) →
        resourceAwsElasticacheUserGroupRead calls d meta =
          { calls := calls ++ [.UserGroupById d.id],
            d := (((((d.Set "arn" (.str resp.ARN)).Set "engine" (.str resp.Engine)).Set "user_ids"
              (.strs resp.UserIds)).Set "user_group_id" (.str resp.UserGroupId)).Set "tags"
              .null).Set "tags_all" .null,
            ret := .returned none }) ∧
      (∀ arn oldTags newTags, elasticache.Call.UpdateTags arn oldTags newTags ∉
        (resourceAwsElasticacheUserGroupUpdate d meta).calls)) ∧
    (meta.partition = "aws" →
      ((userGroupCreateInput d meta).Tags ≠ none ↔ meta.MergeTags d.new.tags ≠ [])) := by
  refine ⟨?_, ?_, ?_⟩
  · unfold resourceAwsElasticacheUserGroupCreate
    dsimp only
    split
    · rfl
    · split
      · rfl
      · split
        · rfl
        · rcases userGroupRead_calls
            [.CreateUserGroup (userGroupCreateInput d meta), .WaitForState d.new.user_group_id]
            (d.SetId (aws.StringValue (by assumption : elasticache.UserGroup).UserGroupId)) meta
            with h | ⟨-, arn, h⟩
          · simp only [ResourceData.SetId] at h ⊢
            rw [h]
            rfl
          · simp only [ResourceData.SetId] at h ⊢
            rw [h]
            rfl
  · intro hp
    have hb : (meta.partition == elasticache.AwsPartitionID) = false := by
      simpa [elasticache.AwsPartitionID] using hp
    refine ⟨?_, ?_, ?_, ?_⟩
    · unfold userGroupCreateInput
      simp only [hb, Bool.and_false, Bool.false_eq_true, ↓reduceIte]
      split <;> rfl
    · intro calls arn hmem
      rcases userGroupRead_calls calls d meta with h | ⟨hp', -⟩
      · rw [h] at hmem
        simpa using hmem
      · exact absurd hp' hp
    · intro calls resp hfound
      simp [resourceAwsElasticacheUserGroupRead, hfound, hb, tfresource.NotFound,
        tfawserr.ErrCodeEquals]
    · intro arn o n hmem
      unfold resourceAwsElasticacheUserGroupUpdate at hmem
      simp only [hb, Bool.and_false, Bool.false_eq_true, ↓reduceIte, List.append_nil] at hmem
      split at hmem
      · revert hmem
        split
        · split
          · split
            · simp
            · split <;> simp
          · simp
        · simp
      · rcases userGroupRead_calls (if d.HasChangeExcept "tags_all" = true then
            if (userGroupModifyRequest d).2 = true then
              match meta.elasticacheconn.ModifyUserGroup (userGroupModifyRequest d).1 with
              | some err =>
                ([elasticache.Call.ModifyUserGroup (userGroupModifyRequest d).1],
                  some (GoError.wrapped ("error updating ElastiCache User Group (" ++ d.id.quote ++
                    ")") err))
              | none =>
                match meta.elasticacheconn.WaitForState d.new.user_group_id with
                | some err =>
                  ([elasticache.Call.ModifyUserGroup (userGroupModifyRequest d).1,
                      elasticache.Call.WaitForState d.new.user_group_id],
                    some (GoError.wrapped ("error updating ElastiCache User Group (" ++
                      d.id.quote ++ ")") err))
                | none =>
                  ([elasticache.Call.ModifyUserGroup (userGroupModifyRequest d).1,
                      elasticache.Call.WaitForState d.new.user_group_id], none)
            else ([], none)
          else ([], none)).1 d meta with h | ⟨hp', -⟩
        · rw [h] at hmem
          revert hmem
          split
          · split
            · split
              · simp
              · split <;> simp
            · simp
          · simp
        · exact absurd hp' hp
  · intro hp
    have hb : (meta.partition == elasticache.AwsPartitionID) = true := by
      simp [elasticache.AwsPartitionID, hp]
    unfold userGroupCreateInput
    simp only [hb, Bool.and_true, decide_eq_true_eq, gt_iff_lt, List.length_pos]
    by_cases ht : meta.MergeTags d.new.tags = []
    · simp only [ht, ne_eq, not_true_eq_false, ↓reduceIte, iff_false, not_not]
      split <;> rfl
    · simp only [ht, ne_eq, not_false_eq_true, ↓reduceIte, iff_true]
      simp

/-- Claim C16, amended, on a client of the China partition: Create sends no tags, Read sets the two
tag attributes to nil and Update calls no tag helper, with a plan that adds a tag. -/
theorem user_group_tags_by_partition_witness :
    (userGroupCreateInput sample.tagData sample.chinaHealthy).Tags = none ∧
    resourceAwsElasticacheUserGroupRead [] sample.tagData sample.chinaHealthy =
      { calls := [] ++ [.UserGroupById sample.tagData.id],
        d := (((((sample.tagData.Set "arn" (.str sample.chinaGroup.ARN)).Set "engine"
            (.str sample.chinaGroup.Engine)).Set "user_ids" (.strs sample.chinaGroup.UserIds)).Set
            "user_group_id" (.str sample.chinaGroup.UserGroupId)).Set "tags" .null).Set
            "tags_all" .null,
        ret := .returned none } ∧
    (∀ arn oldTags newTags, elasticache.Call.UpdateTags arn oldTags newTags ∉
      (resourceAwsElasticacheUserGroupUpdate sample.tagData sample.chinaHealthy).calls) ∧
    ((userGroupCreateInput sample.tagData sample.groupGone).Tags ≠ none ↔
      sample.groupGone.MergeTags sample.tagData.new.tags ≠ []) :=
  ⟨((user_group_tags_by_partition sample.tagData sample.chinaHealthy).2.1 (by decide)).1,
   ((user_group_tags_by_partition sample.tagData sample.chinaHealthy).2.1 (by decide)).2.2.1 []
      sample.chinaGroup rfl,
   ((user_group_tags_by_partition sample.tagData sample.chinaHealthy).2.1 (by decide)).2.2.2,
   (user_group_tags_by_partition sample.tagData sample.groupGone).2.2 (by decide)⟩

/-! ### Security Hub organization configuration -/

/-- Claim C17: Create and Update of the organization configuration are the same function. It sends
`UpdateOrganizationConfiguration` with `AutoEnable` set to the configured value. When the service
refuses, it returns an error and leaves the resource data, the ID included, as it was. When the
service accepts, it sets the ID to the account ID of the client and then calls
`DescribeOrganizationConfiguration`; against a service that describes the last value written, the
value it stores in `auto_enable` is the configured one, and it returns nil. -/
theorem organization_configuration_update (written : List (Option Bool))
    (d : ResourceData securityhub.OrganizationAttrs) (meta : SecurityHubClient) :
    resourceAwsSecurityHubOrganizationConfiguration.Create =
      resourceAwsSecurityHubOrganizationConfiguration.Update ∧
    (resourceAwsSecurityHubOrganizationConfiguration.Update written d meta).calls.head? =
      some (.UpdateOrganizationConfiguration (some d.new.auto_enable)) ∧
    (∀ err, meta.securityhubconn.UpdateOrganizationConfiguration (some d.new.auto_enable) =
        some err →
      resourceAwsSecurityHubOrganizationConfiguration.Update written d meta =
        { calls := [.UpdateOrganizationConfiguration (some d.new.auto_enable)], d := d,
          ret := .returned (some (.wrapped
            ("error updating Security Hub Organization Configuration (" ++ d.id ++ ")") err)) }) ∧
    (meta.securityhubconn.UpdateOrganizationConfiguration (some d.new.auto_enable) = none →
      (resourceAwsSecurityHubOrganizationConfiguration.Update written d meta).d.id =
        meta.accountid ∧
      (resourceAwsSecurityHubOrganizationConfiguration.Update written d meta).calls =
        [.UpdateOrganizationConfiguration (some d.new.auto_enable),
          .DescribeOrganizationConfiguration] ∧
      ((∀ (history : List (Option Bool)) (b : Option Bool),
          ∃ limit, meta.securityhubconn.DescribeOrganizationConfiguration (history ++ [b]) =
            (some { AutoEnable := b, MemberAccountLimitReached := limit }, none)) →
        resourceAwsSecurityHubOrganizationConfiguration.Update written d meta =
          { calls := [.UpdateOrganizationConfiguration (some d.new.auto_enable),
              .DescribeOrganizationConfiguration],
            d := (d.SetId meta.accountid).Set "auto_enable" (.bool (some d.new.auto_enable)),
            ret := .returned none })) := by
  refine ⟨rfl, ?_, ?_, ?_⟩
  · simp only [resourceAwsSecurityHubOrganizationConfiguration,
      resourceAwsSecurityHubOrganizationConfigurationUpdate,
      resourceAwsSecurityHubOrganizationConfigurationRead]
    split
    · rfl
    · split
      · rfl
      · split <;> rfl
  · intro err herr
    simp [resourceAwsSecurityHubOrganizationConfiguration,
      resourceAwsSecurityHubOrganizationConfigurationUpdate, herr]
  · intro hok
    simp only [resourceAwsSecurityHubOrganizationConfiguration,
      resourceAwsSecurityHubOrganizationConfigurationUpdate,
      resourceAwsSecurityHubOrganizationConfigurationRead, hok]
    refine ⟨?_, ?_, ?_⟩
    · split
      · rfl
      · split <;> rfl
    · split
      · rfl
      · split <;> rfl
    · intro hecho
      obtain ⟨limit, hd⟩ := hecho written (some d.new.auto_enable)
      simp [hd]

/-- Claim C17 on a service that describes the last value written and on one that refuses the
update. -/
theorem organization_configuration_update_witness :
    resourceAwsSecurityHubOrganizationConfiguration.Update [] sample.organizationData
        sample.organizationEcho =
      { calls := [.UpdateOrganizationConfiguration (some true),
          .DescribeOrganizationConfiguration],
        d := (sample.organizationData.SetId "123456789012").Set "auto_enable"
          (.bool (some true)),
        ret := .returned none } ∧
    resourceAwsSecurityHubOrganizationConfiguration.Update [] sample.organizationData
        sample.organizationDenied =
      { calls := [.UpdateOrganizationConfiguration (some true)], d := sample.organizationData,
        ret := .returned (some (.wrapped
          ("error updating Security Hub Organization Configuration (" ++
            sample.organizationData.id ++ ")") sample.denied)) } :=
  ⟨(organization_configuration_update [] sample.organizationData
      sample.organizationEcho).2.2.2 rfl |>.2.2 (fun history b => ⟨some false, by
        simp [sample.organizationEcho]⟩),
   (organization_configuration_update [] sample.organizationData
      sample.organizationDenied).2.2.1 sample.denied rfl⟩

/-! ### Case-insensitive engine -/

/-- Two ASCII runes are equal under the step of `strings.EqualFold` exactly when they fold to the
same rune. -/
theorem runeEqualFold_ascii (sameOrbit : Nat → Nat → Bool) (a b : Nat) (ha : a < 128)
    (hb : b < 128) : runeEqualFold sameOrbit a b = true ↔ asciiFold a = asciiFold b := by
  unfold runeEqualFold asciiFold
  by_cases hab : a = b
  · simp [hab]
  · simp only [hab, ↓reduceIte]
    by_cases hlt : b < a
    · simp only [hlt, ↓reduceIte, ha, decide_eq_true_eq]
      split <;> split <;> omega
    · simp only [hlt, ↓reduceIte, hb, decide_eq_true_eq]
      split <;> split <;> omega

/-- The step of `strings.EqualFold` does not depend on the order of the two runes. -/
theorem runeEqualFold_comm (sameOrbit : Nat → Nat → Bool) (a b : Nat) :
    runeEqualFold sameOrbit a b = runeEqualFold sameOrbit b a := by
  unfold runeEqualFold
  by_cases hab : a = b
  · simp [hab]
  · have hba : ¬ b = a := fun h => hab h.symm
    simp only [hab, hba, ↓reduceIte]
    by_cases hlt : b < a
    · have hnot : ¬ a < b := by omega
      simp [hlt, hnot]
    · have hlt' : a < b := by omega
      simp [hlt, hlt']

/-- The loop of `strings.EqualFold` on ASCII runes decides equality after folding. -/
theorem equalFoldRunes_ascii (sameOrbit : Nat → Nat → Bool) (s t : List Nat)
    (hs : ∀ r ∈ s, r < 128) (ht : ∀ r ∈ t, r < 128) :
    equalFoldRunes sameOrbit s t = true ↔ s.map asciiFold = t.map asciiFold := by
  induction s generalizing t with
  | nil =>
    cases t with
    | nil => simp [equalFoldRunes]
    | cons b t => simp [equalFoldRunes]
  | cons a s ih =>
    cases t with
    | nil => simp [equalFoldRunes]
    | cons b t =>
      have ha : a < 128 := hs a (List.mem_cons_self _ _)
      have hb : b < 128 := ht b (List.mem_cons_self _ _)
      have := ih t (fun r hr => hs r (List.mem_cons_of_mem _ hr))
        (fun r hr => ht r (List.mem_cons_of_mem _ hr))
      simp only [equalFoldRunes, Bool.and_eq_true, runeEqualFold_ascii sameOrbit a b ha hb, this,
        List.map_cons, List.cons.injEq]

/-- Claim C18: the `DiffSuppressFunc` of `engine` returns true for two ASCII strings exactly when
they are equal under case folding, so for "REDIS" against "redis"; the relation is reflexive and
symmetric, and the result depends on neither the key nor the resource data. -/
theorem engine_diff_suppress {A : Type} (sameOrbit : Nat → Nat → Bool) :
    (∀ (k old new : String) (d : ResourceData A),
      (∀ r ∈ runes old, r < 128) → (∀ r ∈ runes new, r < 128) →
      (userGroupEngineDiffSuppress sameOrbit k old new d = true ↔
        equalUnderAsciiFolding old new)) ∧
    (∀ (k : String) (d : ResourceData A),
      userGroupEngineDiffSuppress sameOrbit k "REDIS" "redis" d = true ∧
      userGroupEngineDiffSuppress sameOrbit k "redis" "REDIS" d = true) ∧
    (∀ (k s : String) (d : ResourceData A), userGroupEngineDiffSuppress sameOrbit k s s d = true) ∧
    (∀ (k old new : String) (d : ResourceData A),
      userGroupEngineDiffSuppress sameOrbit k old new d =
        userGroupEngineDiffSuppress sameOrbit k new old d) ∧
    (∀ (k k' old new : String) (d d' : ResourceData A),
      userGroupEngineDiffSuppress sameOrbit k old new d =
        userGroupEngineDiffSuppress sameOrbit k' old new d') := by
  have hrefl : ∀ l : List Nat, equalFoldRunes sameOrbit l l = true := by
    intro l
    induction l with
    | nil => rfl
    | cons a l ih => simp [equalFoldRunes, runeEqualFold, ih]
  have hsymm : ∀ s t : List Nat, equalFoldRunes sameOrbit s t = equalFoldRunes sameOrbit t s := by
    intro s
    induction s with
    | nil =>
      intro t
      cases t <;> rfl
    | cons a s ih =>
      intro t
      cases t with
      | nil => rfl
      | cons b t => simp only [equalFoldRunes, runeEqualFold_comm sameOrbit a b, ih t]
  refine ⟨?_, ?_, ?_, ?_, ?_⟩
  · intro k old new d hold hnew
    exact equalFoldRunes_ascii sameOrbit _ _ hold hnew
  · intro k d
    exact ⟨rfl, rfl⟩
  · intro k s d
    exact hrefl _
  · intro k old new d
    exact hsymm _ _
  · intro k k' old new d d'
    rfl

/-- Claim C18 on the configured "REDIS" and the stored "redis". -/
theorem engine_diff_suppress_witness :
    userGroupEngineDiffSuppress (fun _ _ => false) "engine" "redis" "REDIS" sample.groupData = true ↔
      equalUnderAsciiFolding "redis" "REDIS" :=
  (engine_diff_suppress (fun _ _ => false)).1 "engine" "redis" "REDIS" sample.groupData
    (by decide) (by decide)

/-! ### Delete handlers -/

/-- Claim C19: `resourceAwsAppconfigDeploymentDelete`, for every resource data and client, makes
no call, returns the resource data as it was, and returns a nil error. -/
theorem deployment_delete_is_noop {A M : Type} (d : ResourceData A) (meta : M) :
    (resourceAwsAppconfigDeploymentDelete d meta).1 = [] ∧
    (resourceAwsAppconfigDeploymentDelete d meta).2.1 = d ∧
    (resourceAwsAppconfigDeploymentDelete d meta).2.2 = none :=
  ⟨rfl, rfl, rfl⟩

/-- Claim C20: the Delete handler of the environment returns nil when `DeleteEnvironment`, called
on the two parts of the ID, fails with `ResourceNotFoundException`, and the wrapped error for every
other failure; the Delete handler of the Direct Connect gateway returns nil, without calling the
waiter, when `DeleteDirectConnectGateway` fails with a client exception whose message contains
"does not exist", and the wrapped error, again without calling the waiter, for every other
failure. -/
theorem delete_of_deleted_resource :
    (∀ (d : ResourceData appconfig.EnvironmentAttrs) (meta : AppConfigClient)
        (envID appID : String),
      resourceAwsAppconfigEnvironmentParseID d.id = (envID, appID, none) →
      (tfawserr.ErrCodeEquals (meta.appconfigconn.DeleteEnvironment appID envID)
          appconfig.ErrCodeResourceNotFoundException = true →
        resourceAwsAppconfigEnvironmentDelete d meta =
          { calls := [.DeleteEnvironment appID envID], d := d, err := none }) ∧
      (∀ err, meta.appconfigconn.DeleteEnvironment appID envID = some err →
        tfawserr.ErrCodeEquals (some err) appconfig.ErrCodeResourceNotFoundException = false →
        resourceAwsAppconfigEnvironmentDelete d meta =
          { calls := [.DeleteEnvironment appID envID], d := d,
            err := some (.wrapped ("error deleting Appconfig Environment (" ++ envID ++
              ") for Application (" ++ appID ++ ")") err) })) ∧
    (∀ (d : ResourceData Unit) (conn : directconnect.DirectConnect),
      (tfawserr.ErrMessageContains (conn.DeleteDirectConnectGateway d.id)
          directconnect.ErrCodeClientException "does not exist" = true →
        (resourceAwsDxGatewayDelete d conn).calls = [.DeleteDirectConnectGateway d.id] ∧
        (resourceAwsDxGatewayDelete d conn).d = d ∧
        (resourceAwsDxGatewayDelete d conn).err = none) ∧
      (∀ err, conn.DeleteDirectConnectGateway d.id = some err →
        tfawserr.ErrMessageContains (some err) directconnect.ErrCodeClientException
          "does not exist" = false →
        (resourceAwsDxGatewayDelete d conn).calls = [.DeleteDirectConnectGateway d.id] ∧
        (resourceAwsDxGatewayDelete d conn).d = d ∧
        (resourceAwsDxGatewayDelete d conn).err =
          some (.wrapped ("error deleting Direct Connect Gateway (" ++ d.id ++ ")") err))) := by
  constructor
  · intro d meta envID appID hparse
    constructor
    · intro hnf
      simp [resourceAwsAppconfigEnvironmentDelete, hparse, hnf]
    · intro err herr hnot
      simp [resourceAwsAppconfigEnvironmentDelete, hparse, herr, hnot]
  · intro d conn
    constructor
    · intro hgone
      simp [resourceAwsDxGatewayDelete, hgone]
    · intro err herr hnot
      simp [resourceAwsDxGatewayDelete, herr, hnot]

/-- Claim C20 on an environment and a gateway that are gone, and on deletions that are refused. -/
theorem delete_of_deleted_resource_witness :
    resourceAwsAppconfigEnvironmentDelete sample.stagingData sample.environmentGone =
      { calls := [.DeleteEnvironment "abc1234" "env5678"], d := sample.stagingData,
        err := none } ∧
    resourceAwsAppconfigEnvironmentDelete sample.stagingData sample.updateRefused =
      { calls := [.DeleteEnvironment "abc1234" "env5678"], d := sample.stagingData,
        err := some (.wrapped ("error deleting Appconfig Environment (" ++ "env5678" ++
          ") for Application (" ++ "abc1234" ++ ")")
          (.awsErr "ConflictException" "environment has an active deployment")) } ∧
    ((resourceAwsDxGatewayDelete sample.gatewayData sample.gatewayGone).calls =
        [.DeleteDirectConnectGateway sample.gatewayData.id] ∧
      (resourceAwsDxGatewayDelete sample.gatewayData sample.gatewayGone).d = sample.gatewayData ∧
      (resourceAwsDxGatewayDelete sample.gatewayData sample.gatewayGone).err = none) ∧
    ((resourceAwsDxGatewayDelete sample.gatewayData sample.gatewayDenied).calls =
        [.DeleteDirectConnectGateway sample.gatewayData.id] ∧
      (resourceAwsDxGatewayDelete sample.gatewayData sample.gatewayDenied).d = sample.gatewayData ∧
      (resourceAwsDxGatewayDelete sample.gatewayData sample.gatewayDenied).err =
        some (.wrapped ("error deleting Direct Connect Gateway (" ++ sample.gatewayData.id ++ ")")
          sample.denied)) :=
  ⟨(delete_of_deleted_resource.1 sample.stagingData sample.environmentGone "env5678" "abc1234"
      (by decide)).1 (by decide),
   (delete_of_deleted_resource.1 sample.stagingData sample.updateRefused "env5678" "abc1234"
      (by decide)).2 _ rfl (by decide),
   (delete_of_deleted_resource.2 sample.gatewayData sample.gatewayGone).1 (by decide),
   (delete_of_deleted_resource.2 sample.gatewayData sample.gatewayDenied).2 sample.denied rfl
      (by decide)⟩

/-! ### Flattening and expanding monitors -/

/-- Expanding the map of a monitor gives the monitor back, when its alarm is set and not empty and
its role is unset or not empty. -/
theorem expand_flatten_monitor (m : appconfig.Monitor)
    (halarm : ∃ a, m.AlarmArn = some a ∧ a ≠ "") (hrole : m.AlarmRoleArn ≠ some "") :
    expandAppconfigEnvironmentMonitor (flattenAwsAppconfigEnvironmentMonitor (some m)) =
      some m := by
  obtain ⟨a, ha, hane⟩ := halarm
  obtain ⟨alarm, role⟩ := m
  simp only at ha hrole
  subst ha
  cases role with
  | none =>
    simp [expandAppconfigEnvironmentMonitor, flattenAwsAppconfigEnvironmentMonitor,
      TfMap.stringAt, List.lookup, hane]
  | some r =>
    have hr : r ≠ "" := fun h => hrole (by rw [h])
    simp [expandAppconfigEnvironmentMonitor, flattenAwsAppconfigEnvironmentMonitor,
      TfMap.stringAt, List.lookup, hane, hr]

/-- The loop of `flattenAwsAppconfigEnvironmentMonitors` appends the maps of the monitors that are
not nil, in order. -/
theorem flattenMonitors_foldl (l : List (Option appconfig.Monitor)) (acc : GoSlice TfValue) :
    (l.foldl flattenMonitorsStep acc).elems =
      acc.elems ++ (l.filterMap id).map
        (fun m => TfValue.map (flattenAwsAppconfigEnvironmentMonitor (some m))) := by
  induction l generalizing acc with
  | nil => simp
  | cons m rest ih =>
    rw [List.foldl_cons, ih]
    cases m with
    | none => simp [flattenMonitorsStep]
    | some m => simp [flattenMonitorsStep, GoSlice.append, GoSlice.elems]

/-- The elements of the result of `flattenAwsAppconfigEnvironmentMonitors`: the maps of the
monitors that are not nil, in order. -/
theorem flattenMonitors_elems (monitors : GoSlice (Option appconfig.Monitor)) :
    (flattenAwsAppconfigEnvironmentMonitors monitors).elems =
      (monitors.elems.filterMap id).map
        (fun m => TfValue.map (flattenAwsAppconfigEnvironmentMonitor (some m))) := by
  unfold flattenAwsAppconfigEnvironmentMonitors
  split
  · rename_i h
    have hnil : monitors.elems = [] := by
      simpa [GoSlice.len] using h
    rw [hnil]
    rfl
  · rw [flattenMonitors_foldl]
    simp [GoSlice.elems]

/-- Claim C24: for monitors whose alarm is set and not empty and whose role is unset or not empty,
expanding the flattened list gives the monitors that are not nil, in their order and with their
`AlarmArn` and `AlarmRoleArn`; so a list of non-nil monitors comes back element by element.
Flatten returns nil for the nil and for the empty list, and its result holds the maps of the
monitors that are not nil. -/
theorem monitors_round_trip :
    (∀ monitors : GoSlice (Option appconfig.Monitor),
      (∀ m, some m ∈ monitors.elems → (∃ a, m.AlarmArn = some a ∧ a ≠ "") ∧
        m.AlarmRoleArn ≠ some "") →
      expandAppconfigEnvironmentMonitors (flattenAwsAppconfigEnvironmentMonitors monitors) =
        some ((monitors.elems.filterMap id).map some)) ∧
    (∀ ms : List appconfig.Monitor,
      (∀ m ∈ ms, (∃ a, m.AlarmArn = some a ∧ a ≠ "") ∧ m.AlarmRoleArn ≠ some "") →
      expandAppconfigEnvironmentMonitors
          (flattenAwsAppconfigEnvironmentMonitors (some (ms.map some))) = some (ms.map some)) ∧
    flattenAwsAppconfigEnvironmentMonitors none = none ∧
    flattenAwsAppconfigEnvironmentMonitors (some []) = none ∧
    (∀ monitors : GoSlice (Option appconfig.Monitor),
      (flattenAwsAppconfigEnvironmentMonitors monitors).elems =
        (monitors.elems.filterMap id).map
          (fun m => TfValue.map (flattenAwsAppconfigEnvironmentMonitor (some m)))) := by
  have hgen : ∀ monitors : GoSlice (Option appconfig.Monitor),
      (∀ m, some m ∈ monitors.elems → (∃ a, m.AlarmArn = some a ∧ a ≠ "") ∧
        m.AlarmRoleArn ≠ some "") →
      expandAppconfigEnvironmentMonitors (flattenAwsAppconfigEnvironmentMonitors monitors) =
        some ((monitors.elems.filterMap id).map some) := by
    intro monitors hok
    rw [expandMonitors_eq, flattenMonitors_elems]
    congr 1
    generalize monitors.elems = l at hok
    induction l with
    | nil => rfl
    | cons m rest ih =>
      have hrest := ih (fun x hx => hok x (List.mem_cons_of_mem _ hx))
      cases m with
      | none => simpa using hrest
      | some m =>
        obtain ⟨halarm, hrole⟩ := hok m (List.mem_cons_self _ _)
        have hone := expand_flatten_monitor m halarm hrole
        have hflat : ∃ tfMap, flattenAwsAppconfigEnvironmentMonitor (some m) = some tfMap := by
          simp [flattenAwsAppconfigEnvironmentMonitor]
        obtain ⟨tfMap, htf⟩ := hflat
        simp only [List.filterMap_cons, id_eq, List.map_cons]
        rw [htf] at hone
        simp only [htf, TfValue.expanded, hone]
        exact congrArg _ hrest
  refine ⟨hgen, ?_, rfl, rfl, flattenMonitors_elems⟩
  intro ms hok
  have h := hgen (some (ms.map some)) (by
    intro m hm
    simp only [GoSlice.elems, List.mem_map, Option.some.injEq] at hm
    obtain ⟨x, hx, rfl⟩ := hm
    exact hok x hx)
  rw [h]
  simp [GoSlice.elems, List.filterMap_map]

/-- Claim C24 on two monitors, one with a role and one without. -/
theorem monitors_round_trip_witness :
    expandAppconfigEnvironmentMonitors
        (flattenAwsAppconfigEnvironmentMonitors
          (some ([sample.monitorWithRole, sample.monitorWithoutRole].map some))) =
      some ([sample.monitorWithRole, sample.monitorWithoutRole].map some) :=
  monitors_round_trip.2.1 [sample.monitorWithRole, sample.monitorWithoutRole] (by
    intro m hm
    simp only [List.mem_cons, List.mem_singleton, List.not_mem_nil, or_false] at hm
    rcases hm with rfl | rfl
    · exact ⟨⟨_, rfl, by decide⟩, by decide⟩
    · exact ⟨⟨_, rfl, by decide⟩, by decide⟩)

/-! ### Round trip of the deployment ID -/

/-- The function `strconv.Atoi` reads the sign and then the digits. -/
theorem Atoi_eq_atoiDigits (intSize : Nat) (s : String) :
    strconv.Atoi intSize s = atoiDigits intSize s (atoiSign s.data) := by
  unfold strconv.Atoi atoiDigits atoiSign
  rfl

/-- The digit loop of `strconv.Atoi` succeeds on decimal digits only. -/
theorem parseDigits_all_digits (l : List Char) (acc n : Nat) (h : parseDigits l acc = some n) :
    l.all (fun c => (digitValue c).isSome) = true := by
  induction l generalizing acc with
  | nil => rfl
  | cons c cs ih =>
    unfold parseDigits at h
    cases hc : digitValue c with
    | none => simp [hc] at h
    | some v =>
      rw [hc] at h
      simp only [List.all_cons, hc, Option.isSome_some, Bool.true_and]
      exact ih _ h

/-- After the sign, `strconv.Atoi` accepts digits only, and at least one. -/
theorem atoiDigits_accepts (intSize : Nat) (s : String) (neg : Bool) (ds : List Char)
    (h : (atoiDigits intSize s (neg, ds)).2 = none) :
    (!ds.isEmpty && ds.all (fun c => (digitValue c).isSome)) = true := by
  unfold atoiDigits at h
  cases ds with
  | nil => simp at h
  | cons c cs =>
    cases hp : parseDigits (c :: cs) 0 with
    | none => simp [hp] at h
    | some n => simpa using parseDigits_all_digits _ _ _ hp

/-- What `strconv.Atoi` accepts is a signed decimal integer. -/
theorem Atoi_accepts_signed_decimal (intSize : Nat) (s : String)
    (h : (strconv.Atoi intSize s).2 = none) : isSignedDecimal s = true := by
  rw [Atoi_eq_atoiDigits] at h
  unfold isSignedDecimal
  unfold atoiSign at h
  split
  · rename_i ds heq
    rw [heq] at h
    exact atoiDigits_accepts intSize s true ds h
  · rename_i ds heq
    rw [heq] at h
    exact atoiDigits_accepts intSize s false ds h
  · rename_i ds h1 h2
    have hsigned : (match s.data with
        | '-' :: rest => (true, rest)
        | '+' :: rest => (false, rest)
        | cs => (false, cs)) = (false, s.data) := by
      split
      · rename_i rest heq
        exact absurd heq (h1 rest)
      · rename_i rest heq
        exact absurd heq (h2 rest)
      · rfl
    rw [hsigned] at h
    exact atoiDigits_accepts intSize s false s.data h

/-- The characters of the decimal form of an integer. -/
theorem fmtInt_data (n : Int) :
    (fmtInt n).data =
      if n < 0 then '-' :: Nat.toDigits 10 n.natAbs else Nat.toDigits 10 n.toNat := by
  unfold fmtInt
  split
  · simp [String.data_append]
  · rfl

/-- The decimal form of an integer holds no slash and is not empty. -/
theorem fmtInt_no_slash (n : Int) : '/' ∉ (fmtInt n).data ∧ fmtInt n ≠ "" := by
  have hdigits : ∀ m : Nat, '/' ∉ Nat.toDigits 10 m := by
    intro m hmem
    have := toDigitsCore_digits (m + 1) m [] (by simp) _ hmem
    revert this
    decide
  constructor
  · rw [fmtInt_data]
    split
    · simp only [List.mem_cons, not_or]
      exact ⟨by decide, hdigits _⟩
    · exact hdigits _
  · intro h
    have hd : (fmtInt n).data = [] := by rw [h]
    rw [fmtInt_data] at hd
    split at hd
    · simp at hd
    · exact toDigits_ne_nil _ hd

/-- The decimal form of an integer is read back by `strconv.Atoi` when it fits the `int`. -/
theorem Atoi_fmtInt_int (intSize : Nat) (n : Int) (hlo : -(2 : Int) ^ (intSize - 1) ≤ n)
    (hhi : n < (2 : Int) ^ (intSize - 1)) : strconv.Atoi intSize (fmtInt n) = (n, none) := by
  by_cases hneg : n < 0
  · have hdata : (fmtInt n).data = '-' :: Nat.toDigits 10 n.natAbs := by
      rw [fmtInt_data, if_pos hneg]
    have hparse : parseDigits (Nat.toDigits 10 n.natAbs) 0 = some n.natAbs := by
      unfold Nat.toDigits
      rw [parseDigits_toDigitsCore _ _ _ (Nat.lt_succ_self _)]
      rfl
    have hne := toDigits_ne_nil n.natAbs
    rw [Atoi_eq_atoiDigits, hdata]
    have hsign : atoiSign ('-' :: Nat.toDigits 10 n.natAbs) =
        (true, Nat.toDigits 10 n.natAbs) := rfl
    rw [hsign]
    unfold atoiDigits
    dsimp only
    cases hl : Nat.toDigits 10 n.natAbs with
    | nil => exact absurd hl hne
    | cons c cs =>
      simp only
      rw [← hl, hparse]
      have hv : -((n.natAbs : Nat) : Int) = n := by omega
      simp only [↓reduceIte, hv]
      have h1 : ¬ (n < -(2 : Int) ^ (intSize - 1)) := by omega
      have h2 : ¬ (n > (2 : Int) ^ (intSize - 1) - 1) := by omega
      simp [h1, h2]
  · have hnat : n = ((n.toNat : Nat) : Int) := by omega
    have hfit : n.toNat < 2 ^ (intSize - 1) := by
      have : ((n.toNat : Nat) : Int) < (2 : Int) ^ (intSize - 1) := by omega
      exact_mod_cast this
    have h := Atoi_fmtInt intSize n.toNat hfit
    rw [← hnat] at h
    exact h

/-- Claim C23: on a platform whose `int` has at least 64 bits, for every non-empty application ID
and environment ID without `/` and every deployment number in the range of a 64-bit signed
integer, the parser applied to the ID that Create builds returns the three of them and a nil
error; and whatever the platform, the parser returns a nil error only for an ID that splits on `/`
into exactly three non-empty parts whose third part is a signed decimal integer, and then returns
the first two parts and the number that `strconv.Atoi` reads in the third. -/
theorem deployment_id_round_trip (intSize : Nat) :
    (64 ≤ intSize → ∀ (appID envID : String) (n : Int), appID ≠ "" → envID ≠ "" →
      '/' ∉ appID.data → '/' ∉ envID.data → -(2 : Int) ^ 63 ≤ n → n < (2 : Int) ^ 63 →
      resourceAwsAppconfigDeploymentParseID intSize (deploymentCreateID appID envID n) =
        (appID, envID, n, none)) ∧
    (∀ id : String, (resourceAwsAppconfigDeploymentParseID intSize id).2.2.2 = none →
      ∃ a b c, strings.Split id '/' = [a, b, c] ∧ a ≠ "" ∧ b ≠ "" ∧ c ≠ "" ∧
        isSignedDecimal c = true ∧
        resourceAwsAppconfigDeploymentParseID intSize id =
          (a, b, (strconv.Atoi intSize c).1, none)) := by
  constructor
  · intro h64 appID envID n happ henv happSlash henvSlash hlo hhi
    obtain ⟨hslash, hnum⟩ := fmtInt_no_slash n
    have hpow : (2 : Int) ^ 63 ≤ (2 : Int) ^ (intSize - 1) :=
      pow_le_pow_right₀ (by norm_num) (by omega)
    have hatoi := Atoi_fmtInt_int intSize n (by omega) (by omega)
    have hsplit := split_deployment_id appID envID (fmtInt n).data happSlash henvSlash hslash
    unfold deploymentCreateID resourceAwsAppconfigDeploymentParseID
    simp [hsplit, happ, henv, hnum, hatoi]
  · intro id h
    unfold resourceAwsAppconfigDeploymentParseID at h ⊢
    dsimp only at h ⊢
    split at h
    · simp at h
    · rename_i hc
      rw [if_neg hc]
      simp only [bne_iff_ne, ne_eq, Bool.or_eq_true, decide_eq_true_eq, beq_iff_eq, not_or,
        Decidable.not_not] at hc
      obtain ⟨⟨⟨hlen, h0⟩, h1⟩, h2⟩ := hc
      match hparts : strings.Split id '/', hlen with
      | [a, b, c], _ =>
        rw [hparts] at h h0 h1 h2
        simp only [List.getD_cons_zero, List.getD_cons_succ] at h h0 h1 h2 ⊢
        cases hat : (strconv.Atoi intSize c).2 with
        | some err => simp [hat] at h
        | none =>
          exact ⟨a, b, c, rfl, h0, h1, h2, Atoi_accepts_signed_decimal intSize c hat, by simp⟩

/-- Claim C23 on deployment 12 and on the lowest number of 64 bits. -/
theorem deployment_id_round_trip_witness :
    resourceAwsAppconfigDeploymentParseID 64 (deploymentCreateID "abc1234" "env5678" 12) =
      ("abc1234", "env5678", 12, none) ∧
    resourceAwsAppconfigDeploymentParseID 64
        (deploymentCreateID "abc1234" "env5678" (-(2 : Int) ^ 63)) =
      ("abc1234", "env5678", -(2 : Int) ^ 63, none) ∧
    (∃ a b c, strings.Split "abc1234/env5678/+7" '/' = [a, b, c] ∧ a ≠ "" ∧ b ≠ "" ∧ c ≠ "" ∧
      isSignedDecimal c = true ∧
      resourceAwsAppconfigDeploymentParseID 64 "abc1234/env5678/+7" =
        (a, b, (strconv.Atoi 64 c).1, none)) :=
  ⟨(deployment_id_round_trip 64).1 (by decide) "abc1234" "env5678" 12 (by decide) (by decide)
      (by decide) (by decide) (by decide) (by decide),
   (deployment_id_round_trip 64).1 (by decide) "abc1234" "env5678" (-(2 : Int) ^ 63) (by decide)
      (by decide) (by decide) (by decide) (by decide) (by decide),
   (deployment_id_round_trip 64).2 "abc1234/env5678/+7" (by decide)⟩

/-! ### DataSync location URIs -/

/-- Every case of the table of `TestSubdirectoryFromLocationURI` passes. -/
theorem location_uri_test_table : datasync.testCases.all datasync.testCasePasses = true := by
  decide

/-- A text that has a prefix stripped starts with the prefix. -/
theorem stripPrefix_some (p l r : List Char) (h : datasync.stripPrefix p l = some r) :
    l = p ++ r := by
  induction p generalizing l with
  | nil =>
    simp only [datasync.stripPrefix, Option.some.injEq] at h
    simp [h]
  | cons c p ih =>
    cases l with
    | nil => simp [datasync.stripPrefix] at h
    | cons x l =>
      simp only [datasync.stripPrefix] at h
      split at h
      · rename_i hcx
        rw [hcx, ih l h]
        rfl
      · simp at h

/-- The part after the scheme, for each of the schemes that are supported. -/
theorem afterScheme_of_scheme (scheme : String) (hscheme : scheme ∈ datasync.locationURISchemes)
    (rest : List Char) :
    datasync.afterScheme (scheme.data ++ "://".data ++ rest) = some rest := by
  simp only [datasync.locationURISchemes, List.mem_cons, List.mem_singleton, List.not_mem_nil,
    or_false] at hscheme
  rcases hscheme with rfl | rfl | rfl | rfl | rfl <;>
    simp [datasync.afterScheme, datasync.locationURISchemes, datasync.stripPrefix]

/-- A location identifier followed by a slash is cut at the slash. -/
theorem span_globalID (globalID rest : List Char)
    (hid : ∀ c ∈ globalID, datasync.isGlobalIDChar c = true) :
    (globalID ++ '/' :: rest).span datasync.isGlobalIDChar = (globalID, '/' :: rest) := by
  induction globalID with
  | nil =>
    have : datasync.isGlobalIDChar '/' = false := by decide
    simp [List.span, List.span.loop, this]
  | cons c cs ih =>
    have hc := hid c (List.mem_cons_self _ _)
    have hcs := ih (fun x hx => hid x (List.mem_cons_of_mem _ hx))
    simp only [List.cons_append, List.span_eq_take_drop] at hcs ⊢
    simp only [List.takeWhile_cons, hc, ↓reduceIte, List.dropWhile_cons, Prod.mk.injEq,
      List.cons.injEq, true_and]
    simpa using hcs

/-- A location identifier followed by a slash is not an ARN. -/
theorem arnResource_globalID (globalID rest : List Char)
    (hid : ∀ c ∈ globalID, datasync.isGlobalIDChar c = true) :
    datasync.arnResource (globalID ++ '/' :: rest) = none := by
  unfold datasync.arnResource
  cases hstrip : datasync.stripPrefix "arn:".data (globalID ++ '/' :: rest) with
  | none => rfl
  | some r =>
    exfalso
    have hl := stripPrefix_some _ _ _ hstrip
    have hspan := span_globalID globalID rest hid
    rw [hl] at hspan
    have harn : ("arn:".data ++ r).span datasync.isGlobalIDChar = ("arn".data, ':' :: r) := by
      have h1 : datasync.isGlobalIDChar 'a' = true := by decide
      have h2 : datasync.isGlobalIDChar 'r' = true := by decide
      have h3 : datasync.isGlobalIDChar 'n' = true := by decide
      have h4 : datasync.isGlobalIDChar ':' = false := by decide
      show ('a' :: 'r' :: 'n' :: ':' :: r).span datasync.isGlobalIDChar = _
      simp [List.span_eq_take_drop, List.takeWhile_cons, List.dropWhile_cons, h1, h2, h3, h4]
    rw [harn] at hspan
    simp only [Prod.mk.injEq, List.cons.injEq] at hspan
    exact absurd hspan.2.1 (by decide)

/-- Claim C21: `SubdirectoryFromLocationURI` returns the empty string and an error for the empty
URI, for every URI that does not start with one of the schemes `s3`, `efs`, `nfs`, `smb` and `fsxw`
followed by `://`, such as `test://testing/`, and for every URI that has such a scheme and after it
nothing or a path that starts with a slash, such as `s3://` and `s3:///`. -/
theorem location_uri_rejected :
    (datasync.SubdirectoryFromLocationURI "").1 = "" ∧
    (datasync.SubdirectoryFromLocationURI "").2 ≠ none ∧
    (∀ uri : String,
      (∀ scheme ∈ datasync.locationURISchemes, ¬ (scheme.data ++ "://".data) <+: uri.data) →
      (datasync.SubdirectoryFromLocationURI uri).1 = "" ∧
      (datasync.SubdirectoryFromLocationURI uri).2 ≠ none) ∧
    (∀ scheme ∈ datasync.locationURISchemes, ∀ path : String,
      (path = "" ∨ path.data.head? = some '/') →
      (datasync.SubdirectoryFromLocationURI (scheme ++ "://" ++ path)).1 = "" ∧
      (datasync.SubdirectoryFromLocationURI (scheme ++ "://" ++ path)).2 ≠ none) ∧
    (∀ uri ∈ ["test://testing/", "s3://", "s3:///"],
      (datasync.SubdirectoryFromLocationURI uri).1 = "" ∧
      (datasync.SubdirectoryFromLocationURI uri).2 ≠ none) := by
  have herr : ∀ uri : String, datasync.subdirectoryOf uri.data = none →
      (datasync.SubdirectoryFromLocationURI uri).1 = "" ∧
      (datasync.SubdirectoryFromLocationURI uri).2 ≠ none := by
    intro uri h
    simp [datasync.SubdirectoryFromLocationURI, h]
  refine ⟨(herr "" (by decide)).1, (herr "" (by decide)).2, ?_, ?_, ?_⟩
  · intro uri hscheme
    apply herr
    have hnone : datasync.afterScheme uri.data = none := by
      unfold datasync.afterScheme
      rw [List.findSome?_eq_none_iff]
      intro scheme hmem
      cases hs : datasync.stripPrefix (scheme.data ++ "://".data) uri.data with
      | none => rfl
      | some r => exact absurd ⟨r, (stripPrefix_some _ _ _ hs).symm⟩ (hscheme scheme hmem)
    simp [datasync.subdirectoryOf, hnone]
  · intro scheme hmem path hpath
    apply herr
    have hdata : (scheme ++ "://" ++ path).data = scheme.data ++ "://".data ++ path.data := by
      simp [String.data_append]
    rw [hdata]
    unfold datasync.subdirectoryOf
    rw [afterScheme_of_scheme scheme hmem]
    rcases hpath with rfl | hhead
    · rfl
    · cases hp : path.data with
      | nil => rfl
      | cons c cs =>
        rw [hp] at hhead
        simp only [List.head?_cons, Option.some.injEq] at hhead
        subst hhead
        have harn := arnResource_globalID [] cs (by simp)
        simp only [List.nil_append] at harn
        have hspan := span_globalID [] cs (by simp)
        simp only [List.nil_append] at hspan
        simp only [harn, hspan]
  · intro uri huri
    simp only [List.mem_cons, List.mem_singleton, List.not_mem_nil, or_false] at huri
    rcases huri with rfl | rfl | rfl <;> exact herr _ (by decide)

/-- Claim C21 on a URI with the scheme `http` and on an FSx URI without identifier. -/
theorem location_uri_rejected_witness :
    ((datasync.SubdirectoryFromLocationURI "http://example.com/").1 = "" ∧
      (datasync.SubdirectoryFromLocationURI "http://example.com/").2 ≠ none) ∧
    ((datasync.SubdirectoryFromLocationURI ("fsxw" ++ "://" ++ "/share")).1 = "" ∧
      (datasync.SubdirectoryFromLocationURI ("fsxw" ++ "://" ++ "/share")).2 ≠ none) :=
  ⟨location_uri_rejected.2.2.1 "http://example.com/" (by decide),
   location_uri_rejected.2.2.2.1 "fsxw" (by decide) "/share" (Or.inr (by decide))⟩

/-- Claim C22: for every scheme among `s3`, `efs`, `nfs`, `smb` and `fsxw`, every non-empty location
identifier made of letters, digits, dots and hyphens, and every path that begins with a slash,
`SubdirectoryFromLocationURI` on scheme, `://`, identifier and path returns the path as it is and a
nil error. -/
theorem location_uri_subdirectory (scheme : String)
    (hscheme : scheme ∈ datasync.locationURISchemes) (globalID path : String)
    (hne : globalID ≠ "") (hid : ∀ c ∈ globalID.data, datasync.isGlobalIDChar c = true)
    (hpath : path.data.head? = some '/') :
    datasync.SubdirectoryFromLocationURI (scheme ++ "://" ++ globalID ++ path) = (path, none) := by
  have hdata : (scheme ++ "://" ++ globalID ++ path).data =
      scheme.data ++ "://".data ++ (globalID.data ++ path.data) := by
    simp [String.data_append]
  obtain ⟨rest, hrest⟩ : ∃ rest, path.data = '/' :: rest := by
    cases hp : path.data with
    | nil => simp [hp] at hpath
    | cons c cs =>
      rw [hp] at hpath
      simp only [List.head?_cons, Option.some.injEq] at hpath
      exact ⟨cs, by rw [hpath]⟩
  obtain ⟨g, gs, hg⟩ : ∃ g gs, globalID.data = g :: gs := by
    cases hgd : globalID.data with
    | nil => exact absurd (String.ext hgd) hne
    | cons g gs => exact ⟨g, gs, rfl⟩
  have harn := arnResource_globalID globalID.data rest hid
  have hspan := span_globalID globalID.data rest hid
  have hsub : datasync.subdirectoryOf (scheme ++ "://" ++ globalID ++ path).data =
      some path.data := by
    rw [hdata]
    unfold datasync.subdirectoryOf
    rw [afterScheme_of_scheme scheme hscheme, hrest]
    rw [hg] at harn hspan ⊢
    simp only [List.cons_append] at harn hspan ⊢
    simp only [harn, hspan]
  simp only [datasync.SubdirectoryFromLocationURI, hsub]

/-- Claim C22 on the top level of a bucket and on a folder of an EFS file system. -/
theorem location_uri_subdirectory_witness :
    datasync.SubdirectoryFromLocationURI ("s3" ++ "://" ++ "bucket" ++ "/") = ("/", none) ∧
    datasync.SubdirectoryFromLocationURI
        ("efs" ++ "://" ++ "us-west-2.fs-abcdef01" ++ "/my-folder-1/") =
      ("/my-folder-1/", none) :=
  ⟨location_uri_subdirectory "s3" (by decide) "bucket" "/" (by decide) (by decide) (by decide),
   location_uri_subdirectory "efs" (by decide) "us-west-2.fs-abcdef01" "/my-folder-1/"
      (by decide) (by decide) (by decide)⟩

end TerraformAws
